import Mathlib

/-!
# Ray tracer (Q1, Q2, Q3): embedding and verified properties

The three programs `Q1.cpp`, `Q2.cpp`, `Q3.cpp` are variants of one ray tracer.
This file embeds their vector algebra, primitives, shadow test, shading and
sampling loop, and proves properties of them.

Modelling conventions:

* `float` is idealised as a real number (`ℝ`); rounding, infinities and NaN are
  not modelled. `std::sqrt` is `Real.sqrt`, `std::pow` is the real power,
  `std::max` / `std::min` / `std::abs` are `max` / `min` / `|·|`. A literal such
  as `0.001f` or `1e-4` denotes its decimal value.
* A C++ `bool intersect(const Ray&, float& t)` is embedded as a function to
  `Option ℝ`: `some t` when the source returns `true` having stored `t`,
  `none` when it returns `false` (every caller reads `t` only after `true`).
* The global scene (`spheres`, `ground`, `lightPos`, `lightColor`) is passed
  explicitly as a `Scene` value; the constant `lightColor` of Q2 is a definition.
* `Vec3`, `Ray`, `Material`, `Sphere`, `Plane` have the same fields in the three
  programs and are shared; functions that differ live in the namespaces
  `Q1`, `Q2`, `Q3`.
-/

noncomputable section

/-! ## Vector algebra (`struct Vec3`) -/

/-- Three-component vector `Vec3 { float x, y, z; }`. -/
@[ext]
structure Vec3 where
  x : ℝ
  y : ℝ
  z : ℝ

namespace Vec3

/-- Default constructor `Vec3()`: the zero vector. -/
def zero : Vec3 := ⟨0, 0, 0⟩

/-- Componentwise sum, `operator+(const Vec3&)`. -/
def add (a v : Vec3) : Vec3 := ⟨a.x + v.x, a.y + v.y, a.z + v.z⟩

/-- Componentwise difference, `operator-(const Vec3&)`. -/
def sub (a v : Vec3) : Vec3 := ⟨a.x - v.x, a.y - v.y, a.z - v.z⟩

/-- Scaling by a scalar, `operator*(float)`. -/
def scale (a : Vec3) (s : ℝ) : Vec3 := ⟨a.x * s, a.y * s, a.z * s⟩

/-- Componentwise product, `operator*(const Vec3&)`. -/
def mul (a v : Vec3) : Vec3 := ⟨a.x * v.x, a.y * v.y, a.z * v.z⟩

/-- Unary minus, `operator-()` (Q2, Q3). -/
def neg (a : Vec3) : Vec3 := ⟨-a.x, -a.y, -a.z⟩

/-- Dot product, `dot`. -/
def dot (a v : Vec3) : ℝ := a.x * v.x + a.y * v.y + a.z * v.z

/-- The length computed inside `normalize`: `std::sqrt(x*x + y*y + z*z)`. -/
def len (a : Vec3) : ℝ := Real.sqrt (a.x * a.x + a.y * a.y + a.z * a.z)

instance : Add Vec3 := ⟨add⟩
instance : Sub Vec3 := ⟨sub⟩
instance : Neg Vec3 := ⟨neg⟩
instance : Mul Vec3 := ⟨mul⟩
instance : HMul Vec3 ℝ Vec3 := ⟨scale⟩

end Vec3

/-- Q1 `Vec3::normalize`: divides by the length with no guard. For the zero
vector the source divides zero by zero and its result is not a number; the total
division of `ℝ` gives the model a value there that the source does not have, so
the properties of Q1 are stated for arguments of non-zero length, and
`Q1.normalizeDivisors` lists the divisors. -/
def Q1.normalize (a : Vec3) : Vec3 :=
  let len := a.len
  ⟨a.x / len, a.y / len, a.z / len⟩

/-- Q2 `Vec3::normalize`: `len > 0 ? Vec3(x/len, y/len, z/len) : Vec3()`. -/
def Q2.normalize (a : Vec3) : Vec3 :=
  let len := a.len
  if len > 0 then ⟨a.x / len, a.y / len, a.z / len⟩ else Vec3.zero

/-- Q3 `Vec3::normalize`: the same guarded division as Q2. -/
def Q3.normalize (a : Vec3) : Vec3 :=
  let len := a.len
  if len > 0 then ⟨a.x / len, a.y / len, a.z / len⟩ else Vec3.zero

/-- Q2 `Vec3::powf(gamma)`: each channel raised to `gamma`. -/
def Q2.powf (a : Vec3) (gamma : ℝ) : Vec3 := ⟨a.x ^ gamma, a.y ^ gamma, a.z ^ gamma⟩

/-- Q3 `Vec3::powf(g)`: each channel raised to `1.0f / g`. -/
def Q3.powf (a : Vec3) (g : ℝ) : Vec3 := ⟨a.x ^ (1 / g), a.y ^ (1 / g), a.z ^ (1 / g)⟩

/-! ## Rays, materials, primitives -/

/-- Ray with fields `origin`, `direction`. -/
structure Ray where
  origin : Vec3
  direction : Vec3

/-- Constructor `Ray(origin, direction)` of Q1: normalizes the direction. -/
def Q1.Ray.new (origin direction : Vec3) : Ray := ⟨origin, Q1.normalize direction⟩

/-- Constructor `Ray(o, d)` of Q2: stores the direction as given. -/
def Q2.Ray.new (o d : Vec3) : Ray := ⟨o, d⟩

/-- Constructor `Ray(o, d)` of Q3: stores the direction as given. -/
def Q3.Ray.new (o d : Vec3) : Ray := ⟨o, d⟩

/-- Reflectance coefficients `ka`, `kd`, `ks` and the specular exponent. -/
structure Material where
  ka : Vec3
  kd : Vec3
  ks : Vec3
  specularPower : ℝ

/-- Sphere with `center`, `radius`, `material`. -/
structure Sphere where
  center : Vec3
  radius : ℝ
  material : Material

/-- Horizontal plane at height `y`. -/
structure Plane where
  y : ℝ
  material : Material

/-- Q1 `Sphere::intersect`: only the root `(-b - sqrt(disc)) / (2a)` is
computed; the result is a hit when that root is positive. -/
def Q1.Sphere.intersect (s : Sphere) (ray : Ray) : Option ℝ :=
  let oc := ray.origin - s.center
  let a := ray.direction.dot ray.direction
  let b := 2 * oc.dot ray.direction
  let c := oc.dot oc - s.radius * s.radius
  let discriminant := b * b - 4 * a * c
  if discriminant < 0 then none
  else
    let t := (-b - Real.sqrt discriminant) / (2 * a)
    if t > 0 then some t else none

/-- Q2 `Sphere::intersect`: both roots (with `a = 1` assumed), the smaller one
when positive, otherwise the larger one. -/
def Q2.Sphere.intersect (s : Sphere) (ray : Ray) : Option ℝ :=
  let oc := ray.origin - s.center
  let b := 2 * oc.dot ray.direction
  let c := oc.dot oc - s.radius * s.radius
  let discriminant := b * b - 4 * c
  if discriminant < 0 then none
  else
    let discriminant := Real.sqrt discriminant
    let t0 := (-b - discriminant) * (1 / 2)
    let t1 := (-b + discriminant) * (1 / 2)
    let t := if t0 > 0 then t0 else t1
    if t > 0 then some t else none

/-- Q3 `Sphere::intersect`: as Q2, the roots written with `/ 2.0f`. -/
def Q3.Sphere.intersect (s : Sphere) (ray : Ray) : Option ℝ :=
  let oc := ray.origin - s.center
  let b := 2 * oc.dot ray.direction
  let c := oc.dot oc - s.radius * s.radius
  let disc := b * b - 4 * c
  if disc < 0 then none
  else
    let disc := Real.sqrt disc
    let t0 := (-b - disc) / 2
    let t1 := (-b + disc) / 2
    let t := if t0 > 0 then t0 else t1
    if t > 0 then some t else none

/-- Q1 `Plane::intersect`: rejects `|direction.y| < 1e-4`. -/
def Q1.Plane.intersect (p : Plane) (ray : Ray) : Option ℝ :=
  if |ray.direction.y| < 1 / 10000 then none
  else
    let t := (p.y - ray.origin.y) / ray.direction.y
    if t > 0 then some t else none

/-- Q2 `Plane::intersect`: rejects `direction.y == 0` only. -/
def Q2.Plane.intersect (p : Plane) (ray : Ray) : Option ℝ :=
  if ray.direction.y = 0 then none
  else
    let t := (p.y - ray.origin.y) / ray.direction.y
    if t > 0 then some t else none

/-- Q3 `Plane::intersect`: the same test as Q2. -/
def Q3.Plane.intersect (p : Plane) (ray : Ray) : Option ℝ :=
  if ray.direction.y = 0 then none
  else
    let t := (p.y - ray.origin.y) / ray.direction.y
    if t > 0 then some t else none

/-- The point `origin + direction * t` of a ray. -/
def Ray.pointAt (ray : Ray) (t : ℝ) : Vec3 := ray.origin + ray.direction * t

/-- Squared distance of the ray point at parameter `t` from the sphere centre. -/
def Sphere.distSq (s : Sphere) (ray : Ray) (t : ℝ) : ℝ :=
  (ray.pointAt t - s.center).dot (ray.pointAt t - s.center)

/-- The parameter `t` solves `|origin + t*direction - center|^2 = radius^2`. -/
def Sphere.IsRoot (s : Sphere) (ray : Ray) (t : ℝ) : Prop :=
  s.distSq ray t = s.radius ^ 2

/-- The coefficient `b = 2 * oc.dot(direction)` of the intersection quadratic. -/
def Sphere.quadB (s : Sphere) (ray : Ray) : ℝ :=
  2 * (ray.origin - s.center).dot ray.direction

/-- The coefficient `c = oc.dot(oc) - radius * radius` of the intersection quadratic. -/
def Sphere.quadC (s : Sphere) (ray : Ray) : ℝ :=
  (ray.origin - s.center).dot (ray.origin - s.center) - s.radius * s.radius

/-- The smaller root `t0 = (-b - sqrt(b^2 - 4c)) / 2` of `t^2 + b t + c`. -/
def Sphere.smallRoot (s : Sphere) (ray : Ray) : ℝ :=
  (-s.quadB ray - Real.sqrt (s.quadB ray * s.quadB ray - 4 * s.quadC ray)) / 2

/-- The larger root `t1 = (-b + sqrt(b^2 - 4c)) / 2` of `t^2 + b t + c`. -/
def Sphere.largeRoot (s : Sphere) (ray : Ray) : ℝ :=
  (-s.quadB ray + Real.sqrt (s.quadB ray * s.quadB ray - 4 * s.quadC ray)) / 2

/-- Contract of a sphere intersection result `res`: it is a hit exactly when the
sphere equation has a strictly positive root, and a reported `t` is the smallest
strictly positive root, namely the smaller root when that is positive and the
larger root otherwise. -/
def Sphere.SmallestPositiveRoot (s : Sphere) (ray : Ray) (res : Option ℝ) : Prop :=
  (res.isSome = true ↔ ∃ t, 0 < t ∧ s.IsRoot ray t) ∧
  ∀ t, res = some t →
    0 < t ∧ s.IsRoot ray t ∧ (∀ u, 0 < u → s.IsRoot ray u → t ≤ u) ∧
      t = if 0 < s.smallRoot ray then s.smallRoot ray else s.largeRoot ray

/-! ## Scene, shadow test, shading -/

/-- The global scene state: `spheres`, `ground` and `lightPos`. -/
structure Scene where
  spheres : List Sphere
  ground : Plane
  lightPos : Vec3

/-- The constant `std::numeric_limits<float>::max()`, that is `(2 - 2^-23) * 2^127`. -/
def FLT_MAX : ℝ := 340282346638528859811704183484516925440

/-- Q1 `shade`: ambient plus Blinn-Phong diffuse and specular; no shadow test
inside. -/
def Q1.shade (sc : Scene) (point normal : Vec3) (material : Material) (ray : Ray) : Vec3 :=
  let color := material.ka * (⟨1, 1, 1⟩ : Vec3)
  let lightDir := Q1.normalize (sc.lightPos - point)
  let viewDir := Q1.normalize (ray.origin - point)
  let halfVec := Q1.normalize (viewDir + lightDir)
  let diff := max (normal.dot lightDir) 0
  let spec := (max (normal.dot halfVec) 0) ^ material.specularPower
  let diffuse := material.kd * diff
  let specular := material.ks * spec
  color + (diffuse + specular)

/-- Q1 `isInShadow`: the shadow ray starts at `point + normalize(toLight) * 0.001`
and is built by the normalizing `Ray` constructor. A sphere occludes when its hit
`t` satisfies `t < toLight.dot(toLight)`; the ground occludes when
`planeT * planeT < toLight.dot(toLight)`. -/
def Q1.isInShadow (sc : Scene) (point : Vec3) : Bool :=
  let toLight := sc.lightPos - point
  let shadowRay := Q1.Ray.new (point + Q1.normalize toLight * (1 / 1000 : ℝ)) toLight
  sc.spheres.any (fun sphere =>
      match Q1.Sphere.intersect sphere shadowRay with
      | some t => decide (t < toLight.dot toLight)
      | none => false)
    || (match Q1.Plane.intersect sc.ground shadowRay with
        | some planeT => decide (planeT * planeT < toLight.dot toLight)
        | none => false)

/-- Q2 global `lightColor(1, 1, 1)`. -/
def Q2.lightColor : Vec3 := ⟨1, 1, 1⟩

/-- Q2 `inShadow`: any hit of any sphere or of the ground by the shadow ray. -/
def Q2.inShadow (sc : Scene) (point lightDir : Vec3) : Bool :=
  let shadowRay := Q2.Ray.new (point + lightDir * (1 / 1000 : ℝ)) lightDir
  sc.spheres.any (fun sphere => (Q2.Sphere.intersect sphere shadowRay).isSome)
    || (Q2.Plane.intersect sc.ground shadowRay).isSome

/-- Q2 `shade`: ambient, plus diffuse and Blinn-Phong specular when the point is
not in shadow. -/
def Q2.shade (sc : Scene) (point normal viewDir : Vec3) (mat : Material) : Vec3 :=
  let color := mat.ka * Q2.lightColor
  let lightDir := Q2.normalize (sc.lightPos - point)
  if !Q2.inShadow sc point lightDir then
    let diff := max (normal.dot lightDir) 0
    let halfway := Q2.normalize (viewDir + lightDir)
    let spec := (max (normal.dot halfway) 0) ^ mat.specularPower
    color + (mat.kd * Q2.lightColor * diff + mat.ks * Q2.lightColor * spec)
  else color

/-- The shadow ray of Q3 `shade`: origin `point + normal * 0.001`, direction
`normalize(lightPos - point)`. -/
def Q3.shadowRay (sc : Scene) (point normal : Vec3) : Ray :=
  Q3.Ray.new (point + normal * (1 / 1000 : ℝ)) (Q3.normalize (sc.lightPos - point))

/-- Q3 `shade`: returns `mat.ka` as soon as a sphere is hit by the shadow ray (the
loop runs over `spheres` only), otherwise ambient plus diffuse plus
reflection-vector Phong specular. -/
def Q3.shade (sc : Scene) (point normal viewDir : Vec3) (mat : Material) : Vec3 :=
  let lightDir := Q3.normalize (sc.lightPos - point)
  let shadowRay := Q3.Ray.new (point + normal * (1 / 1000 : ℝ)) lightDir
  if sc.spheres.any (fun s => (Q3.Sphere.intersect s shadowRay).isSome) then mat.ka
  else
    let diff := max 0 (normal.dot lightDir)
    let reflectDir := Q3.normalize (normal * (2 : ℝ) * normal.dot lightDir - lightDir)
    let spec := (max 0 (viewDir.dot reflectDir)) ^ mat.specularPower
    mat.ka + mat.kd * diff + mat.ks * spec

/-! ## Tracing one camera ray and filling one pixel -/

/-- One iteration of the sphere loop of Q2 `renderScene`, on the loop state
`(closest, finalColor)`. -/
def Q2.sphereStep (sc : Scene) (ray : Ray) (st : ℝ × Vec3) (sphere : Sphere) : ℝ × Vec3 :=
  match Q2.Sphere.intersect sphere ray with
  | some t =>
    if t < st.1 then
      let hit := ray.origin + ray.direction * t
      let normal := Q2.normalize (hit - sphere.center)
      let viewDir := -ray.direction
      (t, Q2.shade sc hit normal viewDir sphere.material)
    else st
  | none => st

/-- The body of Q2 `renderScene` for one camera ray, before gamma correction:
the sphere loop from `(FLT_MAX, black)`, then the ground test against `closest`. -/
def Q2.trace (sc : Scene) (ray : Ray) : Vec3 :=
  let st := sc.spheres.foldl (Q2.sphereStep sc ray) (FLT_MAX, (⟨0, 0, 0⟩ : Vec3))
  match Q2.Plane.intersect sc.ground ray with
  | some tp =>
    if tp < st.1 then
      let hit := ray.origin + ray.direction * tp
      let normal : Vec3 := ⟨0, 1, 0⟩
      let viewDir := -ray.direction
      Q2.shade sc hit normal viewDir sc.ground.material
    else st.2
  | none => st.2

/-- One iteration of the sphere loop of Q3 `renderScene`. -/
def Q3.sphereStep (sc : Scene) (ray : Ray) (st : ℝ × Vec3) (sphere : Sphere) : ℝ × Vec3 :=
  match Q3.Sphere.intersect sphere ray with
  | some t =>
    if t < st.1 then
      let hit := ray.origin + ray.direction * t
      let normal := Q3.normalize (hit - sphere.center)
      let viewDir := -ray.direction
      (t, Q3.shade sc hit normal viewDir sphere.material)
    else st
  | none => st

/-- The body of the sample loop of Q3 `renderScene` for one camera ray. -/
def Q3.trace (sc : Scene) (ray : Ray) : Vec3 :=
  let st := sc.spheres.foldl (Q3.sphereStep sc ray) (FLT_MAX, (⟨0, 0, 0⟩ : Vec3))
  match Q3.Plane.intersect sc.ground ray with
  | some tp =>
    if tp < st.1 then
      let hit := ray.origin + ray.direction * tp
      let normal : Vec3 := ⟨0, 1, 0⟩
      let viewDir := -ray.direction
      Q3.shade sc hit normal viewDir sc.ground.material
    else st.2
  | none => st.2

/-- Image width `WIDTH`. -/
def WIDTH : ℕ := 512

/-- Image height `HEIGHT`. -/
def HEIGHT : ℕ := 512

/-- Camera ray of Q2 for pixel `(x, y)`, through the pixel centre, with the
near-plane bounds `l = -0.1, r = 0.1, b = -0.1, t = 0.1, d = 0.1`. -/
def Q2.cameraRay (x y : ℕ) : Ray :=
  let l : ℝ := -(1 / 10)
  let r : ℝ := 1 / 10
  let b : ℝ := -(1 / 10)
  let t : ℝ := 1 / 10
  let d : ℝ := 1 / 10
  let u := l + (r - l) * ((x : ℝ) + 1 / 2) / (WIDTH : ℝ)
  let v := b + (t - b) * ((y : ℝ) + 1 / 2) / (HEIGHT : ℝ)
  let dir := Q2.normalize ⟨u, v, -d⟩
  Q2.Ray.new ⟨0, 0, 0⟩ dir

/-- The value Q2 `renderScene` stores in `image[y][x]`: the traced colour after
`powf(1.0f / 2.2f)`. -/
def Q2.renderPixel (sc : Scene) (x y : ℕ) : Vec3 :=
  Q2.powf (Q2.trace sc (Q2.cameraRay x y)) (1 / (22 / 10))

/-- Camera ray of one Q3 sample of pixel `(x, y)`; `jx`, `jy` stand for the two
draws `rand() / RAND_MAX`. -/
def Q3.cameraRay (x y : ℕ) (jx jy : ℝ) : Ray :=
  let l : ℝ := -(1 / 10)
  let r : ℝ := 1 / 10
  let b : ℝ := -(1 / 10)
  let t : ℝ := 1 / 10
  let d : ℝ := 1 / 10
  let u := l + (r - l) * ((x : ℝ) + jx) / (WIDTH : ℝ)
  let v := b + (t - b) * ((y : ℝ) + jy) / (HEIGHT : ℝ)
  let dir := Q3.normalize ⟨u, v, -d⟩
  Q3.Ray.new ⟨0, 0, 0⟩ dir

/-- The traced colour `finalColor` of one Q3 sample. -/
def Q3.sampleColor (sc : Scene) (x y : ℕ) (j : ℝ × ℝ) : Vec3 :=
  Q3.trace sc (Q3.cameraRay x y j.1 j.2)

/-- The accumulator `colorSum` after the sample loop of Q3, one iteration for
each jitter pair: `colorSum += finalColor` from `Vec3(0, 0, 0)`. -/
def Q3.colorSum (sc : Scene) (x y : ℕ) (jitters : List (ℝ × ℝ)) : Vec3 :=
  jitters.foldl (fun colorSum j => colorSum + Q3.sampleColor sc x y j) ⟨0, 0, 0⟩

/-- The value `colorSum * (1.0f / SAMPLES)` of Q3, with the sample count taken as
the number of jitter pairs. -/
def Q3.pixelAverage (sc : Scene) (x y : ℕ) (jitters : List (ℝ × ℝ)) : Vec3 :=
  Q3.colorSum sc x y jitters * (1 / (jitters.length : ℝ))

/-- The value Q3 `renderScene` stores in `image[y][x]`: the average after
`powf(2.2f)`. -/
def Q3.renderPixel (sc : Scene) (x y : ℕ) (jitters : List (ℝ × ℝ)) : Vec3 :=
  Q3.powf (Q3.pixelAverage sc x y jitters) (22 / 10)

/-! ## Notions used to state the properties -/

/-- The specular factor `spec` computed by Q1 `shade`. -/
def Q1.specFactor (sc : Scene) (point normal : Vec3) (material : Material) (ray : Ray) : ℝ :=
  let lightDir := Q1.normalize (sc.lightPos - point)
  let viewDir := Q1.normalize (ray.origin - point)
  let halfVec := Q1.normalize (viewDir + lightDir)
  (max (normal.dot halfVec) 0) ^ material.specularPower

/-- The specular factor `spec` computed by Q2 `shade`. -/
def Q2.specFactor (sc : Scene) (point normal viewDir : Vec3) (mat : Material) : ℝ :=
  let lightDir := Q2.normalize (sc.lightPos - point)
  let halfway := Q2.normalize (viewDir + lightDir)
  (max (normal.dot halfway) 0) ^ mat.specularPower

/-- The specular factor `spec` computed by Q3 `shade`. -/
def Q3.specFactor (sc : Scene) (point normal viewDir : Vec3) (mat : Material) : ℝ :=
  let lightDir := Q3.normalize (sc.lightPos - point)
  let reflectDir := Q3.normalize (normal * (2 : ℝ) * normal.dot lightDir - lightDir)
  (max 0 (viewDir.dot reflectDir)) ^ mat.specularPower

/-- The shadow ray built by Q1 `isInShadow`: origin
`point + normalize(toLight) * 0.001`, direction normalized by the constructor. -/
def Q1.shadowRay (sc : Scene) (point : Vec3) : Ray :=
  Q1.Ray.new (point + Q1.normalize (sc.lightPos - point) * (1 / 1000 : ℝ)) (sc.lightPos - point)

/-- The shadow ray built by Q2 `shade` and `inShadow` for a point: origin
`point + lightDir * 0.001`, direction `lightDir = normalize(lightPos - point)`. -/
def Q2.shadowRay (sc : Scene) (point : Vec3) : Ray :=
  Q2.Ray.new (point + Q2.normalize (sc.lightPos - point) * (1 / 1000 : ℝ))
    (Q2.normalize (sc.lightPos - point))

/-- The occlusion test as the specification words it for Q1: some sphere or the
ground plane is hit by the shadow ray at a parametric distance smaller than the
Euclidean distance from the point to the light. -/
def Q1.OccludedBeforeLight (sc : Scene) (point : Vec3) : Prop :=
  (∃ sphere ∈ sc.spheres, ∃ t, Q1.Sphere.intersect sphere (Q1.shadowRay sc point) = some t ∧
      t < (sc.lightPos - point).len) ∨
    ∃ t, Q1.Plane.intersect sc.ground (Q1.shadowRay sc point) = some t ∧
      t < (sc.lightPos - point).len

/-- One step of a nearest-hit scan over spheres, for an arbitrary intersection
test `isect` and hit colour `col`: the shape shared by the sphere loops of Q2 and
Q3. -/
def scanStep (isect : Sphere → Option ℝ) (col : Sphere → ℝ → Vec3) (st : ℝ × Vec3)
    (sphere : Sphere) : ℝ × Vec3 :=
  match isect sphere with
  | some t => if t < st.1 then (t, col sphere t) else st
  | none => st

/-- No primitive reports a hit. -/
def NoHit (isect : Sphere → Option ℝ) (planeHit : Option ℝ) (spheres : List Sphere) : Prop :=
  (∀ s ∈ spheres, isect s = none) ∧ planeHit = none

/-- The sphere `s`, hit at `t`, is the nearest primitive: every sphere earlier in
the list is hit strictly later (if at all), every later sphere and the plane are
hit no earlier. So the earliest sphere wins ties and a sphere wins a tie with the
plane. -/
def IsNearestSphere (isect : Sphere → Option ℝ) (planeHit : Option ℝ) (spheres : List Sphere)
    (s : Sphere) (t : ℝ) : Prop :=
  ∃ pre post, spheres = pre ++ s :: post ∧ isect s = some t ∧
    (∀ s' ∈ pre, ∀ t', isect s' = some t' → t < t') ∧
    (∀ s' ∈ post, ∀ t', isect s' = some t' → t ≤ t') ∧
    (∀ tp, planeHit = some tp → t ≤ tp)

/-- The plane, hit at `tp`, is the nearest primitive: every sphere that is hit is
hit strictly later. -/
def IsNearestPlane (isect : Sphere → Option ℝ) (planeHit : Option ℝ) (spheres : List Sphere)
    (tp : ℝ) : Prop :=
  planeHit = some tp ∧ ∀ s' ∈ spheres, ∀ t', isect s' = some t' → tp < t'

/-- Q2: `shade` at the hit point, normal and material of a sphere hit at `t`. -/
def Q2.sphereColor (sc : Scene) (ray : Ray) (sphere : Sphere) (t : ℝ) : Vec3 :=
  Q2.shade sc (ray.origin + ray.direction * t)
    (Q2.normalize (ray.origin + ray.direction * t - sphere.center)) (-ray.direction)
    sphere.material

/-- Q2: `shade` at the hit point of the ground plane hit at `tp`, with normal
`(0, 1, 0)` and the ground material. -/
def Q2.groundColor (sc : Scene) (ray : Ray) (tp : ℝ) : Vec3 :=
  Q2.shade sc (ray.origin + ray.direction * tp) ⟨0, 1, 0⟩ (-ray.direction) sc.ground.material

/-- Q3: `shade` at the hit point, normal and material of a sphere hit at `t`. -/
def Q3.sphereColor (sc : Scene) (ray : Ray) (sphere : Sphere) (t : ℝ) : Vec3 :=
  Q3.shade sc (ray.origin + ray.direction * t)
    (Q3.normalize (ray.origin + ray.direction * t - sphere.center)) (-ray.direction)
    sphere.material

/-- Q3: `shade` at the hit point of the ground plane hit at `tp`. -/
def Q3.groundColor (sc : Scene) (ray : Ray) (tp : ℝ) : Vec3 :=
  Q3.shade sc (ray.origin + ray.direction * tp) ⟨0, 1, 0⟩ (-ray.direction) sc.ground.material

/-- The traced colour `res` of a ray resolves the nearest hit: black when nothing
is hit, otherwise the colour of the nearest primitive, provided its hit distance
is below the initial value `FLT_MAX` of `closest`. -/
def ResolvesNearest (isect : Sphere → Option ℝ) (planeHit : Option ℝ) (spheres : List Sphere)
    (sphereCol : Sphere → ℝ → Vec3) (groundCol : ℝ → Vec3) (res : Vec3) : Prop :=
  (NoHit isect planeHit spheres → res = ⟨0, 0, 0⟩) ∧
  (∀ s t, IsNearestSphere isect planeHit spheres s t → t < FLT_MAX → res = sphereCol s t) ∧
  (∀ tp, IsNearestPlane isect planeHit spheres tp → tp < FLT_MAX → res = groundCol tp)

/-- Q2 traces `ray` black although the ground plane, hit at `tp`, is the nearest
primitive and `shade` at that hit is not black. -/
def Q2.BlackDespiteGroundHit (sc : Scene) (ray : Ray) (tp : ℝ) : Prop :=
  IsNearestPlane (fun s => Q2.Sphere.intersect s ray) (Q2.Plane.intersect sc.ground ray)
      sc.spheres tp ∧
    Q2.trace sc ray = ⟨0, 0, 0⟩ ∧ Q2.groundColor sc ray tp ≠ ⟨0, 0, 0⟩

/-- Q3 traces `ray` black although the ground plane, hit at `tp`, is the nearest
primitive and `shade` at that hit is not black. -/
def Q3.BlackDespiteGroundHit (sc : Scene) (ray : Ray) (tp : ℝ) : Prop :=
  IsNearestPlane (fun s => Q3.Sphere.intersect s ray) (Q3.Plane.intersect sc.ground ray)
      sc.spheres tp ∧
    Q3.trace sc ray = ⟨0, 0, 0⟩ ∧ Q3.groundColor sc ray tp ≠ ⟨0, 0, 0⟩

/-- Gamma encoding as the specification words it: `output = color ^ (1/gamma)`,
channel by channel. -/
def gammaEncode (c : Vec3) (gamma : ℝ) : Vec3 :=
  ⟨c.x ^ (1 / gamma), c.y ^ (1 / gamma), c.z ^ (1 / gamma)⟩

/-- The divisors of the divisions that Q1 `normalize` executes: the three
components are divided by `len`, unconditionally. -/
def Q1.normalizeDivisors (a : Vec3) : List ℝ :=
  let len := a.len
  [len, len, len]

/-- The divisors of the divisions that Q2 `normalize` executes: the three
divisions by `len` happen only in the branch `len > 0`. -/
def Q2.normalizeDivisors (a : Vec3) : List ℝ :=
  let len := a.len
  if len > 0 then [len, len, len] else []

/-- The divisors of the divisions that Q3 `normalize` executes, as in Q2. -/
def Q3.normalizeDivisors (a : Vec3) : List ℝ :=
  let len := a.len
  if len > 0 then [len, len, len] else []

/-- The divisors of the divisions that Q1 `shade` executes: its three calls of
`normalize`, on `lightPos - point`, on `ray.origin - point` and on
`viewDir + lightDir`, each divide the components by the length of the argument. -/
def Q1.shadeDivisors (sc : Scene) (point : Vec3) (ray : Ray) : List ℝ :=
  let lightDir := Q1.normalize (sc.lightPos - point)
  let viewDir := Q1.normalize (ray.origin - point)
  Q1.normalizeDivisors (sc.lightPos - point) ++ Q1.normalizeDivisors (ray.origin - point)
    ++ Q1.normalizeDivisors (viewDir + lightDir)

/-- All nine reflectance coefficients of a material lie in `[0, 1]`. -/
def Material.InUnitRange (m : Material) : Prop :=
  (0 ≤ m.ka.x ∧ m.ka.x ≤ 1) ∧ (0 ≤ m.ka.y ∧ m.ka.y ≤ 1) ∧ (0 ≤ m.ka.z ∧ m.ka.z ≤ 1) ∧
  (0 ≤ m.kd.x ∧ m.kd.x ≤ 1) ∧ (0 ≤ m.kd.y ∧ m.kd.y ≤ 1) ∧ (0 ≤ m.kd.z ∧ m.kd.z ≤ 1) ∧
  (0 ≤ m.ks.x ∧ m.ks.x ≤ 1) ∧ (0 ≤ m.ks.y ∧ m.ks.y ≤ 1) ∧ (0 ≤ m.ks.z ∧ m.ks.z ≤ 1)

/-- The material coefficients of every primitive of the scene lie in `[0, 1]`. -/
def Scene.InUnitRange (sc : Scene) : Prop :=
  (∀ s ∈ sc.spheres, s.material.InUnitRange) ∧ sc.ground.material.InUnitRange

/-! ## The reference scene of `main` and concrete inputs -/

/-- Material `red` of `main`. -/
def red : Material := ⟨⟨2 / 10, 0, 0⟩, ⟨1, 0, 0⟩, ⟨0, 0, 0⟩, 0⟩

/-- Material `green` of `main`. -/
def green : Material := ⟨⟨0, 2 / 10, 0⟩, ⟨0, 1 / 2, 0⟩, ⟨1 / 2, 1 / 2, 1 / 2⟩, 32⟩

/-- Material `blue` of `main`. -/
def blue : Material := ⟨⟨0, 0, 2 / 10⟩, ⟨0, 0, 1⟩, ⟨0, 0, 0⟩, 0⟩

/-- Material `gray` of `main`. -/
def gray : Material := ⟨⟨2 / 10, 2 / 10, 2 / 10⟩, ⟨1, 1, 1⟩, ⟨0, 0, 0⟩, 0⟩

/-- The red sphere of the reference scene. -/
def redSphere : Sphere := ⟨⟨-4, 0, -7⟩, 1, red⟩

/-- The green sphere of the reference scene. -/
def greenSphere : Sphere := ⟨⟨0, 0, -7⟩, 2, green⟩

/-- The blue sphere of the reference scene. -/
def blueSphere : Sphere := ⟨⟨4, 0, -7⟩, 1, blue⟩

/-- The scene built by `main`: three spheres, the ground at `y = -2`, the light
at `(-4, 4, -3)`. -/
def referenceScene : Scene :=
  { spheres := [⟨⟨-4, 0, -7⟩, 1, red⟩, ⟨⟨0, 0, -7⟩, 2, green⟩, ⟨⟨4, 0, -7⟩, 1, blue⟩]
    ground := ⟨-2, gray⟩
    lightPos := ⟨-4, 4, -3⟩ }

/-- The camera ray of Q2 for the pixel `x = 256, y = 256`. -/
def centerRay : Ray := Q2.cameraRay 256 256

/-- The hit distance of `centerRay` on the green sphere: the smaller root. -/
def centerT : ℝ := greenSphere.smallRoot centerRay

/-- The hit point `ray.origin + ray.direction * t` of `centerRay` on the green
sphere. -/
def centerHit : Vec3 := centerRay.origin + centerRay.direction * centerT

/-- A unit sphere centred at `(0, 0, -5)`. -/
def frontSphere : Sphere := ⟨⟨0, 0, -5⟩, 1, red⟩

/-- The point `(0, 0, -4)` of the unit sphere `frontSphere` nearest the origin. -/
def frontPoint : Vec3 := ⟨0, 0, -4⟩

/-- The ray from the origin along `-z`. -/
def forwardRay : Ray := ⟨⟨0, 0, 0⟩, ⟨0, 0, -1⟩⟩

/-- A unit sphere centred at the origin, so that `forwardRay` starts inside it. -/
def originSphere : Sphere := ⟨⟨0, 0, 0⟩, 1, red⟩

/-- The ray from the origin straight down. -/
def downRay : Ray := ⟨⟨0, 0, 0⟩, ⟨0, -1, 0⟩⟩

/-- A ray whose origin `(0, -1, 0)` lies below the origin, looking up. -/
def belowRay : Ray := ⟨⟨0, -1, 0⟩, ⟨0, 1, 0⟩⟩

/-- A ray from the origin with a unit direction whose vertical component is
`-200000 / 10000000001`, about `-2e-5`. -/
def nearParallelRay : Ray :=
  ⟨⟨0, 0, 0⟩, ⟨0, -(200000 / 10000000001), -(9999999999 / 10000000001)⟩⟩

/-- A ray direction of length 2, passed to the constructor without normalizing. -/
def longDirection : Vec3 := ⟨0, 0, 2⟩

/-- A material with all three coefficients non-zero and specular exponent 1. -/
def glossy : Material := ⟨⟨1 / 10, 1 / 10, 1 / 10⟩, ⟨1, 1, 1⟩, ⟨1, 1, 1⟩, 1⟩

/-- A material with ambient reflectance only. -/
def ambientOnly : Material := ⟨⟨1 / 10, 2 / 10, 3 / 10⟩, Vec3.zero, Vec3.zero, 8⟩

/-- The downward unit normal `(0, -1, 0)` (the bottom of a sphere). -/
def downNormal : Vec3 := ⟨0, -1, 0⟩

/-- The upward unit normal `(0, 1, 0)`. -/
def upNormal : Vec3 := ⟨0, 1, 0⟩

/-- A view direction on the outer side of `downNormal`, used with Q3. -/
def sideView : Vec3 := ⟨-(4 / 5), -(3 / 5), 0⟩

/-- A scene with no sphere, the reference ground at `y = -2`, and the light at
`(24, 7, 0)`, at distance 25 from the origin. -/
def lowLightScene : Scene := ⟨[], ⟨-2, gray⟩, ⟨24, 7, 0⟩⟩

/-- A scene whose only sphere (centre `(0, 3.5, 0)`, radius `0.5`) lies beyond the
light `(0, 2, 0)` as seen from the origin; the ground is far below. -/
def farSphereScene : Scene := ⟨[⟨⟨0, 7 / 2, 0⟩, 1 / 2, red⟩], ⟨-10, gray⟩, ⟨0, 2, 0⟩⟩

/-- A scene with no sphere whose plane `y = 1` lies between the origin and the
light `(0, 2, 0)`. -/
def planeBetweenScene : Scene := ⟨[], ⟨1, gray⟩, ⟨0, 2, 0⟩⟩

/-- A scene with no sphere whose ground plane lies at height `-FLT_MAX`, lit by
the reference light. -/
def deepGroundScene : Scene := ⟨[], ⟨-FLT_MAX, gray⟩, ⟨-4, 4, -3⟩⟩

/-- A scene whose light `(0, 0, 1)` lies on the camera side of `frontSphere`. -/
def frontLightScene : Scene := ⟨[frontSphere], ⟨-2, gray⟩, ⟨0, 0, 1⟩⟩

/-- The point `(0, 0, -4.0005)`, at depth `0.0005` below the surface of
`frontSphere` on the side of the origin. -/
def sunkPoint : Vec3 := ⟨0, 0, -(8001 / 2000)⟩

/-- A scene whose light `(24, 0, 2.9995)` is seen from `sunkPoint` along the unit
direction `(24/25, 0, 7/25)`, at distance 25. -/
def grazingLightScene : Scene := ⟨[frontSphere], ⟨-2, gray⟩, ⟨24, 0, 5999 / 2000⟩⟩

end

/-! ## Component lemmas -/

namespace Vec3

@[simp] theorem add_x (a b : Vec3) : (a + b).x = a.x + b.x := rfl
@[simp] theorem add_y (a b : Vec3) : (a + b).y = a.y + b.y := rfl
@[simp] theorem add_z (a b : Vec3) : (a + b).z = a.z + b.z := rfl
@[simp] theorem sub_x (a b : Vec3) : (a - b).x = a.x - b.x := rfl
@[simp] theorem sub_y (a b : Vec3) : (a - b).y = a.y - b.y := rfl
@[simp] theorem sub_z (a b : Vec3) : (a - b).z = a.z - b.z := rfl
@[simp] theorem mul_x (a b : Vec3) : (a * b).x = a.x * b.x := rfl
@[simp] theorem mul_y (a b : Vec3) : (a * b).y = a.y * b.y := rfl
@[simp] theorem mul_z (a b : Vec3) : (a * b).z = a.z * b.z := rfl
@[simp] theorem scale_x (a : Vec3) (s : ℝ) : (a * s).x = a.x * s := rfl
@[simp] theorem scale_y (a : Vec3) (s : ℝ) : (a * s).y = a.y * s := rfl
@[simp] theorem scale_z (a : Vec3) (s : ℝ) : (a * s).z = a.z * s := rfl
@[simp] theorem neg_x (a : Vec3) : (-a).x = -a.x := rfl
@[simp] theorem neg_y (a : Vec3) : (-a).y = -a.y := rfl
@[simp] theorem neg_z (a : Vec3) : (-a).z = -a.z := rfl
@[simp] theorem zero_x : zero.x = 0 := rfl
@[simp] theorem zero_y : zero.y = 0 := rfl
@[simp] theorem zero_z : zero.z = 0 := rfl

end Vec3

/-- The squared distance along a ray is a quadratic in the parameter. -/
theorem Sphere.distSq_eq (s : Sphere) (ray : Ray) (t : ℝ) :
    s.distSq ray t = ray.direction.dot ray.direction * t ^ 2
      + 2 * (ray.origin - s.center).dot ray.direction * t
      + (ray.origin - s.center).dot (ray.origin - s.center) := by
  simp only [Sphere.distSq, Ray.pointAt, Vec3.dot, Vec3.add_x, Vec3.add_y, Vec3.add_z, Vec3.sub_x,
    Vec3.sub_y, Vec3.sub_z, Vec3.scale_x, Vec3.scale_y, Vec3.scale_z]
  ring

/-! ## Sphere intersection: roots of the quadratic -/

/-- A monic quadratic with non-negative discriminant factors through the two
roots computed with the square root of the discriminant. -/
theorem quad_factor (b c t : ℝ) (h : 0 ≤ b * b - 4 * c) :
    t ^ 2 + b * t + c
      = (t - (-b - Real.sqrt (b * b - 4 * c)) / 2) * (t - (-b + Real.sqrt (b * b - 4 * c)) / 2) := by
  have hs := Real.mul_self_sqrt h
  linear_combination (1 / 4 : ℝ) * hs

/-- A monic quadratic with negative discriminant has no real root. -/
theorem quad_no_root (b c t : ℝ) (h : b * b - 4 * c < 0) : t ^ 2 + b * t + c ≠ 0 := by
  intro h0
  nlinarith [sq_nonneg (2 * t + b)]

/-- With a unit direction, being on the sphere is the monic quadratic equation
in `b = 2 * oc.dot direction` and `c = oc.dot oc - radius * radius`. -/
theorem Sphere.isRoot_iff (s : Sphere) (ray : Ray) (hd : ray.direction.dot ray.direction = 1)
    (t : ℝ) :
    s.IsRoot ray t ↔
      t ^ 2 + 2 * (ray.origin - s.center).dot ray.direction * t
        + ((ray.origin - s.center).dot (ray.origin - s.center) - s.radius * s.radius) = 0 := by
  unfold Sphere.IsRoot
  rw [Sphere.distSq_eq, hd]
  constructor <;> intro h <;> linarith

/-- A vector of length one has unit dot product with itself. -/
theorem Vec3.dot_self_of_len_eq_one (v : Vec3) (h : v.len = 1) : v.dot v = 1 := by
  unfold Vec3.len at h
  have := (Real.sqrt_eq_one).1 h
  simpa [Vec3.dot] using this

/-- Q3 computes the same sphere intersection as Q2. -/
theorem Q3_sphere_intersect_eq_Q2 (s : Sphere) (ray : Ray) :
    Q3.Sphere.intersect s ray = Q2.Sphere.intersect s ray := by
  simp only [Q3.Sphere.intersect, Q2.Sphere.intersect, mul_one_div]

/-- Q2's sphere intersection written with the two roots of the quadratic. -/
theorem Q2_sphere_intersect_eq (s : Sphere) (ray : Ray) :
    Q2.Sphere.intersect s ray =
      if s.quadB ray * s.quadB ray - 4 * s.quadC ray < 0 then none
      else if 0 < s.smallRoot ray then some (s.smallRoot ray)
      else if 0 < s.largeRoot ray then some (s.largeRoot ray)
      else none := by
  simp only [Q2.Sphere.intersect, Sphere.smallRoot, Sphere.largeRoot, Sphere.quadB,
    Sphere.quadC, mul_one_div, gt_iff_lt]
  split_ifs <;> rfl

/-- With a unit direction the roots of the sphere equation are the two computed
roots, when the discriminant is non-negative. -/
theorem Sphere.isRoot_iff_roots (s : Sphere) (ray : Ray)
    (hd : ray.direction.dot ray.direction = 1)
    (hD : 0 ≤ s.quadB ray * s.quadB ray - 4 * s.quadC ray) (t : ℝ) :
    s.IsRoot ray t ↔ t = s.smallRoot ray ∨ t = s.largeRoot ray := by
  rw [Sphere.isRoot_iff s ray hd]
  have hf := quad_factor (s.quadB ray) (s.quadC ray) t hD
  simp only [Sphere.quadB, Sphere.quadC] at hf
  rw [hf, mul_eq_zero, sub_eq_zero, sub_eq_zero]
  rfl

/-- The smaller root is at most the larger root. -/
theorem Sphere.smallRoot_le_largeRoot (s : Sphere) (ray : Ray) :
    s.smallRoot ray ≤ s.largeRoot ray := by
  have := Real.sqrt_nonneg (s.quadB ray * s.quadB ray - 4 * s.quadC ray)
  unfold Sphere.smallRoot Sphere.largeRoot
  linarith

/-- Q2's sphere intersection meets the smallest-positive-root contract for unit
directions. -/
theorem Q2_sphere_intersect_contract (s : Sphere) (ray : Ray)
    (hd : ray.direction.dot ray.direction = 1) :
    s.SmallestPositiveRoot ray (Q2.Sphere.intersect s ray) := by
  have hle := s.smallRoot_le_largeRoot ray
  rw [Q2_sphere_intersect_eq]
  by_cases hD : s.quadB ray * s.quadB ray - 4 * s.quadC ray < 0
  · have hno : ∀ t, ¬ s.IsRoot ray t := by
      intro t ht
      rw [Sphere.isRoot_iff s ray hd] at ht
      exact quad_no_root (s.quadB ray) (s.quadC ray) t hD ht
    rw [if_pos hD]
    refine ⟨⟨fun h => by simp at h, fun ⟨t, _, ht⟩ => (hno t ht).elim⟩, fun t h => by simp at h⟩
  · rw [if_neg hD]
    have hroots := s.isRoot_iff_roots ray hd (not_lt.1 hD)
    by_cases h0 : 0 < s.smallRoot ray
    · rw [if_pos h0]
      refine ⟨⟨fun _ => ⟨_, h0, (hroots _).2 (Or.inl rfl)⟩, fun _ => rfl⟩, ?_⟩
      intro t ht
      obtain rfl : s.smallRoot ray = t := Option.some.inj ht
      refine ⟨h0, (hroots _).2 (Or.inl rfl), ?_, by rw [if_pos h0]⟩
      intro u _ hu
      rcases (hroots u).1 hu with h | h <;> rw [h]
      exact hle
    · rw [if_neg h0]
      by_cases h1 : 0 < s.largeRoot ray
      · rw [if_pos h1]
        refine ⟨⟨fun _ => ⟨_, h1, (hroots _).2 (Or.inr rfl)⟩, fun _ => rfl⟩, ?_⟩
        intro t ht
        obtain rfl : s.largeRoot ray = t := Option.some.inj ht
        refine ⟨h1, (hroots _).2 (Or.inr rfl), ?_, by rw [if_neg h0]⟩
        intro u hu0 hu
        rcases (hroots u).1 hu with h | h
        · exact absurd (h ▸ hu0) h0
        · rw [h]
      · rw [if_neg h1]
        refine ⟨⟨fun h => by simp at h, ?_⟩, fun t h => by simp at h⟩
        rintro ⟨t, ht0, ht⟩
        rcases (hroots t).1 ht with h | h
        · exact absurd (h ▸ ht0) h0
        · exact absurd (h ▸ ht0) h1

/-- C1. In Q2 and Q3, for a ray with unit-length direction, `Sphere::intersect`
reports a hit if and only if `|origin + t*direction - center|^2 = radius^2` has a
strictly positive root, and the reported `t` is the smallest strictly positive
root: the smaller root when it is positive, otherwise the larger root. (The
radius needs no restriction.) -/
theorem sphere_intersect_smallest_positive_root (s : Sphere) (ray : Ray)
    (hd : ray.direction.len = 1) :
    s.SmallestPositiveRoot ray (Q2.Sphere.intersect s ray) ∧
      s.SmallestPositiveRoot ray (Q3.Sphere.intersect s ray) := by
  have h := Q2_sphere_intersect_contract s ray (ray.direction.dot_self_of_len_eq_one hd)
  exact ⟨h, by rw [Q3_sphere_intersect_eq_Q2]; exact h⟩

/-- Witness for C1: the forward ray and the unit sphere at `(0, 0, -5)`. -/
theorem sphere_intersect_smallest_positive_root_witness :
    forwardRay.direction.len = 1 ∧
      (frontSphere.SmallestPositiveRoot forwardRay (Q2.Sphere.intersect frontSphere forwardRay) ∧
        frontSphere.SmallestPositiveRoot forwardRay
          (Q3.Sphere.intersect frontSphere forwardRay)) :=
  ⟨by norm_num [Vec3.len, forwardRay],
    sphere_intersect_smallest_positive_root frontSphere forwardRay
      (by norm_num [Vec3.len, forwardRay])⟩

/-! ## Q1 sphere intersection -/

/-- A non-zero vector has positive dot product with itself. -/
theorem Vec3.dot_self_pos (v : Vec3) (h : v ≠ Vec3.zero) : 0 < v.dot v := by
  have h0 : 0 ≤ v.dot v := by
    unfold Vec3.dot
    nlinarith [mul_self_nonneg v.x, mul_self_nonneg v.y, mul_self_nonneg v.z]
  rcases h0.lt_or_eq with h1 | h1
  · exact h1
  · exfalso
    apply h
    unfold Vec3.dot at h1
    have hx : v.x = 0 := by nlinarith [mul_self_nonneg v.x, mul_self_nonneg v.y, mul_self_nonneg v.z]
    have hy : v.y = 0 := by nlinarith [mul_self_nonneg v.x, mul_self_nonneg v.y, mul_self_nonneg v.z]
    have hz : v.z = 0 := by nlinarith [mul_self_nonneg v.x, mul_self_nonneg v.y, mul_self_nonneg v.z]
    exact Vec3.ext hx hy hz

/-- The length is the square root of the dot product with itself. -/
theorem Vec3.len_eq_sqrt_dot (v : Vec3) : v.len = Real.sqrt (v.dot v) := rfl

/-- In Q1, a ray that starts strictly inside the sphere and has a non-zero
direction is reported as missing the sphere: the only root computed is the
smaller one, which is negative there. -/
theorem Q1_sphere_intersect_inside (s : Sphere) (ray : Ray)
    (hin : (ray.origin - s.center).len < s.radius) (hd : ray.direction ≠ Vec3.zero) :
    Q1.Sphere.intersect s ray = none := by
  have ha := ray.direction.dot_self_pos hd
  have hr : 0 < s.radius := lt_of_le_of_lt (Real.sqrt_nonneg _) hin
  have hc : (ray.origin - s.center).dot (ray.origin - s.center) - s.radius * s.radius < 0 := by
    rw [Vec3.len_eq_sqrt_dot, Real.sqrt_lt' hr] at hin
    nlinarith
  simp only [Q1.Sphere.intersect]
  set a := ray.direction.dot ray.direction
  set b := 2 * (ray.origin - s.center).dot ray.direction
  set c := (ray.origin - s.center).dot (ray.origin - s.center) - s.radius * s.radius
  have hac : 0 < -(4 * a * c) := by nlinarith
  have hD : ¬ b * b - 4 * a * c < 0 := by nlinarith [mul_self_nonneg b]
  rw [if_neg hD]
  have hsq : |b| < Real.sqrt (b * b - 4 * a * c) := by
    rw [← Real.sqrt_sq_eq_abs]
    exact Real.sqrt_lt_sqrt (sq_nonneg b) (by nlinarith)
  have hnum : -b - Real.sqrt (b * b - 4 * a * c) < 0 := by
    have := neg_abs_le b
    linarith
  have ht : ¬ (-b - Real.sqrt (b * b - 4 * a * c)) / (2 * a) > 0 := by
    have : (-b - Real.sqrt (b * b - 4 * a * c)) / (2 * a) < 0 :=
      div_neg_of_neg_of_pos hnum (by linarith)
    linarith
  rw [if_neg ht]

/-- Q1's sphere intersection for a unit direction, written with the smaller
root. -/
theorem Q1_sphere_intersect_eq (s : Sphere) (ray : Ray)
    (hd : ray.direction.dot ray.direction = 1) :
    Q1.Sphere.intersect s ray =
      if s.quadB ray * s.quadB ray - 4 * s.quadC ray < 0 then none
      else if 0 < s.smallRoot ray then some (s.smallRoot ray)
      else none := by
  simp only [Q1.Sphere.intersect, Sphere.smallRoot, Sphere.quadB, Sphere.quadC, hd, mul_one,
    gt_iff_lt]

/-- A hit reported by Q1 for a unit direction is a positive root of the sphere
equation. -/
theorem Q1_sphere_intersect_hit (s : Sphere) (ray : Ray)
    (hd : ray.direction.dot ray.direction = 1) (t : ℝ) (h : Q1.Sphere.intersect s ray = some t) :
    0 < t ∧ s.IsRoot ray t := by
  rw [Q1_sphere_intersect_eq s ray hd] at h
  split_ifs at h with hD h0
  obtain rfl : s.smallRoot ray = t := Option.some.inj h
  exact ⟨h0, (s.isRoot_iff_roots ray hd (not_lt.1 hD) _).2 (Or.inl rfl)⟩

/-- A root of the sphere equation is at distance `radius` from the centre, for a
non-negative radius. -/
theorem Sphere.len_of_isRoot (s : Sphere) (ray : Ray) (hr : 0 ≤ s.radius) (t : ℝ)
    (h : s.IsRoot ray t) : (ray.pointAt t - s.center).len = s.radius := by
  unfold Sphere.IsRoot Sphere.distSq at h
  rw [Vec3.len_eq_sqrt_dot, h, Real.sqrt_sq hr]

/-- C3. In each of Q1, Q2 and Q3, for a sphere (radius non-negative, as the data
model has it) and a ray with unit-length direction, a hit reported by
`Sphere::intersect` with value `t` has `t > 0` and the point
`origin + t*direction` at distance exactly `radius` from the centre. -/
theorem sphere_hit_on_surface (s : Sphere) (ray : Ray) (t : ℝ)
    (hd : ray.direction.len = 1) (hr : 0 ≤ s.radius)
    (h : Q1.Sphere.intersect s ray = some t ∨ Q2.Sphere.intersect s ray = some t ∨
      Q3.Sphere.intersect s ray = some t) :
    0 < t ∧ (ray.origin + ray.direction * t - s.center).len = s.radius := by
  have hd1 := ray.direction.dot_self_of_len_eq_one hd
  have key : 0 < t ∧ s.IsRoot ray t := by
    rcases h with h | h | h
    · exact Q1_sphere_intersect_hit s ray hd1 t h
    · have := (Q2_sphere_intersect_contract s ray hd1).2 t h
      exact ⟨this.1, this.2.1⟩
    · rw [Q3_sphere_intersect_eq_Q2] at h
      have := (Q2_sphere_intersect_contract s ray hd1).2 t h
      exact ⟨this.1, this.2.1⟩
  exact ⟨key.1, s.len_of_isRoot ray hr t key.2⟩

/-! ## Concrete evaluations -/

/-- The square root of a square of a non-negative number, in the form used to
evaluate the code on concrete inputs. -/
theorem sqrt_eq_of_mul_self (x y : ℝ) (hy : 0 ≤ y) (h : y * y = x) : Real.sqrt x = y := by
  rw [← h]
  exact Real.sqrt_mul_self hy

/-- Q1 on the forward ray and the sphere in front of it: a hit at `t = 4`. -/
theorem Q1_intersect_frontSphere : Q1.Sphere.intersect frontSphere forwardRay = some 4 := by
  have h4 : Real.sqrt 4 = 2 := sqrt_eq_of_mul_self 4 2 (by norm_num) (by norm_num)
  simp only [Q1.Sphere.intersect, frontSphere, forwardRay, Vec3.dot, Vec3.sub_x, Vec3.sub_y,
    Vec3.sub_z]
  norm_num [h4]

/-- Q2 on a ray starting at the centre of the unit sphere: a hit at the larger
root `t = 1`. -/
theorem Q2_intersect_originSphere : Q2.Sphere.intersect originSphere forwardRay = some 1 := by
  have h4 : Real.sqrt 4 = 2 := sqrt_eq_of_mul_self 4 2 (by norm_num) (by norm_num)
  simp only [Q2.Sphere.intersect, originSphere, forwardRay, Vec3.dot, Vec3.sub_x, Vec3.sub_y,
    Vec3.sub_z]
  norm_num [h4]

/-- Witness for C3: the hit of Q1 at `t = 4` on the sphere in front of the ray. -/
theorem sphere_hit_on_surface_witness :
    Q1.Sphere.intersect frontSphere forwardRay = some 4 ∧ (0 : ℝ) < 4 ∧
      (forwardRay.origin + forwardRay.direction * (4 : ℝ) - frontSphere.center).len
        = frontSphere.radius :=
  ⟨Q1_intersect_frontSphere,
    sphere_hit_on_surface frontSphere forwardRay 4 (by norm_num [Vec3.len, forwardRay])
      (by norm_num [frontSphere]) (Or.inl Q1_intersect_frontSphere)⟩

/-- C2 (the code at the failing input). For the unit sphere centred at the origin
and the ray from its centre along `-z`, Q1 `Sphere::intersect` reports no hit,
while the claim asks for a hit at the larger root `t = 1`, which is what Q2 and
Q3 return on the same input. -/
theorem Q1_intersect_inside_reports_no_hit :
    (forwardRay.origin - originSphere.center).len < originSphere.radius ∧
      forwardRay.direction ≠ Vec3.zero ∧
      Q1.Sphere.intersect originSphere forwardRay = none ∧
      Q2.Sphere.intersect originSphere forwardRay = some 1 ∧
      Q3.Sphere.intersect originSphere forwardRay = some 1 := by
  have hin : (forwardRay.origin - originSphere.center).len < originSphere.radius := by
    norm_num [Vec3.len, forwardRay, originSphere]
  have hd : forwardRay.direction ≠ Vec3.zero := by
    intro h
    have := congrArg Vec3.z h
    norm_num [forwardRay, Vec3.zero] at this
  exact ⟨hin, hd, Q1_sphere_intersect_inside originSphere forwardRay hin hd,
    Q2_intersect_originSphere, by rw [Q3_sphere_intersect_eq_Q2]; exact Q2_intersect_originSphere⟩

/-! ## Plane intersection -/

/-- Q3 computes the same plane intersection as Q2. -/
theorem Q3_plane_intersect_eq_Q2 (p : Plane) (ray : Ray) :
    Q3.Plane.intersect p ray = Q2.Plane.intersect p ray := rfl

/-- A hit reported by Q2's plane test: the direction is not horizontal, `t` is the
quotient and it is positive. -/
theorem Q2_plane_intersect_hit (p : Plane) (ray : Ray) (t : ℝ)
    (h : Q2.Plane.intersect p ray = some t) :
    ray.direction.y ≠ 0 ∧ t = (p.y - ray.origin.y) / ray.direction.y ∧ 0 < t := by
  simp only [Q2.Plane.intersect] at h
  split_ifs at h with h0 h1
  obtain rfl := Option.some.inj h
  exact ⟨h0, rfl, h1⟩

/-- A hit reported by Q1's plane test: the direction is at least `1e-4` away from
horizontal, `t` is the quotient and it is positive. -/
theorem Q1_plane_intersect_hit (p : Plane) (ray : Ray) (t : ℝ)
    (h : Q1.Plane.intersect p ray = some t) :
    1 / 10000 ≤ |ray.direction.y| ∧ t = (p.y - ray.origin.y) / ray.direction.y ∧ 0 < t := by
  simp only [Q1.Plane.intersect] at h
  split_ifs at h with h0 h1
  obtain rfl := Option.some.inj h
  exact ⟨not_lt.1 h0, rfl, h1⟩

/-- C4. In each of Q1, Q2 and Q3, a hit reported by `Plane::intersect` with value
`t` has `t > 0`, `t = (planeY - origin.y) / direction.y`, and the point
`origin + t*direction` has its `y` coordinate equal to the plane height. (The
vertical direction component is non-zero whenever a hit is reported.) -/
theorem plane_hit_on_plane (p : Plane) (ray : Ray) (t : ℝ)
    (h : Q1.Plane.intersect p ray = some t ∨ Q2.Plane.intersect p ray = some t ∨
      Q3.Plane.intersect p ray = some t) :
    0 < t ∧ t = (p.y - ray.origin.y) / ray.direction.y ∧
      (ray.origin + ray.direction * t).y = p.y := by
  have key : ray.direction.y ≠ 0 ∧ t = (p.y - ray.origin.y) / ray.direction.y ∧ 0 < t := by
    rcases h with h | h | h
    · obtain ⟨h0, h1, h2⟩ := Q1_plane_intersect_hit p ray t h
      refine ⟨fun hz => ?_, h1, h2⟩
      rw [hz, abs_zero] at h0
      norm_num at h0
    · exact Q2_plane_intersect_hit p ray t h
    · exact Q2_plane_intersect_hit p ray t h
  obtain ⟨h0, h1, h2⟩ := key
  refine ⟨h2, h1, ?_⟩
  rw [Vec3.add_y, Vec3.scale_y, h1]
  field_simp

/-- The downward ray from the origin meets the reference ground plane at `t = 2`
in Q1. -/
theorem Q1_intersect_ground_down : Q1.Plane.intersect referenceScene.ground downRay = some 2 := by
  norm_num [Q1.Plane.intersect, referenceScene, downRay]

/-- Witness for C4: the downward ray and the ground plane of the reference
scene. -/
theorem plane_hit_on_plane_witness :
    Q1.Plane.intersect referenceScene.ground downRay = some 2 ∧ (0 : ℝ) < 2 ∧
      (2 : ℝ) = (referenceScene.ground.y - downRay.origin.y) / downRay.direction.y ∧
      (downRay.origin + downRay.direction * (2 : ℝ)).y = referenceScene.ground.y :=
  ⟨Q1_intersect_ground_down,
    plane_hit_on_plane referenceScene.ground downRay 2 (Or.inl Q1_intersect_ground_down)⟩

/-! ## Shading -/

/-- The length of a vector from a non-negative number with the right square. -/
theorem Vec3.len_eq (v : Vec3) (l : ℝ) (hl : 0 ≤ l)
    (h : l * l = v.x * v.x + v.y * v.y + v.z * v.z) : v.len = l :=
  sqrt_eq_of_mul_self _ l hl h

/-- Q1 `normalize` of a vector of known length. -/
theorem Q1_normalize_eq (v : Vec3) (l : ℝ) (hl : 0 ≤ l)
    (h : l * l = v.x * v.x + v.y * v.y + v.z * v.z) :
    Q1.normalize v = ⟨v.x / l, v.y / l, v.z / l⟩ := by
  simp only [Q1.normalize, v.len_eq l hl h]

/-- Q2 `normalize` of a vector of known positive length. -/
theorem Q2_normalize_eq (v : Vec3) (l : ℝ) (hl : 0 < l)
    (h : l * l = v.x * v.x + v.y * v.y + v.z * v.z) :
    Q2.normalize v = ⟨v.x / l, v.y / l, v.z / l⟩ := by
  simp only [Q2.normalize, v.len_eq l hl.le h, gt_iff_lt, hl, if_true]

/-- Q3 `normalize` is the same function as Q2 `normalize`. -/
theorem Q3_normalize_eq_Q2 (v : Vec3) : Q3.normalize v = Q2.normalize v := rfl

/-- The light direction at the origin in `lowLightScene`, as Q1 computes it. -/
theorem Q1_lightDir_lowLight :
    Q1.normalize (lowLightScene.lightPos - Vec3.zero) = ⟨24 / 25, 7 / 25, 0⟩ := by
  rw [Q1_normalize_eq _ 25 (by norm_num) (by norm_num [lowLightScene])]
  ext <;> norm_num [lowLightScene]

/-- The light direction at the origin in `lowLightScene`, as Q2 and Q3 compute
it. -/
theorem Q2_lightDir_lowLight :
    Q2.normalize (lowLightScene.lightPos - Vec3.zero) = ⟨24 / 25, 7 / 25, 0⟩ := by
  rw [Q2_normalize_eq _ 25 (by norm_num) (by norm_num [lowLightScene])]
  ext <;> norm_num [lowLightScene]

/-- Q1 `shade` at the origin of `lowLightScene` with the normal pointing away
from the light: the specular term `ks * 3/5` is added to the ambient term. -/
theorem Q1_shade_lowLight :
    Q1.shade lowLightScene Vec3.zero downNormal glossy belowRay = ⟨7 / 10, 7 / 10, 7 / 10⟩ := by
  have hv : Q1.normalize (belowRay.origin - Vec3.zero) = ⟨0, -1, 0⟩ := by
    rw [Q1_normalize_eq _ 1 (by norm_num) (by norm_num [belowRay])]
    ext <;> norm_num [belowRay]
  have hh : Q1.normalize ((⟨0, -1, 0⟩ : Vec3) + ⟨24 / 25, 7 / 25, 0⟩) = ⟨4 / 5, -(3 / 5), 0⟩ := by
    rw [Q1_normalize_eq _ (6 / 5) (by norm_num) (by norm_num)]
    ext <;> norm_num
  simp only [Q1.shade, Q1_lightDir_lowLight, hv, hh]
  ext <;> norm_num [Vec3.dot, downNormal, glossy]

/-- The origin of `lowLightScene` is not in shadow for Q2: there is no sphere and
the shadow ray leaves the ground plane behind. -/
theorem Q2_inShadow_lowLight :
    Q2.inShadow lowLightScene Vec3.zero ⟨24 / 25, 7 / 25, 0⟩ = false := by
  norm_num [Q2.inShadow, Q2.Ray.new, Q2.Plane.intersect, lowLightScene]

/-- Q2 `shade` at the origin of `lowLightScene` with the normal pointing away
from the light: the specular term is added to the ambient term. -/
theorem Q2_shade_lowLight :
    Q2.shade lowLightScene Vec3.zero downNormal downNormal glossy = ⟨7 / 10, 7 / 10, 7 / 10⟩ := by
  have hh : Q2.normalize (downNormal + ⟨24 / 25, 7 / 25, 0⟩) = ⟨4 / 5, -(3 / 5), 0⟩ := by
    rw [Q2_normalize_eq _ (6 / 5) (by norm_num) (by norm_num [downNormal])]
    ext <;> norm_num [downNormal]
  simp only [Q2.shade, Q2_lightDir_lowLight, Q2_inShadow_lowLight, hh]
  ext <;> norm_num [Vec3.dot, downNormal, glossy, Q2.lightColor]

/-- Q3 `shade` at the origin of `lowLightScene` with the normal pointing away
from the light, seen from `sideView`: the specular term is added to the ambient
term. -/
theorem Q3_shade_lowLight :
    Q3.shade lowLightScene Vec3.zero downNormal sideView glossy = ⟨7 / 10, 7 / 10, 7 / 10⟩ := by
  have hr : Q3.normalize (downNormal * (2 : ℝ) * downNormal.dot ⟨24 / 25, 7 / 25, 0⟩
      - ⟨24 / 25, 7 / 25, 0⟩) = ⟨-(24 / 25), 7 / 25, 0⟩ := by
    rw [Q3_normalize_eq_Q2, Q2_normalize_eq _ 1 (by norm_num) (by norm_num [downNormal, Vec3.dot])]
    ext <;> norm_num [downNormal, Vec3.dot]
  have hs : lowLightScene.spheres = [] := rfl
  simp only [Q3.shade, Q3_normalize_eq_Q2, Q2_lightDir_lowLight, hs, List.any_nil]
  rw [← Q3_normalize_eq_Q2, hr]
  ext <;> norm_num [Vec3.dot, downNormal, glossy, sideView]

/-- The length of the zero vector is zero. -/
theorem Vec3.len_zero : Vec3.zero.len = 0 := by
  simp [Vec3.len, Vec3.zero]

/-- The divisors of Q1 `shade` at the origin of `lowLightScene`, seen from
`belowRay`: the lengths 25, 1 and 6/5. -/
theorem Q1_shadeDivisors_lowLight :
    Q1.shadeDivisors lowLightScene Vec3.zero belowRay
      = [25, 25, 25, 1, 1, 1, 6 / 5, 6 / 5, 6 / 5] := by
  have hv : Q1.normalize (belowRay.origin - Vec3.zero) = ⟨0, -1, 0⟩ := by
    rw [Q1_normalize_eq _ 1 (by norm_num) (by norm_num [belowRay])]
    ext <;> norm_num [belowRay]
  have h1 : (lowLightScene.lightPos - Vec3.zero).len = 25 :=
    Vec3.len_eq _ 25 (by norm_num) (by norm_num [lowLightScene])
  have h2 : (belowRay.origin - Vec3.zero).len = 1 :=
    Vec3.len_eq _ 1 (by norm_num) (by norm_num [belowRay])
  have h3 : ((⟨0, -1, 0⟩ : Vec3) + ⟨24 / 25, 7 / 25, 0⟩).len = 6 / 5 :=
    Vec3.len_eq _ (6 / 5) (by norm_num) (by norm_num)
  simp only [Q1.shadeDivisors, Q1.normalizeDivisors, Q1_lightDir_lowLight, hv, h1, h2, h3,
    List.cons_append, List.nil_append]

/-- C5. Shading with `kd = ks = 0` and a non-negative specular exponent returns
exactly `material.ka` in Q2 and Q3 for every scene, point, normal and view
direction, and in Q1 for every input at which none of the three lengths that
`shade` divides by is zero. Q1 `normalize` has no guard: when the shaded point is
the light position, as for the point `(-4, 4, -3)` of the reference scene, the
length of `lightPos - point` is zero and Q1 `shade` divides by it. The exponent
is non-negative, as the data model has it, so that the power of a zero base is
defined. -/
theorem Q1_shade_divides_by_zero :
    ((referenceScene.lightPos - referenceScene.lightPos).len = 0 ∧
        (0 : ℝ) ∈ Q1.shadeDivisors referenceScene referenceScene.lightPos downRay) ∧
      (∀ (sc : Scene) (point normal : Vec3) (mat : Material) (ray : Ray),
        mat.kd = Vec3.zero → mat.ks = Vec3.zero → 0 ≤ mat.specularPower →
        (0 : ℝ) ∉ Q1.shadeDivisors sc point ray →
        Q1.shade sc point normal mat ray = mat.ka) ∧
      ((0 : ℝ) ∉ Q1.shadeDivisors lowLightScene Vec3.zero belowRay ∧
        Q1.shade lowLightScene Vec3.zero downNormal ambientOnly belowRay = ambientOnly.ka) ∧
      (∀ (sc : Scene) (point normal viewDir : Vec3) (mat : Material),
        mat.kd = Vec3.zero → mat.ks = Vec3.zero → 0 ≤ mat.specularPower →
        Q2.shade sc point normal viewDir mat = mat.ka ∧
          Q3.shade sc point normal viewDir mat = mat.ka) := by
  have h0 : (referenceScene.lightPos - referenceScene.lightPos).len = 0 := by
    have : referenceScene.lightPos - referenceScene.lightPos = Vec3.zero := by
      ext <;> simp
    rw [this, Vec3.len_zero]
  have hq1 : ∀ (sc : Scene) (point normal : Vec3) (mat : Material) (ray : Ray),
      mat.kd = Vec3.zero → mat.ks = Vec3.zero → Q1.shade sc point normal mat ray = mat.ka := by
    intro sc point normal mat ray hkd hks
    simp only [Q1.shade, hkd, hks]
    ext <;> simp
  refine ⟨⟨h0, ?_⟩, fun sc point normal mat ray hkd hks _ _ => hq1 sc point normal mat ray hkd hks,
    ⟨?_, hq1 _ _ _ _ _ rfl rfl⟩, ?_⟩
  · simp only [Q1.shadeDivisors, Q1.normalizeDivisors, h0]
    simp
  · rw [Q1_shadeDivisors_lowLight]
    norm_num
  · intro sc point normal viewDir mat hkd hks _
    constructor
    · simp only [Q2.shade, hkd, hks, Q2.lightColor]
      split_ifs <;> ext <;> simp
    · simp only [Q3.shade, hkd, hks]
      split_ifs <;> ext <;> simp

/-- C6 (counterexample). At the origin of `lowLightScene` with normal
`(0, -1, 0)`, the normal makes a negative dot product with the light direction,
yet each of Q1, Q2 and Q3 returns `(0.7, 0.7, 0.7)` for the material `glossy`,
not its ambient term `(0.1, 0.1, 0.1)`: the specular term is not suppressed. -/
theorem shade_far_side_not_ambient :
    downNormal.dot (Q1.normalize (lowLightScene.lightPos - Vec3.zero)) < 0 ∧
      downNormal.dot (Q2.normalize (lowLightScene.lightPos - Vec3.zero)) < 0 ∧
      downNormal.dot (Q3.normalize (lowLightScene.lightPos - Vec3.zero)) < 0 ∧
      Q1.shade lowLightScene Vec3.zero downNormal glossy belowRay ≠ glossy.ka ∧
      Q2.shade lowLightScene Vec3.zero downNormal downNormal glossy ≠ glossy.ka ∧
      Q3.shade lowLightScene Vec3.zero downNormal sideView glossy ≠ glossy.ka := by
  have hne : (⟨7 / 10, 7 / 10, 7 / 10⟩ : Vec3) ≠ glossy.ka := by
    intro h
    have := congrArg Vec3.x h
    norm_num [glossy] at this
  refine ⟨?_, ?_, ?_, ?_, ?_, ?_⟩
  · rw [Q1_lightDir_lowLight]; norm_num [Vec3.dot, downNormal]
  · rw [Q2_lightDir_lowLight]; norm_num [Vec3.dot, downNormal]
  · rw [Q3_normalize_eq_Q2, Q2_lightDir_lowLight]; norm_num [Vec3.dot, downNormal]
  · rw [Q1_shade_lowLight]; exact hne
  · rw [Q2_shade_lowLight]; exact hne
  · rw [Q3_shade_lowLight]; exact hne

/-- C6 (amended). In each of Q1, Q2 and Q3, when the normal makes a negative dot
product with `lightDir = normalize(lightPos - point)`, the diffuse contribution
of `shade` is zero, and the colour returned is the ambient term plus the specular
term `ks * spec`, which the sign of that dot product does not gate (in Q2 and Q3
the ambient term alone when the shadow test succeeds). -/
theorem shade_far_side_zero_diffuse (sc : Scene) (point normal viewDir : Vec3) (ray : Ray)
    (mat : Material) :
    (normal.dot (Q1.normalize (sc.lightPos - point)) < 0 →
      Q1.shade sc point normal mat ray
        = mat.ka + mat.ks * Q1.specFactor sc point normal mat ray) ∧
    (normal.dot (Q2.normalize (sc.lightPos - point)) < 0 →
      Q2.shade sc point normal viewDir mat
        = if Q2.inShadow sc point (Q2.normalize (sc.lightPos - point)) = true then mat.ka
          else mat.ka + mat.ks * Q2.specFactor sc point normal viewDir mat) ∧
    (normal.dot (Q3.normalize (sc.lightPos - point)) < 0 →
      Q3.shade sc point normal viewDir mat
        = if sc.spheres.any
              (fun s => (Q3.Sphere.intersect s (Q3.shadowRay sc point normal)).isSome) = true
          then mat.ka
          else mat.ka + mat.ks * Q3.specFactor sc point normal viewDir mat) := by
  refine ⟨fun h => ?_, fun h => ?_, fun h => ?_⟩
  · simp only [Q1.shade, Q1.specFactor, max_eq_right h.le]
    ext <;> simp
  · simp only [Q2.shade, Q2.specFactor, max_eq_right h.le, Q2.lightColor]
    cases Q2.inShadow sc point (Q2.normalize (sc.lightPos - point)) <;>
      simp only [Bool.not_false, Bool.not_true, if_true, if_false, Bool.false_eq_true] <;>
      ext <;> simp
  · simp only [Q3.shade, Q3.specFactor, Q3.shadowRay, max_eq_left h.le]
    split_ifs <;> ext <;> simp

/-- Witness for C6 (amended): the far-side point of `lowLightScene` in Q1, where
the specular factor is `3/5`. -/
theorem shade_far_side_zero_diffuse_witness :
    downNormal.dot (Q1.normalize (lowLightScene.lightPos - Vec3.zero)) < 0 ∧
      Q1.shade lowLightScene Vec3.zero downNormal glossy belowRay
        = glossy.ka + glossy.ks * Q1.specFactor lowLightScene Vec3.zero downNormal glossy belowRay :=
  have h : downNormal.dot (Q1.normalize (lowLightScene.lightPos - Vec3.zero)) < 0 := by
    rw [Q1_lightDir_lowLight]; norm_num [Vec3.dot, downNormal]
  ⟨h, (shade_far_side_zero_diffuse lowLightScene Vec3.zero downNormal sideView belowRay
    glossy).1 h⟩

/-! ## Shadow tests -/

/-- The shadow ray of Q1 at the origin of `farSphereScene`. -/
theorem Q1_shadowRay_farSphere :
    Q1.shadowRay farSphereScene Vec3.zero = ⟨⟨0, 1 / 1000, 0⟩, ⟨0, 1, 0⟩⟩ := by
  have hn : Q1.normalize (farSphereScene.lightPos - Vec3.zero) = ⟨0, 1, 0⟩ := by
    rw [Q1_normalize_eq _ 2 (by norm_num) (by norm_num [farSphereScene])]
    ext <;> norm_num [farSphereScene]
  simp only [Q1.shadowRay, Q1.Ray.new, hn]
  congr 1
  ext <;> norm_num

/-- Q1 reports the far sphere hit by that shadow ray at `t = 2.999`. -/
theorem Q1_intersect_farSphere :
    Q1.Sphere.intersect ⟨⟨0, 7 / 2, 0⟩, 1 / 2, red⟩ ⟨⟨0, 1 / 1000, 0⟩, ⟨0, 1, 0⟩⟩
      = some (2999 / 1000) := by
  simp only [Q1.Sphere.intersect, Vec3.dot, Vec3.sub_x, Vec3.sub_y, Vec3.sub_z]
  norm_num

/-- The distance from the origin to the light of `farSphereScene` is 2. -/
theorem farSphere_light_distance : (farSphereScene.lightPos - Vec3.zero).len = 2 :=
  Vec3.len_eq _ 2 (by norm_num) (by norm_num [farSphereScene])

/-- What Q1 `isInShadow` computes: some sphere is hit by the shadow ray at a
distance below the squared distance to the light, or the ground is hit at a
distance whose square is below it. -/
theorem Q1_isInShadow_iff (sc : Scene) (point : Vec3) :
    Q1.isInShadow sc point = true ↔
      (∃ sphere ∈ sc.spheres, ∃ t, Q1.Sphere.intersect sphere (Q1.shadowRay sc point) = some t ∧
        t < (sc.lightPos - point).dot (sc.lightPos - point)) ∨
      ∃ t, Q1.Plane.intersect sc.ground (Q1.shadowRay sc point) = some t ∧
        t * t < (sc.lightPos - point).dot (sc.lightPos - point) := by
  simp only [Q1.isInShadow, Q1.shadowRay, Bool.or_eq_true, List.any_eq_true]
  constructor
  · rintro (⟨sphere, hmem, h⟩ | h)
    · left
      refine ⟨sphere, hmem, ?_⟩
      split at h
      · next t ht => exact ⟨t, ht, of_decide_eq_true h⟩
      · exact absurd h (by simp)
    · right
      split at h
      · next t ht => exact ⟨t, ht, of_decide_eq_true h⟩
      · exact absurd h (by simp)
  · rintro (⟨sphere, hmem, t, ht, hlt⟩ | ⟨t, ht, hlt⟩)
    · left
      refine ⟨sphere, hmem, ?_⟩
      rw [ht]
      exact decide_eq_true hlt
    · right
      rw [ht]
      exact decide_eq_true hlt

/-- C7 (the code at the failing input). In `farSphereScene` the only sphere is hit
by the shadow ray from the origin at `t = 2.999`, beyond the light at distance 2,
and the ground is not hit: no primitive is hit before the light. Q1 `isInShadow`
nevertheless returns `true`, because it compares the sphere hit with the squared
distance `toLight.dot(toLight) = 4`. -/
theorem Q1_isInShadow_beyond_light :
    Q1.isInShadow farSphereScene Vec3.zero = true ∧
      ¬ Q1.OccludedBeforeLight farSphereScene Vec3.zero := by
  have hray := Q1_shadowRay_farSphere
  have hs : farSphereScene.spheres = [⟨⟨0, 7 / 2, 0⟩, 1 / 2, red⟩] := rfl
  have hplane : Q1.Plane.intersect farSphereScene.ground ⟨⟨0, 1 / 1000, 0⟩, ⟨0, 1, 0⟩⟩ = none := by
    norm_num [Q1.Plane.intersect, farSphereScene]
  constructor
  · have hd : (farSphereScene.lightPos - Vec3.zero).dot (farSphereScene.lightPos - Vec3.zero)
        = 4 := by norm_num [Vec3.dot, farSphereScene]
    have hray2 : Q1.Ray.new
        (Vec3.zero + Q1.normalize (farSphereScene.lightPos - Vec3.zero) * (1 / 1000 : ℝ))
        (farSphereScene.lightPos - Vec3.zero) = ⟨⟨0, 1 / 1000, 0⟩, ⟨0, 1, 0⟩⟩ := hray
    simp only [Q1.isInShadow, hray2, hs, hd, List.any_cons, List.any_nil, Q1_intersect_farSphere]
    norm_num
  · rintro (⟨sphere, hmem, t, ht, hlt⟩ | ⟨t, ht, -⟩)
    · rw [hs, List.mem_singleton] at hmem
      rw [hmem, hray, Q1_intersect_farSphere] at ht
      rw [farSphere_light_distance, ← Option.some.inj ht] at hlt
      norm_num at hlt
    · rw [hray, hplane] at ht
      exact Option.noConfusion ht

/-- The light direction at the origin of `planeBetweenScene`. -/
theorem Q2_lightDir_planeBetween :
    Q2.normalize (planeBetweenScene.lightPos - Vec3.zero) = ⟨0, 1, 0⟩ := by
  rw [Q2_normalize_eq _ 2 (by norm_num) (by norm_num [planeBetweenScene])]
  ext <;> norm_num [planeBetweenScene]

/-- The shadow ray of Q3 `shade` at the origin of `planeBetweenScene`, with the
upward normal. -/
theorem Q3_shadowRay_planeBetween :
    Q3.shadowRay planeBetweenScene Vec3.zero upNormal = ⟨⟨0, 1 / 1000, 0⟩, ⟨0, 1, 0⟩⟩ := by
  simp only [Q3.shadowRay, Q3.Ray.new, Q3_normalize_eq_Q2, Q2_lightDir_planeBetween]
  congr 1
  ext <;> norm_num [upNormal]

/-- Q3 `shade` at the origin of `planeBetweenScene`: full diffuse and specular
are added to the ambient term. -/
theorem Q3_shade_planeBetween :
    Q3.shade planeBetweenScene Vec3.zero upNormal upNormal glossy
      = ⟨21 / 10, 21 / 10, 21 / 10⟩ := by
  have hr : Q3.normalize (upNormal * (2 : ℝ) * upNormal.dot ⟨0, 1, 0⟩ - ⟨0, 1, 0⟩)
      = ⟨0, 1, 0⟩ := by
    rw [Q3_normalize_eq_Q2, Q2_normalize_eq _ 1 (by norm_num) (by norm_num [upNormal, Vec3.dot])]
    ext <;> norm_num [upNormal, Vec3.dot]
  have hs : planeBetweenScene.spheres = [] := rfl
  simp only [Q3.shade, Q3_normalize_eq_Q2, Q2_lightDir_planeBetween, hs, List.any_nil]
  rw [← Q3_normalize_eq_Q2, hr]
  ext <;> norm_num [Vec3.dot, upNormal, glossy]

/-- Q2 `shade` on the same input returns the ambient term: its shadow test
includes the ground plane. -/
theorem Q2_shade_planeBetween :
    Q2.shade planeBetweenScene Vec3.zero upNormal upNormal glossy = glossy.ka := by
  have hsh : Q2.inShadow planeBetweenScene Vec3.zero ⟨0, 1, 0⟩ = true := by
    norm_num [Q2.inShadow, Q2.Ray.new, Q2.Plane.intersect, planeBetweenScene]
  simp only [Q2.shade, Q2_lightDir_planeBetween, hsh]
  ext <;> norm_num [Q2.lightColor]

/-- C8 (the code at the failing input). In `planeBetweenScene` the shadow ray of
Q3 `shade` from the origin hits the ground plane at `t = 0.999`, yet Q3 `shade`
returns `(2.1, 2.1, 2.1)` for the material `glossy`, not its ambient term: the
shadow loop of Q3 runs over the spheres only. Q2 `shade`, whose `inShadow` also
tests the ground, returns the ambient term on the same input. -/
theorem Q3_shade_ignores_ground_shadow :
    Q3.Plane.intersect planeBetweenScene.ground (Q3.shadowRay planeBetweenScene Vec3.zero upNormal)
        = some (999 / 1000) ∧
      Q3.shade planeBetweenScene Vec3.zero upNormal upNormal glossy ≠ glossy.ka ∧
      Q2.shade planeBetweenScene Vec3.zero upNormal upNormal glossy = glossy.ka := by
  refine ⟨?_, ?_, Q2_shade_planeBetween⟩
  · rw [Q3_shadowRay_planeBetween]
    norm_num [Q3.Plane.intersect, planeBetweenScene]
  · rw [Q3_shade_planeBetween]
    intro h
    have := congrArg Vec3.x h
    norm_num [glossy] at this

/-! ## Nearest-hit scan -/

/-- The scan leaves the state unchanged when no sphere of the list is hit before
the current `closest`. -/
theorem scan_unchanged (isect : Sphere → Option ℝ) (col : Sphere → ℝ → Vec3) :
    ∀ (l : List Sphere) (st : ℝ × Vec3),
      (∀ s ∈ l, ∀ t, isect s = some t → st.1 ≤ t) → l.foldl (scanStep isect col) st = st := by
  intro l
  induction l with
  | nil => intro st _; rfl
  | cons a l ih =>
    intro st h
    have hstep : scanStep isect col st a = st := by
      unfold scanStep
      cases ha : isect a with
      | none => rfl
      | some t =>
        have := h a (List.mem_cons_self a l) t ha
        simp only [not_lt.2 this, if_false]
    rw [List.foldl_cons, hstep]
    exact ih st (fun s hs t ht => h s (List.mem_cons_of_mem a hs) t ht)

/-- The scan keeps `closest` above any bound that lies below the current
`closest` and strictly below every hit of the list. -/
theorem scan_closest_gt (isect : Sphere → Option ℝ) (col : Sphere → ℝ → Vec3) (t : ℝ) :
    ∀ (l : List Sphere) (st : ℝ × Vec3), t < st.1 →
      (∀ s ∈ l, ∀ u, isect s = some u → t < u) → t < (l.foldl (scanStep isect col) st).1 := by
  intro l
  induction l with
  | nil => intro st h _; exact h
  | cons a l ih =>
    intro st hst h
    rw [List.foldl_cons]
    refine ih _ ?_ (fun s hs u hu => h s (List.mem_cons_of_mem a hs) u hu)
    unfold scanStep
    cases ha : isect a with
    | none => exact hst
    | some u =>
      have hu := h a (List.mem_cons_self a l) u ha
      by_cases hlt : u < st.1
      · simp only [hlt, if_true]; exact hu
      · simp only [hlt, if_false]; exact hst

/-- The scan ends on the nearest sphere: hit at `t` below the initial `closest`,
with all earlier spheres hit strictly later and all later spheres hit no earlier. -/
theorem scan_sphere_wins (isect : Sphere → Option ℝ) (col : Sphere → ℝ → Vec3)
    (pre post : List Sphere) (s : Sphere) (t : ℝ) (st : ℝ × Vec3) (hst : t < st.1)
    (hs : isect s = some t) (hpre : ∀ s' ∈ pre, ∀ u, isect s' = some u → t < u)
    (hpost : ∀ s' ∈ post, ∀ u, isect s' = some u → t ≤ u) :
    (pre ++ s :: post).foldl (scanStep isect col) st = (t, col s t) := by
  rw [List.foldl_append, List.foldl_cons]
  have h1 := scan_closest_gt isect col t pre st hst hpre
  have h2 : scanStep isect col (pre.foldl (scanStep isect col) st) s = (t, col s t) := by
    generalize pre.foldl (scanStep isect col) st = st1 at h1
    unfold scanStep
    simp only [hs, h1, if_true]
  rw [h2]
  exact scan_unchanged isect col post (t, col s t) hpost

/-- The sphere loop of Q2 is a nearest-hit scan. -/
theorem Q2_sphereStep_eq (sc : Scene) (ray : Ray) :
    Q2.sphereStep sc ray
      = scanStep (fun s => Q2.Sphere.intersect s ray) (Q2.sphereColor sc ray) := by
  funext st sphere
  simp only [Q2.sphereStep, scanStep, Q2.sphereColor]

/-- The sphere loop of Q3 is a nearest-hit scan. -/
theorem Q3_sphereStep_eq (sc : Scene) (ray : Ray) :
    Q3.sphereStep sc ray
      = scanStep (fun s => Q3.Sphere.intersect s ray) (Q3.sphereColor sc ray) := by
  funext st sphere
  simp only [Q3.sphereStep, scanStep, Q3.sphereColor]

/-- A scan from `(FLT_MAX, black)` followed by the plane test against `closest`
resolves the nearest hit. -/
theorem scan_resolves (isect : Sphere → Option ℝ) (planeHit : Option ℝ) (spheres : List Sphere)
    (sphereCol : Sphere → ℝ → Vec3) (groundCol : ℝ → Vec3) :
    ResolvesNearest isect planeHit spheres sphereCol groundCol
      (match planeHit with
        | some tp =>
          if tp < (spheres.foldl (scanStep isect sphereCol) (FLT_MAX, (⟨0, 0, 0⟩ : Vec3))).1
          then groundCol tp
          else (spheres.foldl (scanStep isect sphereCol) (FLT_MAX, (⟨0, 0, 0⟩ : Vec3))).2
        | none => (spheres.foldl (scanStep isect sphereCol) (FLT_MAX, (⟨0, 0, 0⟩ : Vec3))).2) := by
  refine ⟨?_, ?_, ?_⟩
  · rintro ⟨hs, hp⟩
    rw [hp, scan_unchanged isect sphereCol spheres _
      (fun s hmem t ht => by rw [hs s hmem] at ht; exact Option.noConfusion ht)]
  · rintro s t ⟨pre, post, hl, hs, hpre, hpost, hplane⟩ hmax
    rw [hl, scan_sphere_wins isect sphereCol pre post s t _ hmax hs hpre hpost]
    cases hp : planeHit with
    | none => rfl
    | some tp =>
      have := hplane tp hp
      simp only [not_lt.2 this, if_false]
  · rintro tp ⟨hp, hs⟩ hmax
    have := scan_closest_gt isect sphereCol tp spheres (FLT_MAX, ⟨0, 0, 0⟩) hmax hs
    rw [hp]
    simp only [this, if_true]

/-- C9 (amended). In Q2 and Q3, the colour traced for a camera ray is black when
no primitive reports a hit, and otherwise, when the minimum hit distance over all
spheres and the plane is below `FLT_MAX` (the initial value of `closest`), it is
`shade` at the hit point, normal and material of the primitive with that minimum
hit distance, the earliest sphere winning ties and a sphere winning a tie with
the plane. -/
theorem trace_resolves_nearest_hit (sc : Scene) (ray : Ray) :
    ResolvesNearest (fun s => Q2.Sphere.intersect s ray) (Q2.Plane.intersect sc.ground ray)
        sc.spheres (Q2.sphereColor sc ray) (Q2.groundColor sc ray) (Q2.trace sc ray) ∧
      ResolvesNearest (fun s => Q3.Sphere.intersect s ray) (Q3.Plane.intersect sc.ground ray)
        sc.spheres (Q3.sphereColor sc ray) (Q3.groundColor sc ray) (Q3.trace sc ray) := by
  constructor
  · have h := scan_resolves (fun s => Q2.Sphere.intersect s ray)
      (Q2.Plane.intersect sc.ground ray) sc.spheres (Q2.sphereColor sc ray) (Q2.groundColor sc ray)
    rw [← Q2_sphereStep_eq] at h
    exact h
  · have h := scan_resolves (fun s => Q3.Sphere.intersect s ray)
      (Q3.Plane.intersect sc.ground ray) sc.spheres (Q3.sphereColor sc ray) (Q3.groundColor sc ray)
    rw [← Q3_sphereStep_eq] at h
    exact h

/-- Among the spheres of a list, either none is hit or there is a first sphere
with the minimum hit distance. -/
theorem first_min_sphere (isect : Sphere → Option ℝ) :
    ∀ l : List Sphere, (∀ s ∈ l, isect s = none) ∨
      ∃ pre s post t, l = pre ++ s :: post ∧ isect s = some t ∧
        (∀ s' ∈ pre, ∀ u, isect s' = some u → t < u) ∧
        (∀ s' ∈ post, ∀ u, isect s' = some u → t ≤ u) := by
  intro l
  induction l with
  | nil => exact Or.inl (fun s hs => absurd hs (List.not_mem_nil s))
  | cons a l ih =>
    cases ha : isect a with
    | none =>
      rcases ih with h | ⟨pre, s, post, t, hl, hs, hpre, hpost⟩
      · left
        intro s hs
        rcases List.mem_cons.1 hs with rfl | h'
        · exact ha
        · exact h s h'
      · right
        refine ⟨a :: pre, s, post, t, by rw [hl]; rfl, hs, ?_, hpost⟩
        intro s' hs' u hu
        rcases List.mem_cons.1 hs' with rfl | h'
        · rw [ha] at hu; exact Option.noConfusion hu
        · exact hpre s' h' u hu
    | some t =>
      right
      rcases ih with h | ⟨pre, s, post, t', hl, hs, hpre, hpost⟩
      · refine ⟨[], a, l, t, rfl, ha, fun s' hs' => absurd hs' (List.not_mem_nil s'), ?_⟩
        intro s' hs' u hu
        rw [h s' hs'] at hu
        exact Option.noConfusion hu
      · by_cases hle : t ≤ t'
        · refine ⟨[], a, l, t, rfl, ha, fun s' hs' => absurd hs' (List.not_mem_nil s'), ?_⟩
          intro s' hs' u hu
          rw [hl] at hs'
          rcases List.mem_append.1 hs' with h1 | h1
          · exact hle.trans (hpre s' h1 u hu).le
          · rcases List.mem_cons.1 h1 with rfl | h2
            · rw [hs] at hu
              rw [← Option.some.inj hu]
              exact hle
            · exact hle.trans (hpost s' h2 u hu)
        · refine ⟨a :: pre, s, post, t', by rw [hl]; rfl, hs, ?_, hpost⟩
          intro s' hs' u hu
          rcases List.mem_cons.1 hs' with rfl | h'
          · rw [ha] at hu
            rw [← Option.some.inj hu]
            exact not_le.1 hle
          · exact hpre s' h' u hu

/-- The three cases of nearest-hit resolution cover every scene and ray: nothing
is hit, or a sphere is nearest, or the plane is nearest. -/
theorem nearest_cases (isect : Sphere → Option ℝ) (planeHit : Option ℝ)
    (spheres : List Sphere) :
    NoHit isect planeHit spheres ∨ (∃ s t, IsNearestSphere isect planeHit spheres s t) ∨
      ∃ tp, IsNearestPlane isect planeHit spheres tp := by
  rcases first_min_sphere isect spheres with h | ⟨pre, s, post, t, hl, hs, hpre, hpost⟩
  · cases hp : planeHit with
    | none => exact Or.inl ⟨h, rfl⟩
    | some tp =>
      refine Or.inr (Or.inr ⟨tp, rfl, ?_⟩)
      intro s' hs' u hu
      rw [h s' hs'] at hu
      exact Option.noConfusion hu
  · cases hp : planeHit with
    | none =>
      exact Or.inr (Or.inl ⟨s, t, pre, post, hl, hs, hpre, hpost,
        fun tp h => Option.noConfusion h⟩)
    | some tp =>
      by_cases hle : t ≤ tp
      · refine Or.inr (Or.inl ⟨s, t, pre, post, hl, hs, hpre, hpost, ?_⟩)
        intro tp' h'
        rw [← Option.some.inj h']
        exact hle
      · refine Or.inr (Or.inr ⟨tp, rfl, ?_⟩)
        have hlt := not_le.1 hle
        intro s' hs' u hu
        rw [hl] at hs'
        rcases List.mem_append.1 hs' with h1 | h1
        · exact hlt.trans (hpre s' h1 u hu)
        · rcases List.mem_cons.1 h1 with rfl | h2
          · rw [hs] at hu
            rw [← Option.some.inj hu]
            exact hlt
          · exact hlt.trans_le (hpost s' h2 u hu)

/-- Q2 on the forward ray and a unit sphere centred at `(±4, 0, -7)`: no hit. -/
theorem Q2_intersect_side_sphere (x : ℝ) (m : Material) (hx : x * x = 16) :
    Q2.Sphere.intersect ⟨⟨x, 0, -7⟩, 1, m⟩ forwardRay = none := by
  simp only [Q2.Sphere.intersect, forwardRay, Vec3.dot, Vec3.sub_x, Vec3.sub_y, Vec3.sub_z]
  rw [if_pos]
  nlinarith

/-- Q2 on the forward ray and the green sphere of the reference scene: a hit at
`t = 5`. -/
theorem Q2_intersect_green : Q2.Sphere.intersect ⟨⟨0, 0, -7⟩, 2, green⟩ forwardRay = some 5 := by
  have h16 : Real.sqrt 16 = 4 := sqrt_eq_of_mul_self 16 4 (by norm_num) (by norm_num)
  simp only [Q2.Sphere.intersect, forwardRay, Vec3.dot, Vec3.sub_x, Vec3.sub_y, Vec3.sub_z]
  norm_num [h16]

/-- Witness for C9 (amended): in the reference scene the forward ray has the green sphere
as its nearest hit, at `t = 5`, and Q2 traces the colour of that hit. -/
theorem trace_resolves_nearest_hit_witness :
    IsNearestSphere (fun s => Q2.Sphere.intersect s forwardRay)
        (Q2.Plane.intersect referenceScene.ground forwardRay) referenceScene.spheres
        ⟨⟨0, 0, -7⟩, 2, green⟩ 5 ∧
      Q2.trace referenceScene forwardRay
        = Q2.sphereColor referenceScene forwardRay ⟨⟨0, 0, -7⟩, 2, green⟩ 5 :=
  have hred := Q2_intersect_side_sphere (-4) red (by norm_num)
  have hblue := Q2_intersect_side_sphere 4 blue (by norm_num)
  have hplane : Q2.Plane.intersect referenceScene.ground forwardRay = none := by
    simp [Q2.Plane.intersect, forwardRay]
  have hnear : IsNearestSphere (fun s => Q2.Sphere.intersect s forwardRay)
      (Q2.Plane.intersect referenceScene.ground forwardRay) referenceScene.spheres
      ⟨⟨0, 0, -7⟩, 2, green⟩ 5 :=
    ⟨[⟨⟨-4, 0, -7⟩, 1, red⟩], [⟨⟨4, 0, -7⟩, 1, blue⟩], rfl, Q2_intersect_green,
      fun s' hs' u hu => by
        rw [List.mem_singleton.1 hs'] at hu
        exact absurd (hred.symm.trans hu) (by simp),
      fun s' hs' u hu => by
        rw [List.mem_singleton.1 hs'] at hu
        exact absurd (hblue.symm.trans hu) (by simp),
      fun tp h => by
        rw [hplane] at h
        exact Option.noConfusion h⟩
  ⟨hnear, (trace_resolves_nearest_hit referenceScene forwardRay).1.2.1 _ _ hnear
    (by norm_num [FLT_MAX])⟩

/-- The `x` channel of Q2 `shade` with the material `gray` is at least the ambient
`0.2`, whatever the shadow test says. -/
theorem Q2_shade_gray_x_ge (sc : Scene) (point normal viewDir : Vec3) :
    2 / 10 ≤ (Q2.shade sc point normal viewDir gray).x := by
  simp only [Q2.shade, Q2.lightColor, gray]
  split_ifs
  · have h := le_max_right (normal.dot (Q2.normalize (sc.lightPos - point))) 0
    simp only [Vec3.add_x, Vec3.mul_x, Vec3.scale_x]
    nlinarith
  · simp only [Vec3.mul_x]
    norm_num

/-- The `x` channel of Q3 `shade` with the material `gray` is at least the ambient
`0.2`. -/
theorem Q3_shade_gray_x_ge (sc : Scene) (point normal viewDir : Vec3) :
    2 / 10 ≤ (Q3.shade sc point normal viewDir gray).x := by
  simp only [Q3.shade, gray]
  split_ifs
  · norm_num
  · have h := le_max_left 0 (normal.dot (Q3.normalize (sc.lightPos - point)))
    simp only [Vec3.add_x, Vec3.scale_x]
    nlinarith

/-- A normalized vector with negative `y` has its `y` component in `[-1, 0)`. -/
theorem Q2_normalize_y_neg (v : Vec3) (hy : v.y < 0) :
    (Q2.normalize v).y < 0 ∧ -1 ≤ (Q2.normalize v).y := by
  have hsum : 0 < v.x * v.x + v.y * v.y + v.z * v.z := by
    nlinarith [mul_self_nonneg v.x, mul_self_nonneg v.z, mul_pos_of_neg_of_neg hy hy]
  have hlen : 0 < v.len := Real.sqrt_pos.2 hsum
  have hle : -v.y ≤ v.len := by
    apply Real.le_sqrt_of_sq_le
    nlinarith [mul_self_nonneg v.x, mul_self_nonneg v.z]
  simp only [Q2.normalize, gt_iff_lt, hlen, if_true]
  constructor
  · exact div_neg_of_neg_of_pos hy hlen
  · rw [le_div_iff₀ hlen]
    linarith

/-- In `deepGroundScene`, a ray from height 0 whose direction has `y` component in
`[-1, 0)` hits the ground at a distance of at least `FLT_MAX`, and Q2 and Q3
trace it black although `shade` at that hit is not black. -/
theorem deep_ground_traced_black (ray : Ray) (h0 : ray.origin.y = 0)
    (hy : ray.direction.y < 0) (hy1 : -1 ≤ ray.direction.y) :
    Q2.BlackDespiteGroundHit deepGroundScene ray (-FLT_MAX / ray.direction.y) ∧
      Q3.BlackDespiteGroundHit deepGroundScene ray (-FLT_MAX / ray.direction.y) := by
  have hmax : (0 : ℝ) < FLT_MAX := by norm_num [FLT_MAX]
  have ht : FLT_MAX ≤ -FLT_MAX / ray.direction.y := by
    rw [le_div_iff_of_neg hy]
    nlinarith
  have hp : Q2.Plane.intersect deepGroundScene.ground ray
      = some (-FLT_MAX / ray.direction.y) := by
    have hpos : -FLT_MAX / ray.direction.y > 0 := lt_of_lt_of_le hmax ht
    simp only [Q2.Plane.intersect, deepGroundScene, h0, sub_zero, hy.ne, hpos, if_true, if_false]
  have hp3 : Q3.Plane.intersect deepGroundScene.ground ray
      = some (-FLT_MAX / ray.direction.y) := hp
  have hs : deepGroundScene.spheres = [] := rfl
  refine ⟨⟨⟨hp, ?_⟩, ?_, ?_⟩, ⟨⟨hp3, ?_⟩, ?_, ?_⟩⟩
  · intro s' hs'
    exact absurd hs' (by rw [hs]; exact List.not_mem_nil s')
  · simp only [Q2.trace, hs, List.foldl_nil, hp, not_lt.2 ht, if_false]
  · intro h
    have hx := Q2_shade_gray_x_ge deepGroundScene
      (ray.origin + ray.direction * (-FLT_MAX / ray.direction.y)) ⟨0, 1, 0⟩ (-ray.direction)
    have hg : Q2.groundColor deepGroundScene ray (-FLT_MAX / ray.direction.y)
        = Q2.shade deepGroundScene (ray.origin + ray.direction * (-FLT_MAX / ray.direction.y))
          ⟨0, 1, 0⟩ (-ray.direction) gray := rfl
    rw [← hg, h] at hx
    norm_num at hx
  · intro s' hs'
    exact absurd hs' (by rw [hs]; exact List.not_mem_nil s')
  · simp only [Q3.trace, hs, List.foldl_nil, hp3, not_lt.2 ht, if_false]
  · intro h
    have hx := Q3_shade_gray_x_ge deepGroundScene
      (ray.origin + ray.direction * (-FLT_MAX / ray.direction.y)) ⟨0, 1, 0⟩ (-ray.direction)
    have hg : Q3.groundColor deepGroundScene ray (-FLT_MAX / ray.direction.y)
        = Q3.shade deepGroundScene (ray.origin + ray.direction * (-FLT_MAX / ray.direction.y))
          ⟨0, 1, 0⟩ (-ray.direction) gray := rfl
    rw [← hg, h] at hx
    norm_num at hx

/-- C9 (counterexample). In `deepGroundScene` (no sphere, ground at height
`-FLT_MAX`) the ray from the origin straight down hits the ground plane at
`t = FLT_MAX`, so the plane is the primitive with the minimum hit distance, and
`shade` at that hit is not black; Q2 and Q3 nevertheless trace black, because the
plane test requires `tp < closest` with `closest` still at `FLT_MAX`. The same
happens for the camera rays of pixel `(0, 0)` (Q3 with both jitter draws 0),
whose ground hit lies beyond `FLT_MAX`. -/
theorem trace_black_despite_hit :
    Q2.BlackDespiteGroundHit deepGroundScene downRay FLT_MAX ∧
      Q3.BlackDespiteGroundHit deepGroundScene downRay FLT_MAX ∧
      Q2.BlackDespiteGroundHit deepGroundScene (Q2.cameraRay 0 0)
        (-FLT_MAX / (Q2.cameraRay 0 0).direction.y) ∧
      Q3.BlackDespiteGroundHit deepGroundScene (Q3.cameraRay 0 0 0 0)
        (-FLT_MAX / (Q3.cameraRay 0 0 0 0).direction.y) := by
  have hd := deep_ground_traced_black downRay rfl (by norm_num [downRay]) (by norm_num [downRay])
  have hv : -FLT_MAX / downRay.direction.y = FLT_MAX := by norm_num [downRay]
  rw [hv] at hd
  have h2 := Q2_normalize_y_neg ⟨-(1 / 10) + (1 / 10 - -(1 / 10)) * (((0 : ℕ) : ℝ) + 1 / 2)
      / ((WIDTH : ℕ) : ℝ), -(1 / 10) + (1 / 10 - -(1 / 10)) * (((0 : ℕ) : ℝ) + 1 / 2)
      / ((HEIGHT : ℕ) : ℝ), -(1 / 10)⟩ (by norm_num [WIDTH, HEIGHT])
  have h3 := Q2_normalize_y_neg ⟨-(1 / 10) + (1 / 10 - -(1 / 10)) * (((0 : ℕ) : ℝ) + 0)
      / ((WIDTH : ℕ) : ℝ), -(1 / 10) + (1 / 10 - -(1 / 10)) * (((0 : ℕ) : ℝ) + 0)
      / ((HEIGHT : ℕ) : ℝ), -(1 / 10)⟩ (by norm_num [WIDTH, HEIGHT])
  exact ⟨hd.1, hd.2, (deep_ground_traced_black (Q2.cameraRay 0 0) rfl h2.1 h2.2).1,
    (deep_ground_traced_black (Q3.cameraRay 0 0 0 0) rfl h3.1 h3.2).2⟩

/-! ## Sample averaging (Q3) -/

/-- The accumulation loop `acc += f k` adds the sum of the terms, channel by
channel. -/
theorem foldl_add_channels (f : ℝ × ℝ → Vec3) :
    ∀ (l : List (ℝ × ℝ)) (acc : Vec3),
      (l.foldl (fun c k => c + f k) acc).x = acc.x + (l.map (fun k => (f k).x)).sum ∧
      (l.foldl (fun c k => c + f k) acc).y = acc.y + (l.map (fun k => (f k).y)).sum ∧
      (l.foldl (fun c k => c + f k) acc).z = acc.z + (l.map (fun k => (f k).z)).sum := by
  intro l
  induction l with
  | nil => intro acc; simp
  | cons a l ih =>
    intro acc
    obtain ⟨hx, hy, hz⟩ := ih (acc + f a)
    simp only [List.foldl_cons, List.map_cons, List.sum_cons, hx, hy, hz, Vec3.add_x, Vec3.add_y,
      Vec3.add_z]
    refine ⟨by ring, by ring, by ring⟩

/-- C10. In the per-pixel loop of Q3, with the sample count `N >= 1` taken as the
number of jitter pairs `j :: js`, each channel of the value before gamma
correction is the sum of that channel over the `N` traced sample colours divided
by `N`; the stored pixel is that value after `powf(2.2f)`; and for `N = 1` the
stored pixel is exactly the gamma-corrected colour of the single traced sample. -/
theorem pixel_average_is_mean (sc : Scene) (x y : ℕ) (j : ℝ × ℝ) (js : List (ℝ × ℝ)) :
    (Q3.pixelAverage sc x y (j :: js)).x
        = ((j :: js).map (fun k => (Q3.sampleColor sc x y k).x)).sum / ((j :: js).length : ℝ) ∧
      (Q3.pixelAverage sc x y (j :: js)).y
        = ((j :: js).map (fun k => (Q3.sampleColor sc x y k).y)).sum / ((j :: js).length : ℝ) ∧
      (Q3.pixelAverage sc x y (j :: js)).z
        = ((j :: js).map (fun k => (Q3.sampleColor sc x y k).z)).sum / ((j :: js).length : ℝ) ∧
      Q3.renderPixel sc x y (j :: js) = Q3.powf (Q3.pixelAverage sc x y (j :: js)) (22 / 10) ∧
      Q3.renderPixel sc x y [j] = Q3.powf (Q3.sampleColor sc x y j) (22 / 10) := by
  obtain ⟨hx, hy, hz⟩ := foldl_add_channels (Q3.sampleColor sc x y) (j :: js) ⟨0, 0, 0⟩
  refine ⟨?_, ?_, ?_, rfl, ?_⟩
  · simp only [Q3.pixelAverage, Q3.colorSum, Vec3.scale_x, hx, zero_add, mul_one_div]
  · simp only [Q3.pixelAverage, Q3.colorSum, Vec3.scale_y, hy, zero_add, mul_one_div]
  · simp only [Q3.pixelAverage, Q3.colorSum, Vec3.scale_z, hz, zero_add, mul_one_div]
  · have h : Q3.pixelAverage sc x y [j] = Q3.sampleColor sc x y j := by
      ext <;> simp [Q3.pixelAverage, Q3.colorSum]
    rw [Q3.renderPixel, h]

/-! ## Gamma encoding -/

/-- C18. Q2 and Q3 perform the same gamma encoding: for every colour `c` with
non-negative channels, Q2's step `c.powf(1.0f / 2.2f)` and Q3's step
`c.powf(2.2f)`, whose `powf` raises each channel to `1/g`, both yield the vector
with channels `c.x^(1/2.2)`, `c.y^(1/2.2)`, `c.z^(1/2.2)`, that is
`color ^ (1/gamma)` with `gamma = 2.2`. -/
theorem gamma_encoding_agrees (c : Vec3) (_hx : 0 ≤ c.x) (_hy : 0 ≤ c.y) (_hz : 0 ≤ c.z) :
    Q2.powf c (1 / (22 / 10)) = ⟨c.x ^ (1 / (22 / 10 : ℝ)), c.y ^ (1 / (22 / 10 : ℝ)),
        c.z ^ (1 / (22 / 10 : ℝ))⟩ ∧
      Q3.powf c (22 / 10) = ⟨c.x ^ (1 / (22 / 10 : ℝ)), c.y ^ (1 / (22 / 10 : ℝ)),
        c.z ^ (1 / (22 / 10 : ℝ))⟩ ∧
      Q2.powf c (1 / (22 / 10)) = gammaEncode c (22 / 10) ∧
      Q3.powf c (22 / 10) = gammaEncode c (22 / 10) :=
  ⟨rfl, rfl, rfl, rfl⟩

/-- Witness for C18: the ambient colour of the material `gray`. -/
theorem gamma_encoding_agrees_witness :
    Q2.powf gray.ka (1 / (22 / 10)) = gammaEncode gray.ka (22 / 10) ∧
      Q3.powf gray.ka (22 / 10) = gammaEncode gray.ka (22 / 10) :=
  have h := gamma_encoding_agrees gray.ka (by norm_num [gray]) (by norm_num [gray])
    (by norm_num [gray])
  ⟨h.2.2.1, h.2.2.2⟩

/-! ## Normalization and the `Ray` constructors -/

/-- The length of a non-zero vector is positive. -/
theorem Vec3.len_pos (v : Vec3) (h : v ≠ Vec3.zero) : 0 < v.len := by
  rw [Vec3.len_eq_sqrt_dot]
  exact Real.sqrt_pos.2 (v.dot_self_pos h)

/-- Dividing the components by a positive number whose square is the sum of the
squares gives a vector of length 1. -/
theorem Vec3.len_div_eq_one (v : Vec3) (l : ℝ) (hl : 0 < l)
    (h : l * l = v.x * v.x + v.y * v.y + v.z * v.z) :
    (⟨v.x / l, v.y / l, v.z / l⟩ : Vec3).len = 1 := by
  apply Vec3.len_eq _ 1 (by norm_num)
  field_simp
  linarith

/-- The square of the length is the sum of the squares of the components. -/
theorem Vec3.len_mul_self (v : Vec3) : v.len * v.len = v.x * v.x + v.y * v.y + v.z * v.z := by
  unfold Vec3.len
  apply Real.mul_self_sqrt
  nlinarith [mul_self_nonneg v.x, mul_self_nonneg v.y, mul_self_nonneg v.z]

/-- Q1 `normalize` of a non-zero vector has length 1. -/
theorem Q1_normalize_len (v : Vec3) (h : v ≠ Vec3.zero) : (Q1.normalize v).len = 1 := by
  rw [Q1_normalize_eq v v.len (v.len_pos h).le v.len_mul_self]
  exact v.len_div_eq_one v.len (v.len_pos h) v.len_mul_self

/-- Q2 `normalize` of a non-zero vector has length 1. -/
theorem Q2_normalize_len (v : Vec3) (h : v ≠ Vec3.zero) : (Q2.normalize v).len = 1 := by
  rw [Q2_normalize_eq v v.len (v.len_pos h) v.len_mul_self]
  exact v.len_div_eq_one v.len (v.len_pos h) v.len_mul_self

/-- Q3 `normalize` of a non-zero vector has length 1. -/
theorem Q3_normalize_len (v : Vec3) (h : v ≠ Vec3.zero) : (Q3.normalize v).len = 1 := by
  rw [Q3_normalize_eq_Q2]
  exact Q2_normalize_len v h

/-- A vector with a non-zero `z` component is not the zero vector. -/
theorem Vec3.ne_zero_of_z (v : Vec3) (h : v.z ≠ 0) : v ≠ Vec3.zero := by
  intro hv
  apply h
  rw [hv]
  rfl

/-- C14 (counterexample). In Q2 and Q3 the constructor `Ray(o, d)` called with
the non-zero direction `(0, 0, 2)` stores a direction of length 2, not 1. -/
theorem ray_constructor_keeps_length :
    longDirection ≠ Vec3.zero ∧
      (Q2.Ray.new Vec3.zero longDirection).direction.len = 2 ∧
      (Q3.Ray.new Vec3.zero longDirection).direction.len = 2 ∧
      (Q2.Ray.new Vec3.zero longDirection).direction.len ≠ 1 ∧
      (Q3.Ray.new Vec3.zero longDirection).direction.len ≠ 1 := by
  have h2 : longDirection.len = 2 :=
    Vec3.len_eq _ 2 (by norm_num) (by norm_num [longDirection])
  refine ⟨Vec3.ne_zero_of_z _ (by norm_num [longDirection]), h2, h2, ?_, ?_⟩
  · show longDirection.len ≠ 1
    rw [h2]; norm_num
  · show longDirection.len ≠ 1
    rw [h2]; norm_num

/-- C14 (amended). In Q1 the constructor normalizes: for every origin and every
non-zero `d`, `Ray(origin, d)` stores a direction of length 1. In Q2 and Q3 the
constructor stores `d` as given, and the rays the programs build are handed a
direction normalized by the caller: every camera ray has a direction of length
1, and so has a ray built from `normalize` of a non-zero vector (the shadow
rays). -/
theorem ray_direction_unit (o d : Vec3) (x y : ℕ) (jx jy : ℝ) :
    (d ≠ Vec3.zero → (Q1.Ray.new o d).direction.len = 1) ∧
      (Q2.Ray.new o d).direction = d ∧ (Q3.Ray.new o d).direction = d ∧
      (d ≠ Vec3.zero → (Q2.Ray.new o (Q2.normalize d)).direction.len = 1) ∧
      (d ≠ Vec3.zero → (Q3.Ray.new o (Q3.normalize d)).direction.len = 1) ∧
      (Q2.cameraRay x y).direction.len = 1 ∧
      (Q3.cameraRay x y jx jy).direction.len = 1 := by
  refine ⟨fun h => Q1_normalize_len d h, rfl, rfl, fun h => Q2_normalize_len d h,
    fun h => Q3_normalize_len d h, ?_, ?_⟩
  · exact Q2_normalize_len _ (Vec3.ne_zero_of_z _ (by norm_num))
  · exact Q3_normalize_len _ (Vec3.ne_zero_of_z _ (by norm_num))

/-- Witness for C14 (amended): the direction `(0, 0, 2)` in the Q1 constructor. -/
theorem ray_direction_unit_witness :
    longDirection ≠ Vec3.zero ∧ (Q1.Ray.new Vec3.zero longDirection).direction.len = 1 :=
  have h : longDirection ≠ Vec3.zero := Vec3.ne_zero_of_z _ (by norm_num [longDirection])
  ⟨h, (ray_direction_unit Vec3.zero longDirection 0 0 0 0).1 h⟩

/-- C15 (the code at the failing input). Applied to the zero vector, Q1
`normalize` divides by the length 0: it has no guarded branch. Q2 and Q3 never
divide by zero and return the zero vector there. -/
theorem Q1_normalize_divides_by_zero :
    (0 : ℝ) ∈ Q1.normalizeDivisors Vec3.zero ∧
      (∀ a, (0 : ℝ) ∉ Q2.normalizeDivisors a) ∧ (∀ a, (0 : ℝ) ∉ Q3.normalizeDivisors a) ∧
      Q2.normalize Vec3.zero = Vec3.zero ∧ Q3.normalize Vec3.zero = Vec3.zero := by
  have h0 : Vec3.zero.len = 0 := Vec3.len_eq _ 0 le_rfl (by norm_num [Vec3.zero])
  have hg : ∀ a : Vec3, (0 : ℝ) ∉ Q2.normalizeDivisors a := by
    intro a h
    simp only [Q2.normalizeDivisors] at h
    split_ifs at h with hpos
    · simp only [List.mem_cons, List.mem_singleton, List.not_mem_nil, or_false, or_self] at h
      rw [← h] at hpos
      exact lt_irrefl _ hpos
    · exact absurd h (List.not_mem_nil _)
  refine ⟨?_, hg, hg, ?_, ?_⟩
  · simp [Q1.normalizeDivisors, h0]
  · simp [Q2.normalize, h0]
  · simp [Q3.normalize, h0]

/-! ## Near-parallel rays and the plane -/

/-- Q1 rejects every ray whose vertical direction component is below `1e-4` in
absolute value. -/
theorem Q1_plane_rejects_near_parallel (p : Plane) (ray : Ray)
    (h : |ray.direction.y| < 1 / 10000) : Q1.Plane.intersect p ray = none := by
  simp only [Q1.Plane.intersect, h, if_true]

/-- Q2 and Q3 have no rejection threshold: below any positive bound there is a
downward ray from the origin that is reported as hitting the plane `y = -2`. -/
theorem Q2_plane_no_threshold (ε : ℝ) (hε : 0 < ε) :
    ∃ ray : Ray, |ray.direction.y| < ε ∧
      (Q2.Plane.intersect referenceScene.ground ray).isSome = true ∧
      (Q3.Plane.intersect referenceScene.ground ray).isSome = true := by
  have hy : -(ε / 2) ≠ 0 := by linarith
  have ht : (-2 - 0) / -(ε / 2) > (0 : ℝ) := by
    have : (-2 - 0) / -(ε / 2) = 4 / ε := by
      field_simp
      ring
    rw [this]
    positivity
  have h2 : Q2.Plane.intersect referenceScene.ground ⟨⟨0, 0, 0⟩, ⟨0, -(ε / 2), -1⟩⟩
      = some ((-2 - 0) / -(ε / 2)) := by
    simp only [Q2.Plane.intersect, referenceScene, hy, ht, if_true, if_false]
  refine ⟨⟨⟨0, 0, 0⟩, ⟨0, -(ε / 2), -1⟩⟩, ?_, ?_, ?_⟩
  · show |-(ε / 2)| < ε
    rw [abs_neg, abs_of_pos (by linarith)]
    linarith
  · rw [h2]; rfl
  · rw [Q3_plane_intersect_eq_Q2, h2]; rfl

/-- C16 (the code at the failing input). The ray `nearParallelRay` has a unit
direction with `|direction.y|` about `2e-5`, below the threshold `1e-4` of Q1,
which reports no hit on the reference ground plane; Q2 and Q3 report a hit at
`t = 100000.00001`. No other threshold works for Q2 and Q3 either: below every
positive bound there is a ray that they report as a hit. -/
theorem Q2_plane_accepts_near_parallel :
    nearParallelRay.direction.len = 1 ∧ |nearParallelRay.direction.y| < 1 / 10000 ∧
      Q1.Plane.intersect referenceScene.ground nearParallelRay = none ∧
      Q2.Plane.intersect referenceScene.ground nearParallelRay = some (10000000001 / 100000) ∧
      Q3.Plane.intersect referenceScene.ground nearParallelRay = some (10000000001 / 100000) ∧
      ∀ ε : ℝ, 0 < ε → ∃ ray : Ray, |ray.direction.y| < ε ∧
        (Q2.Plane.intersect referenceScene.ground ray).isSome = true ∧
        (Q3.Plane.intersect referenceScene.ground ray).isSome = true := by
  have habs : |nearParallelRay.direction.y| < 1 / 10000 := by
    show |(-(200000 / 10000000001) : ℝ)| < 1 / 10000
    rw [abs_neg, abs_of_pos (by norm_num)]
    norm_num
  have h2 : Q2.Plane.intersect referenceScene.ground nearParallelRay
      = some (10000000001 / 100000) := by
    norm_num [Q2.Plane.intersect, referenceScene, nearParallelRay]
  refine ⟨?_, habs, Q1_plane_rejects_near_parallel _ _ habs, h2, ?_, Q2_plane_no_threshold⟩
  · exact Vec3.len_eq _ 1 (by norm_num) (by norm_num [nearParallelRay])
  · rw [Q3_plane_intersect_eq_Q2, h2]

/-! ## Rays that miss a sphere -/

/-- Q2 reports no hit when the discriminant is negative, that is when
`(oc.dot(direction))^2 < oc.dot(oc) - radius^2`. -/
theorem Q2_intersect_none_of_disc_neg (s : Sphere) (ray : Ray)
    (h : ((ray.origin - s.center).dot ray.direction) ^ 2
      < (ray.origin - s.center).dot (ray.origin - s.center) - s.radius * s.radius) :
    Q2.Sphere.intersect s ray = none := by
  rw [Q2_sphere_intersect_eq, if_pos]
  unfold Sphere.quadB Sphere.quadC
  nlinarith

/-- Q2 reports no hit when the ray starts on or outside the sphere and points
away from it: both roots are non-positive. -/
theorem Q2_intersect_none_of_away (s : Sphere) (ray : Ray)
    (hb : 0 ≤ (ray.origin - s.center).dot ray.direction)
    (hc : 0 ≤ (ray.origin - s.center).dot (ray.origin - s.center) - s.radius * s.radius) :
    Q2.Sphere.intersect s ray = none := by
  rw [Q2_sphere_intersect_eq]
  have hB : 0 ≤ s.quadB ray := by unfold Sphere.quadB; linarith
  have hC : 0 ≤ s.quadC ray := hc
  have hsq : Real.sqrt (s.quadB ray * s.quadB ray - 4 * s.quadC ray) ≤ s.quadB ray := by
    rw [Real.sqrt_le_left hB]
    nlinarith
  have hnn := Real.sqrt_nonneg (s.quadB ray * s.quadB ray - 4 * s.quadC ray)
  have h0 : ¬ 0 < s.smallRoot ray := by
    unfold Sphere.smallRoot
    intro h
    linarith
  have h1 : ¬ 0 < s.largeRoot ray := by
    unfold Sphere.largeRoot
    intro h
    linarith
  split_ifs <;> rfl

/-- Q1 reports no hit when the ray has a non-zero direction and points away from
the centre: the only root it computes is non-positive. -/
theorem Q1_intersect_none_of_away (s : Sphere) (ray : Ray)
    (ha : 0 < ray.direction.dot ray.direction)
    (hb : 0 ≤ (ray.origin - s.center).dot ray.direction) :
    Q1.Sphere.intersect s ray = none := by
  simp only [Q1.Sphere.intersect]
  split_ifs with hD ht
  · rfl
  · exfalso
    have hnn := Real.sqrt_nonneg (2 * (ray.origin - s.center).dot ray.direction
      * (2 * (ray.origin - s.center).dot ray.direction)
      - 4 * ray.direction.dot ray.direction
        * ((ray.origin - s.center).dot (ray.origin - s.center) - s.radius * s.radius))
    have hnum : -(2 * (ray.origin - s.center).dot ray.direction) - Real.sqrt
        (2 * (ray.origin - s.center).dot ray.direction
          * (2 * (ray.origin - s.center).dot ray.direction)
          - 4 * ray.direction.dot ray.direction
            * ((ray.origin - s.center).dot (ray.origin - s.center) - s.radius * s.radius))
        ≤ 0 := by linarith
    have := div_nonpos_of_nonpos_of_nonneg hnum
      (by linarith : (0 : ℝ) ≤ 2 * ray.direction.dot ray.direction)
    linarith
  · rfl

/-- The dot product with a normalized non-zero vector is the dot product divided
by the length. -/
theorem Q2_dot_normalize (q w : Vec3) (hw : w ≠ Vec3.zero) :
    q.dot (Q2.normalize w) = q.dot w / w.len := by
  rw [Q2_normalize_eq w w.len (w.len_pos hw) w.len_mul_self]
  simp only [Vec3.dot]
  ring

/-- Q1 `normalize` agrees with Q2 `normalize` on non-zero vectors. -/
theorem Q1_normalize_eq_Q2 (w : Vec3) (hw : w ≠ Vec3.zero) :
    Q1.normalize w = Q2.normalize w := by
  rw [Q1_normalize_eq w w.len (w.len_pos hw).le w.len_mul_self,
    Q2_normalize_eq w w.len (w.len_pos hw) w.len_mul_self]

/-- A normalized non-zero vector has unit dot product with itself. -/
theorem Q2_normalize_dot_self (w : Vec3) (hw : w ≠ Vec3.zero) :
    (Q2.normalize w).dot (Q2.normalize w) = 1 :=
  Vec3.dot_self_of_len_eq_one _ (Q2_normalize_len w hw)

/-- Q2 reports no hit for a ray from the origin `o` along `normalize(w)` when the
line through `o` along `w` stays outside the sphere. -/
theorem Q2_intersect_none_of_normalized (s : Sphere) (o w : Vec3) (hw : w ≠ Vec3.zero)
    (h : ((o - s.center).dot w) ^ 2
      < ((o - s.center).dot (o - s.center) - s.radius * s.radius) * w.dot w) :
    Q2.Sphere.intersect s ⟨o, Q2.normalize w⟩ = none := by
  apply Q2_intersect_none_of_disc_neg
  show ((o - s.center).dot (Q2.normalize w)) ^ 2 < _
  rw [Q2_dot_normalize _ _ hw, div_pow, div_lt_iff₀ (pow_pos (w.len_pos hw) 2)]
  have : w.len ^ 2 = w.dot w := by rw [sq, w.len_mul_self]; rfl
  rw [this]
  exact h

/-! ## The bias of the shadow ray and self-occlusion -/

/-- A shadow ray that starts at `p + d * ε` on the light side of a surface point
`p` and runs along the direction `d`, away from the centre, has a
non-negative dot product of `oc` with `d` and starts outside the sphere. -/
theorem shadow_origin_along_direction (c p d : Vec3) (r ε : ℝ)
    (hq : (p - c).dot (p - c) = r * r) (hqd : 0 ≤ (p - c).dot d) (hε : 0 ≤ ε) :
    0 ≤ (p + d * ε - c).dot d ∧ 0 ≤ (p + d * ε - c).dot (p + d * ε - c) - r * r := by
  simp only [Vec3.dot, Vec3.add_x, Vec3.add_y, Vec3.add_z, Vec3.sub_x, Vec3.sub_y, Vec3.sub_z,
    Vec3.scale_x, Vec3.scale_y, Vec3.scale_z] at *
  constructor
  · nlinarith [mul_self_nonneg d.x, mul_self_nonneg d.y, mul_self_nonneg d.z]
  · nlinarith [mul_nonneg hε hqd, mul_nonneg hε hε, mul_self_nonneg d.x, mul_self_nonneg d.y,
      mul_self_nonneg d.z, mul_self_nonneg (d.x * ε), mul_self_nonneg (d.y * ε),
      mul_self_nonneg (d.z * ε)]

/-- A vector with a non-zero dot product against some vector is not zero. -/
theorem Vec3.ne_zero_of_dot_pos (q w : Vec3) (h : 0 < q.dot w) : w ≠ Vec3.zero := by
  intro hw
  rw [hw] at h
  simp [Vec3.dot] at h

/-- The dot product of a normalized non-zero vector with a vector is the dot
product divided by the length. -/
theorem Q2_normalize_dot_left (q w : Vec3) (hq : q ≠ Vec3.zero) :
    (Q2.normalize q).dot w = q.dot w / q.len := by
  rw [Q2_normalize_eq q q.len (q.len_pos hq) q.len_mul_self]
  simp only [Vec3.dot]
  ring

/-- When the normal `normalize(q)` has a positive dot product with `w`, neither
vector is zero and `q` has a positive dot product with `normalize(w)`. -/
theorem lit_side (q w : Vec3) (h : 0 < (Q2.normalize q).dot w) :
    q ≠ Vec3.zero ∧ w ≠ Vec3.zero ∧ 0 < q.dot (Q2.normalize w) := by
  have hq : q ≠ Vec3.zero := by
    intro h0
    rw [h0] at h
    simp [Q2.normalize, Vec3.len, Vec3.zero, Vec3.dot] at h
  have hw : w ≠ Vec3.zero := Vec3.ne_zero_of_dot_pos _ _ h
  refine ⟨hq, hw, ?_⟩
  rw [Q2_normalize_dot_left q w hq] at h
  rw [Q2_dot_normalize q w hw]
  exact div_pos ((div_pos_iff_of_pos_right (q.len_pos hq)).1 h) (w.len_pos hw)

/-- The shadow origin `p + d * ε` along a unit direction `d`: its offset from the
centre `c` has dot product `(p - c).dot d + ε` with `d` and squared length
`|p - c|^2 + 2 ε (p - c).dot d + ε^2`. -/
theorem biased_origin_direction (c p d : Vec3) (ε : ℝ) (hd : d.dot d = 1) :
    (p + d * ε - c).dot d = (p - c).dot d + ε ∧
      (p + d * ε - c).dot (p + d * ε - c)
        = (p - c).dot (p - c) + 2 * ε * (p - c).dot d + ε * ε := by
  simp only [Vec3.dot, Vec3.add_x, Vec3.add_y, Vec3.add_z, Vec3.sub_x, Vec3.sub_y, Vec3.sub_z,
    Vec3.scale_x, Vec3.scale_y, Vec3.scale_z] at *
  constructor
  · linear_combination ε * hd
  · linear_combination ε * ε * hd

/-- The shadow origin `p + n * ε` along the normal `n = (p - c) / m`, where
`m > 0` is the distance of `p` from the centre `c`: its offset from the centre is
`(1 + ε / m) (p - c)`, of length `m + ε`. -/
theorem biased_origin_normal (c p d : Vec3) (m ε : ℝ) (hm : 0 < m)
    (hq : (p - c).dot (p - c) = m * m) :
    (p + (⟨(p - c).x / m, (p - c).y / m, (p - c).z / m⟩ : Vec3) * ε - c).dot d
        = (1 + ε / m) * (p - c).dot d ∧
      (p + (⟨(p - c).x / m, (p - c).y / m, (p - c).z / m⟩ : Vec3) * ε - c).dot
          (p + (⟨(p - c).x / m, (p - c).y / m, (p - c).z / m⟩ : Vec3) * ε - c)
        = (m + ε) * (m + ε) := by
  simp only [Vec3.dot, Vec3.add_x, Vec3.add_y, Vec3.add_z, Vec3.sub_x, Vec3.sub_y, Vec3.sub_z,
    Vec3.scale_x, Vec3.scale_y, Vec3.scale_z] at *
  have hm0 : m ≠ 0 := hm.ne'
  constructor
  · field_simp
    ring
  · have : (p.x + (p.x - c.x) / m * ε - c.x) * (p.x + (p.x - c.x) / m * ε - c.x)
        + (p.y + (p.y - c.y) / m * ε - c.y) * (p.y + (p.y - c.y) / m * ε - c.y)
        + (p.z + (p.z - c.z) / m * ε - c.z) * (p.z + (p.z - c.z) / m * ε - c.z)
        = (1 + ε / m) * (1 + ε / m)
          * ((p.x - c.x) * (p.x - c.x) + (p.y - c.y) * (p.y - c.y)
            + (p.z - c.z) * (p.z - c.z)) := by
      field_simp
      ring
    rw [this, hq]
    field_simp

/-- Q2 reports a hit for every ray that starts strictly inside the sphere: the
constant term `c` of the quadratic is negative, so the larger root is positive. -/
theorem Q2_intersect_some_of_inside (s : Sphere) (ray : Ray)
    (hc : (ray.origin - s.center).dot (ray.origin - s.center) - s.radius * s.radius < 0) :
    Q2.Sphere.intersect s ray ≠ none := by
  rw [Q2_sphere_intersect_eq]
  have hC : s.quadC ray < 0 := hc
  have hD : ¬ s.quadB ray * s.quadB ray - 4 * s.quadC ray < 0 := by
    nlinarith [mul_self_nonneg (s.quadB ray)]
  have hlt : |s.quadB ray| < Real.sqrt (s.quadB ray * s.quadB ray - 4 * s.quadC ray) := by
    apply Real.lt_sqrt_of_sq_lt
    rw [sq_abs]
    nlinarith
  have hL : 0 < s.largeRoot ray := by
    unfold Sphere.largeRoot
    have := le_abs_self (s.quadB ray)
    linarith
  rw [if_neg hD]
  split_ifs <;> simp

/-- A vector shorter than `r` has squared length below `r * r`. -/
theorem Vec3.dot_self_lt (v : Vec3) (r : ℝ) (h : v.len < r) : v.dot v - r * r < 0 := by
  have h0 : 0 ≤ v.len := Real.sqrt_nonneg _
  have h1 : v.dot v = v.len * v.len := v.len_mul_self.symm
  rw [h1]
  nlinarith

/-- C17. In each of Q1, Q2 and Q3, for a sphere with radius > 0 and a point `p`
with outward unit normal `n = normalize(p - center)` and `dot(n, lightPos - p) > 0`,
the shadow ray the variant builds (origin `p + 0.001 * lightDir` in Q1 and Q2,
`p + 0.001 * n` in Q3, direction `normalize(lightPos - p)`) is reported as not
intersecting that sphere: in Q1 for every such `p`, in Q2 when
`|p - center|^2 >= radius^2 - 0.001^2`, in Q3 when `|p - center| >= radius - 0.001`;
each covers the points of the surface, `|p - center| = radius`. The offset is
what achieves this for a point that lies below the surface: from such a point the
ray without offset is reported as hitting by Q2 and Q3, and so is the Q2 shadow ray
when its origin is still inside the sphere. In Q1 the offset extends the result to
every light with `dot(p - center, lightDir) >= -0.001`. -/
theorem shadow_ray_misses_own_sphere (sc : Scene) (s : Sphere) (p : Vec3)
    (hr : 0 < s.radius) :
    (0 < (Q1.normalize (p - s.center)).dot (sc.lightPos - p) →
        Q1.Sphere.intersect s (Q1.shadowRay sc p) = none) ∧
      (0 < (Q2.normalize (p - s.center)).dot (sc.lightPos - p) →
        s.radius ^ 2 - (1 / 1000) ^ 2 ≤ (p - s.center).len ^ 2 →
        Q2.Sphere.intersect s (Q2.shadowRay sc p) = none) ∧
      (0 < (Q3.normalize (p - s.center)).dot (sc.lightPos - p) →
        s.radius - 1 / 1000 ≤ (p - s.center).len →
        Q3.Sphere.intersect s (Q3.shadowRay sc p (Q3.normalize (p - s.center))) = none) ∧
      ((p - s.center).len < s.radius →
        Q2.Sphere.intersect s ⟨p, Q2.normalize (sc.lightPos - p)⟩ ≠ none ∧
          Q3.Sphere.intersect s ⟨p, Q3.normalize (sc.lightPos - p)⟩ ≠ none) ∧
      (((Q2.shadowRay sc p).origin - s.center).len < s.radius →
        Q2.Sphere.intersect s (Q2.shadowRay sc p) ≠ none) ∧
      (sc.lightPos - p ≠ Vec3.zero →
        -(1 / 1000) ≤ (p - s.center).dot (Q1.normalize (sc.lightPos - p)) →
        Q1.Sphere.intersect s (Q1.shadowRay sc p) = none) := by
  have q1 : sc.lightPos - p ≠ Vec3.zero →
      -(1 / 1000) ≤ (p - s.center).dot (Q1.normalize (sc.lightPos - p)) →
      Q1.Sphere.intersect s (Q1.shadowRay sc p) = none := by
    intro hw hqd
    rw [Q1_normalize_eq_Q2 _ hw] at hqd
    have hd := Q2_normalize_dot_self _ hw
    obtain ⟨hb, -⟩ := biased_origin_direction s.center p (Q2.normalize (sc.lightPos - p))
      (1 / 1000) hd
    apply Q1_intersect_none_of_away
    · show 0 < (Q1.normalize (sc.lightPos - p)).dot (Q1.normalize (sc.lightPos - p))
      rw [Q1_normalize_eq_Q2 _ hw, hd]
      norm_num
    · show 0 ≤ (p + Q1.normalize (sc.lightPos - p) * (1 / 1000 : ℝ) - s.center).dot
        (Q1.normalize (sc.lightPos - p))
      rw [Q1_normalize_eq_Q2 _ hw, hb]
      linarith
  refine ⟨fun h => ?_, fun h hband => ?_, fun h hband => ?_, fun hin => ⟨?_, ?_⟩,
    fun hin => ?_, q1⟩
  · have hne : p - s.center ≠ Vec3.zero := by
      intro h0
      rw [h0] at h
      simp [Q1.normalize, Vec3.zero, Vec3.dot] at h
    rw [Q1_normalize_eq_Q2 _ hne] at h
    obtain ⟨-, hw, hqd⟩ := lit_side _ _ h
    apply q1 hw
    rw [Q1_normalize_eq_Q2 _ hw]
    linarith
  · obtain ⟨-, hw, hqd⟩ := lit_side _ _ h
    have hd := Q2_normalize_dot_self _ hw
    obtain ⟨hb, hc⟩ := biased_origin_direction s.center p (Q2.normalize (sc.lightPos - p))
      (1 / 1000) hd
    have hlen : (p - s.center).len ^ 2 = (p - s.center).dot (p - s.center) := by
      rw [sq, (p - s.center).len_mul_self]
      rfl
    apply Q2_intersect_none_of_away
    · show 0 ≤ (p + Q2.normalize (sc.lightPos - p) * (1 / 1000 : ℝ) - s.center).dot
        (Q2.normalize (sc.lightPos - p))
      rw [hb]
      linarith
    · show 0 ≤ (p + Q2.normalize (sc.lightPos - p) * (1 / 1000 : ℝ) - s.center).dot
        (p + Q2.normalize (sc.lightPos - p) * (1 / 1000 : ℝ) - s.center) - s.radius * s.radius
      rw [hc]
      rw [hlen] at hband
      nlinarith
  · rw [Q3_normalize_eq_Q2] at h
    obtain ⟨hq0, hw, hqd⟩ := lit_side _ _ h
    have hm := (p - s.center).len_pos hq0
    have hq : (p - s.center).dot (p - s.center) = (p - s.center).len * (p - s.center).len :=
      ((p - s.center).len_mul_self).symm
    obtain ⟨hb, hc⟩ := biased_origin_normal s.center p (Q2.normalize (sc.lightPos - p))
      (p - s.center).len (1 / 1000) hm hq
    rw [Q3_sphere_intersect_eq_Q2]
    apply Q2_intersect_none_of_away
    · show 0 ≤ (p + Q3.normalize (p - s.center) * (1 / 1000 : ℝ) - s.center).dot
        (Q3.normalize (sc.lightPos - p))
      rw [Q3_normalize_eq_Q2, Q3_normalize_eq_Q2,
        Q2_normalize_eq (p - s.center) _ hm (p - s.center).len_mul_self, hb]
      exact mul_nonneg (add_nonneg zero_le_one (div_nonneg (by norm_num) hm.le)) hqd.le
    · show 0 ≤ (p + Q3.normalize (p - s.center) * (1 / 1000 : ℝ) - s.center).dot
        (p + Q3.normalize (p - s.center) * (1 / 1000 : ℝ) - s.center) - s.radius * s.radius
      rw [Q3_normalize_eq_Q2, Q2_normalize_eq (p - s.center) _ hm (p - s.center).len_mul_self, hc]
      nlinarith
  · exact Q2_intersect_some_of_inside s _ ((p - s.center).dot_self_lt s.radius hin)
  · rw [Q3_sphere_intersect_eq_Q2]
    exact Q2_intersect_some_of_inside s _ ((p - s.center).dot_self_lt s.radius hin)
  · exact Q2_intersect_some_of_inside s _ (Vec3.dot_self_lt _ s.radius hin)

/-- The normal and the light direction at `sunkPoint` in `grazingLightScene`, and
the distance of `sunkPoint` from the centre of `frontSphere`. -/
theorem sunkPoint_frame :
    Q2.normalize (sunkPoint - frontSphere.center) = ⟨0, 0, 1⟩ ∧
      Q2.normalize (grazingLightScene.lightPos - sunkPoint) = ⟨24 / 25, 0, 7 / 25⟩ ∧
      (sunkPoint - frontSphere.center).len = 1999 / 2000 := by
  refine ⟨?_, ?_, ?_⟩
  · rw [Q2_normalize_eq _ (1999 / 2000) (by norm_num) (by norm_num [frontSphere, sunkPoint])]
    ext <;> norm_num [frontSphere, sunkPoint]
  · rw [Q2_normalize_eq _ 25 (by norm_num) (by norm_num [grazingLightScene, sunkPoint])]
    ext <;> norm_num [grazingLightScene, sunkPoint]
  · exact Vec3.len_eq _ _ (by norm_num) (by norm_num [frontSphere, sunkPoint])

/-- Witness for C17: the point of `frontSphere` nearest the origin, lit from
`(0, 0, 1)`, is not occluded by its own sphere in any variant. At `sunkPoint`,
`0.0005` below that surface and lit at `dot(n, lightDir) = 7/25`, the shadow ray
of Q3 misses the sphere, the same ray without offset hits it, and the shadow ray
of Q2 hits it. -/
theorem shadow_ray_misses_own_sphere_witness :
    (0 < frontSphere.radius ∧ (frontPoint - frontSphere.center).len = frontSphere.radius ∧
      Q1.Sphere.intersect frontSphere (Q1.shadowRay frontLightScene frontPoint) = none ∧
      Q2.Sphere.intersect frontSphere (Q2.shadowRay frontLightScene frontPoint) = none ∧
      Q3.Sphere.intersect frontSphere (Q3.shadowRay frontLightScene frontPoint
        (Q3.normalize (frontPoint - frontSphere.center))) = none) ∧
    ((sunkPoint - frontSphere.center).len < frontSphere.radius ∧
      0 < (Q3.normalize (sunkPoint - frontSphere.center)).dot
        (grazingLightScene.lightPos - sunkPoint) ∧
      Q3.Sphere.intersect frontSphere (Q3.shadowRay grazingLightScene sunkPoint
        (Q3.normalize (sunkPoint - frontSphere.center))) = none ∧
      Q3.Sphere.intersect frontSphere
        ⟨sunkPoint, Q3.normalize (grazingLightScene.lightPos - sunkPoint)⟩ ≠ none ∧
      Q2.Sphere.intersect frontSphere (Q2.shadowRay grazingLightScene sunkPoint) ≠ none) :=
  have hr : 0 < frontSphere.radius := by norm_num [frontSphere]
  have hp : (frontPoint - frontSphere.center).len = frontSphere.radius :=
    Vec3.len_eq _ _ hr.le (by norm_num [frontSphere, frontPoint])
  have hn : Q2.normalize (frontPoint - frontSphere.center) = ⟨0, 0, 1⟩ := by
    rw [Q2_normalize_eq _ 1 (by norm_num) (by norm_num [frontSphere, frontPoint])]
    ext <;> norm_num [frontSphere, frontPoint]
  have hne : frontPoint - frontSphere.center ≠ Vec3.zero :=
    Vec3.ne_zero_of_z _ (by norm_num [frontSphere, frontPoint])
  have h2 : 0 < (Q2.normalize (frontPoint - frontSphere.center)).dot
      (frontLightScene.lightPos - frontPoint) := by
    rw [hn]; norm_num [Vec3.dot, frontLightScene, frontPoint]
  have h1 : 0 < (Q1.normalize (frontPoint - frontSphere.center)).dot
      (frontLightScene.lightPos - frontPoint) := by
    rw [Q1_normalize_eq_Q2 _ hne]; exact h2
  have hr1 : frontSphere.radius = 1 := rfl
  have hs : (sunkPoint - frontSphere.center).len < frontSphere.radius := by
    rw [sunkPoint_frame.2.2, hr1]; norm_num
  have h3 : 0 < (Q3.normalize (sunkPoint - frontSphere.center)).dot
      (grazingLightScene.lightPos - sunkPoint) := by
    rw [Q3_normalize_eq_Q2, sunkPoint_frame.1]
    norm_num [Vec3.dot, grazingLightScene, sunkPoint]
  have ho : ((Q2.shadowRay grazingLightScene sunkPoint).origin - frontSphere.center).len
      < frontSphere.radius := by
    rw [hr1]
    simp only [Q2.shadowRay, Q2.Ray.new, sunkPoint_frame.2.1, Vec3.len]
    rw [Real.sqrt_lt' (by norm_num)]
    norm_num [frontSphere, sunkPoint]
  have h := shadow_ray_misses_own_sphere frontLightScene frontSphere frontPoint hr
  have g := shadow_ray_misses_own_sphere grazingLightScene frontSphere sunkPoint hr
  ⟨⟨hr, hp, h.1 h1, h.2.1 h2 (by rw [hp, hr1]; norm_num),
      h.2.2.1 h2 (by rw [hp, hr1]; norm_num)⟩,
    ⟨hs, h3, g.2.2.1 h3 (by rw [sunkPoint_frame.2.2, hr1]; norm_num), (g.2.2.2.1 hs).2,
      g.2.2.2.2.1 ho⟩⟩

/-! ## Background pixels of the reference scene (Q2) -/

/-- Q2's traced colour resolves the nearest hit (the Q2 half of nearest-hit
resolution, for use on concrete pixels). -/
theorem Q2_trace_resolves (sc : Scene) (ray : Ray) :
    ResolvesNearest (fun s => Q2.Sphere.intersect s ray) (Q2.Plane.intersect sc.ground ray)
      sc.spheres (Q2.sphereColor sc ray) (Q2.groundColor sc ray) (Q2.trace sc ray) := by
  have h := scan_resolves (fun s => Q2.Sphere.intersect s ray)
    (Q2.Plane.intersect sc.ground ray) sc.spheres (Q2.sphereColor sc ray) (Q2.groundColor sc ray)
  rw [← Q2_sphereStep_eq] at h
  exact h

/-- Gamma correction of Q2 keeps black black. -/
theorem Q2_powf_black : Q2.powf ⟨0, 0, 0⟩ (1 / (22 / 10)) = ⟨0, 0, 0⟩ := by
  have h : (0 : ℝ) ^ (1 / (22 / 10 : ℝ)) = 0 := Real.zero_rpow (by norm_num)
  simp only [Q2.powf, h]

/-- A ray from height 0 whose direction does not point downwards misses the
reference ground plane in Q2. -/
theorem Q2_ground_missed_upward (ray : Ray) (h0 : ray.origin.y = 0)
    (hy : 0 ≤ ray.direction.y) : Q2.Plane.intersect referenceScene.ground ray = none := by
  simp only [Q2.Plane.intersect, referenceScene, h0, sub_zero]
  split_ifs with hz ht
  · rfl
  · exfalso
    have hpos : 0 < ray.direction.y := lt_of_le_of_ne hy (Ne.symm hz)
    have : (-2 : ℝ) / ray.direction.y < 0 := div_neg_of_neg_of_pos (by norm_num) hpos
    linarith
  · rfl

/-- The camera ray of the far-corner pixel `(511, 511)` misses the three spheres
of the reference scene. -/
theorem Q2_corner_ray_misses_spheres :
    ∀ s ∈ referenceScene.spheres, Q2.Sphere.intersect s (Q2.cameraRay 511 511) = none := by
  intro s hs
  simp only [referenceScene, List.mem_cons, List.mem_singleton, List.not_mem_nil, or_false] at hs
  rcases hs with rfl | rfl | rfl <;>
    · apply Q2_intersect_none_of_normalized _ _ _ (Vec3.ne_zero_of_z _ (by norm_num))
      norm_num [Vec3.dot, WIDTH, HEIGHT]

/-- C13. In Q2 rendering the reference scene, every pixel whose camera ray hits
no sphere and has a non-negative vertical direction component is written as the
background colour `(0, 0, 0)` after gamma correction; in particular the
far-corner pixel `x = 511, y = 511` is `(0, 0, 0)`. -/
theorem background_pixels_black :
    (∀ x y : ℕ,
        (∀ s ∈ referenceScene.spheres, Q2.Sphere.intersect s (Q2.cameraRay x y) = none) →
        0 ≤ (Q2.cameraRay x y).direction.y →
        Q2.renderPixel referenceScene x y = ⟨0, 0, 0⟩) ∧
      Q2.renderPixel referenceScene 511 511 = ⟨0, 0, 0⟩ := by
  have gen : ∀ x y : ℕ,
      (∀ s ∈ referenceScene.spheres, Q2.Sphere.intersect s (Q2.cameraRay x y) = none) →
      0 ≤ (Q2.cameraRay x y).direction.y →
      Q2.renderPixel referenceScene x y = ⟨0, 0, 0⟩ := by
    intro x y hs hy
    have hp := Q2_ground_missed_upward (Q2.cameraRay x y) rfl hy
    have ht := (Q2_trace_resolves referenceScene (Q2.cameraRay x y)).1 ⟨hs, hp⟩
    rw [Q2.renderPixel, ht, Q2_powf_black]
  refine ⟨gen, gen 511 511 Q2_corner_ray_misses_spheres ?_⟩
  have hpos : 0 < (Q2.cameraRay 511 511).direction.y := by
    show 0 < (Q2.normalize _).y
    rw [Q2_normalize_eq _ _ (Vec3.len_pos _ (Vec3.ne_zero_of_z _ (by norm_num)))
      (Vec3.len_mul_self _)]
    apply div_pos
    · norm_num [WIDTH, HEIGHT]
    · exact Vec3.len_pos _ (Vec3.ne_zero_of_z _ (by norm_num))
  exact hpos.le

/-! ## The centre pixel of the reference scene (Q2) -/

/-- The spheres of the reference scene, by name. -/
theorem referenceScene_spheres : referenceScene.spheres = [redSphere, greenSphere, blueSphere] := rfl

/-- The camera ray of pixel `(256, 256)` leaves the origin along
`(k/512, k/512, -k)` for a `k` just below 1. -/
theorem centerRay_form :
    ∃ k : ℝ, 0 < k ∧ k * k * 131073 = 131072 ∧ centerRay = ⟨⟨0, 0, 0⟩, ⟨k / 512, k / 512, -k⟩⟩ := by
  have hw : (⟨-(1 / 10) + (1 / 10 - -(1 / 10)) * (((256 : ℕ) : ℝ) + 1 / 2) / ((WIDTH : ℕ) : ℝ),
      -(1 / 10) + (1 / 10 - -(1 / 10)) * (((256 : ℕ) : ℝ) + 1 / 2) / ((HEIGHT : ℕ) : ℝ),
      -(1 / 10)⟩ : Vec3) = ⟨1 / 5120, 1 / 5120, -(1 / 10)⟩ := by
    ext <;> norm_num [WIDTH, HEIGHT]
  have hne : (⟨1 / 5120, 1 / 5120, -(1 / 10)⟩ : Vec3) ≠ Vec3.zero :=
    Vec3.ne_zero_of_z _ (by norm_num)
  have hl := Vec3.len_pos _ hne
  have hl2 := Vec3.len_mul_self (⟨1 / 5120, 1 / 5120, -(1 / 10)⟩ : Vec3)
  set l := (⟨1 / 5120, 1 / 5120, -(1 / 10)⟩ : Vec3).len with hldef
  refine ⟨1 / 10 / l, by positivity, ?_, ?_⟩
  · field_simp
    norm_num at hl2
    nlinarith
  · simp only [centerRay, Q2.cameraRay, Q2.Ray.new, hw]
    rw [Q2_normalize_eq _ l hl hl2]
    congr 1
    ext <;> field_simp <;> ring

/-- The ray along `(k/512, k/512, -k)` from the origin misses the red and the blue
sphere of the reference scene. -/
theorem center_ray_misses_side (k : ℝ) (hk2 : k * k * 131073 = 131072) :
    Q2.Sphere.intersect redSphere ⟨⟨0, 0, 0⟩, ⟨k / 512, k / 512, -k⟩⟩ = none ∧
      Q2.Sphere.intersect blueSphere ⟨⟨0, 0, 0⟩, ⟨k / 512, k / 512, -k⟩⟩ = none := by
  constructor
  · apply Q2_intersect_none_of_disc_neg
    simp only [redSphere, Vec3.dot, Vec3.sub_x, Vec3.sub_y, Vec3.sub_z]
    nlinarith
  · apply Q2_intersect_none_of_disc_neg
    simp only [blueSphere, Vec3.dot, Vec3.sub_x, Vec3.sub_y, Vec3.sub_z]
    nlinarith

/-- The ray along `(k/512, k/512, -k)` from the origin hits the green sphere at its
smaller root `t`; the depth `x = t * k` of the hit point lies in `[5, 5.01)` and
satisfies the sphere equation. -/
theorem center_ray_hits_green (k : ℝ) (hk : 0 < k) (hk2 : k * k * 131073 = 131072) :
    Q2.Sphere.intersect greenSphere ⟨⟨0, 0, 0⟩, ⟨k / 512, k / 512, -k⟩⟩
        = some (greenSphere.smallRoot ⟨⟨0, 0, 0⟩, ⟨k / 512, k / 512, -k⟩⟩) ∧
      0 < greenSphere.smallRoot ⟨⟨0, 0, 0⟩, ⟨k / 512, k / 512, -k⟩⟩ ∧
      greenSphere.smallRoot ⟨⟨0, 0, 0⟩, ⟨k / 512, k / 512, -k⟩⟩ < 7 ∧
      5 ≤ greenSphere.smallRoot ⟨⟨0, 0, 0⟩, ⟨k / 512, k / 512, -k⟩⟩ * k ∧
      greenSphere.smallRoot ⟨⟨0, 0, 0⟩, ⟨k / 512, k / 512, -k⟩⟩ * k < 501 / 100 ∧
      2 * (greenSphere.smallRoot ⟨⟨0, 0, 0⟩, ⟨k / 512, k / 512, -k⟩⟩ * k / 512) ^ 2
        + (7 - greenSphere.smallRoot ⟨⟨0, 0, 0⟩, ⟨k / 512, k / 512, -k⟩⟩ * k) ^ 2 = 4 := by
  set ray : Ray := ⟨⟨0, 0, 0⟩, ⟨k / 512, k / 512, -k⟩⟩ with hray
  have hB : greenSphere.quadB ray = -(14 * k) := by
    simp only [Sphere.quadB, greenSphere, hray, Vec3.dot, Vec3.sub_x, Vec3.sub_y, Vec3.sub_z]
    ring
  have hC : greenSphere.quadC ray = 45 := by
    simp only [Sphere.quadC, greenSphere, hray, Vec3.dot, Vec3.sub_x, Vec3.sub_y, Vec3.sub_z]
    norm_num
  have hk1 : k * k < 1 := by nlinarith
  have hk1' : k < 1 := by nlinarith
  have hDv : greenSphere.quadB ray * greenSphere.quadB ray - 4 * greenSphere.quadC ray
      = 196 * (k * k) - 180 := by
    rw [hB, hC]; ring
  have hD : 0 ≤ 196 * (k * k) - 180 := by nlinarith
  have hsq := Real.mul_self_sqrt hD
  have hnn := Real.sqrt_nonneg (196 * (k * k) - 180)
  have ht : greenSphere.smallRoot ray = (14 * k - Real.sqrt (196 * (k * k) - 180)) / 2 := by
    rw [Sphere.smallRoot, hDv, hB, neg_neg]
  set sq := Real.sqrt (196 * (k * k) - 180) with hsqdef
  have hlt : sq < 14 * k := by nlinarith
  have hpos : 0 < greenSphere.smallRoot ray := by rw [ht]; linarith
  have hroot : greenSphere.smallRoot ray ^ 2 - 14 * k * greenSphere.smallRoot ray + 45 = 0 := by
    rw [ht]; nlinarith
  have hle : greenSphere.smallRoot ray ≤ 7 * k := by rw [ht]; linarith
  set t := greenSphere.smallRoot ray with htdef
  have hx7 : t * k < 7 := by nlinarith
  have heq : 2 * (t * k / 512) ^ 2 + (7 - t * k) ^ 2 = 4 := by
    have : t ^ 2 = (t * k) ^ 2 * (131073 / 131072) := by
      have : k * k * (131073 / 131072) = 1 := by linarith
      calc t ^ 2 = t ^ 2 * (k * k * (131073 / 131072)) := by rw [this, mul_one]
        _ = (t * k) ^ 2 * (131073 / 131072) := by ring
    nlinarith
  have hxpos : 0 < t * k := mul_pos hpos hk
  refine ⟨?_, hpos, by nlinarith, ?_, ?_, heq⟩
  · rw [Q2_sphere_intersect_eq, hDv, if_neg (not_lt.2 hD), if_pos hpos]
  · nlinarith [sq_nonneg (t * k / 512)]
  · nlinarith [sq_nonneg (t * k / 512)]

/-- Moving the origin of a ray along its unit direction does not change the sign
of the discriminant: if the line through `p` along `d` stays outside the sphere,
so does the ray from `p + d * ε`. -/
theorem disc_neg_of_shift (c p d : Vec3) (r ε : ℝ) (hd : d.dot d = 1)
    (h : ((p - c).dot d) ^ 2 < (p - c).dot (p - c) - r * r) :
    ((p + d * ε - c).dot d) ^ 2 < (p + d * ε - c).dot (p + d * ε - c) - r * r := by
  have k1 : (p + d * ε - c).dot d = (p - c).dot d + ε * d.dot d := by
    simp only [Vec3.dot, Vec3.add_x, Vec3.add_y, Vec3.add_z, Vec3.sub_x, Vec3.sub_y, Vec3.sub_z,
      Vec3.scale_x, Vec3.scale_y, Vec3.scale_z]
    ring
  have k2 : (p + d * ε - c).dot (p + d * ε - c)
      = (p - c).dot (p - c) + 2 * ε * (p - c).dot d + ε * ε * d.dot d := by
    simp only [Vec3.dot, Vec3.add_x, Vec3.add_y, Vec3.add_z, Vec3.sub_x, Vec3.sub_y, Vec3.sub_z,
      Vec3.scale_x, Vec3.scale_y, Vec3.scale_z]
    ring
  rw [k1, k2, hd]
  nlinarith

/-- Q2's shadow ray from `p` misses a sphere when the line from `p` towards the
light stays outside it. -/
theorem Q2_shadow_misses_of_line (sc : Scene) (s : Sphere) (p : Vec3)
    (hw : sc.lightPos - p ≠ Vec3.zero)
    (h : ((p - s.center).dot (sc.lightPos - p)) ^ 2
      < ((p - s.center).dot (p - s.center) - s.radius * s.radius)
        * (sc.lightPos - p).dot (sc.lightPos - p)) :
    Q2.Sphere.intersect s (Q2.shadowRay sc p) = none := by
  apply Q2_intersect_none_of_disc_neg
  apply disc_neg_of_shift _ _ _ _ _ (Q2_normalize_dot_self _ hw)
  rw [Q2_dot_normalize _ _ hw, div_pow, div_lt_iff₀ (pow_pos (Vec3.len_pos _ hw) 2)]
  have : (sc.lightPos - p).len ^ 2 = (sc.lightPos - p).dot (sc.lightPos - p) := by
    rw [sq, Vec3.len_mul_self]; rfl
  rw [this]
  exact h

/-- Q2's shadow ray from a point on or above the reference ground, towards a light
that lies higher than the point, misses the ground plane. -/
theorem Q2_shadow_misses_ground (sc : Scene) (p : Vec3) (hp : sc.ground.y ≤ p.y)
    (hl : 0 < (sc.lightPos - p).y) :
    Q2.Plane.intersect sc.ground (Q2.shadowRay sc p) = none := by
  have hw : sc.lightPos - p ≠ Vec3.zero := by
    intro h0
    rw [h0] at hl
    exact lt_irrefl _ hl
  have hlen := Vec3.len_pos _ hw
  have hdy : 0 < (Q2.normalize (sc.lightPos - p)).y := by
    rw [Q2_normalize_eq _ _ hlen (Vec3.len_mul_self _)]
    exact div_pos hl hlen
  simp only [Q2.Plane.intersect, Q2.shadowRay, Q2.Ray.new, Vec3.add_y, Vec3.scale_y]
  rw [if_neg hdy.ne', if_neg]
  have hnum : sc.ground.y - (p.y + (Q2.normalize (sc.lightPos - p)).y * (1 / 1000)) < 0 := by
    nlinarith
  have := div_neg_of_neg_of_pos hnum hdy
  linarith

/-- Q2 `inShadow` is the disjunction of the tests on the shadow ray. -/
theorem Q2_inShadow_false (sc : Scene) (p : Vec3)
    (hs : ∀ s ∈ sc.spheres, Q2.Sphere.intersect s (Q2.shadowRay sc p) = none)
    (hg : Q2.Plane.intersect sc.ground (Q2.shadowRay sc p) = none) :
    Q2.inShadow sc p (Q2.normalize (sc.lightPos - p)) = false := by
  have hs' : sc.spheres.any (fun sphere => (Q2.Sphere.intersect sphere (Q2.shadowRay sc p)).isSome)
      = false := by
    rw [List.any_eq_false]
    intro s hmem
    rw [hs s hmem]
    simp
  have : Q2.inShadow sc p (Q2.normalize (sc.lightPos - p))
      = (sc.spheres.any (fun sphere => (Q2.Sphere.intersect sphere (Q2.shadowRay sc p)).isSome)
        || (Q2.Plane.intersect sc.ground (Q2.shadowRay sc p)).isSome) := rfl
  rw [this, hs', hg]
  rfl

/-- The dot product of two vectors divided componentwise by scalars. -/
theorem dot_div_div (a b : Vec3) (r l : ℝ) :
    (⟨a.x / r, a.y / r, a.z / r⟩ : Vec3).dot ⟨b.x / l, b.y / l, b.z / l⟩
      = a.dot b / (r * l) := by
  simp only [Vec3.dot]
  ring

/-- At the point `(x/512, x/512, -x)` of the green sphere with `x` in `[5, 5.01)`,
the point is not in shadow for Q2 and the normal makes a positive dot product
with the light direction. -/
theorem center_hit_lit (x : ℝ) (h5 : 5 ≤ x) (h501 : x < 501 / 100)
    (heq : 2 * (x / 512) ^ 2 + (7 - x) ^ 2 = 4) :
    Q2.inShadow referenceScene ⟨x / 512, x / 512, -x⟩
        (Q2.normalize (referenceScene.lightPos - ⟨x / 512, x / 512, -x⟩)) = false ∧
      0 < (Q2.normalize ((⟨x / 512, x / 512, -x⟩ : Vec3) - greenSphere.center)).dot
        (Q2.normalize (referenceScene.lightPos - ⟨x / 512, x / 512, -x⟩)) := by
  set p : Vec3 := ⟨x / 512, x / 512, -x⟩ with hp
  have hw : referenceScene.lightPos - p ≠ Vec3.zero := by
    apply Vec3.ne_zero_of_z
    show (-3 : ℝ) - -x ≠ 0
    linarith
  have hqw : 0 < (p - greenSphere.center).dot (referenceScene.lightPos - p) := by
    simp only [hp, greenSphere, referenceScene, Vec3.dot, Vec3.sub_x, Vec3.sub_y, Vec3.sub_z]
    nlinarith
  have hlen : (p - greenSphere.center).len = greenSphere.radius := by
    apply Vec3.len_eq _ _ (by norm_num [greenSphere])
    simp only [hp, greenSphere, Vec3.sub_x, Vec3.sub_y, Vec3.sub_z]
    nlinarith
  have hq : (p - greenSphere.center).dot (p - greenSphere.center)
      = greenSphere.radius * greenSphere.radius := by
    rw [← hlen]; exact (Vec3.len_mul_self _).symm
  constructor
  · apply Q2_inShadow_false
    · intro s hs
      rw [referenceScene_spheres] at hs
      simp only [List.mem_cons, List.mem_singleton, List.not_mem_nil, or_false] at hs
      rcases hs with rfl | rfl | rfl
      · apply Q2_shadow_misses_of_line _ _ _ hw
        simp only [hp, redSphere, referenceScene, Vec3.dot, Vec3.sub_x, Vec3.sub_y, Vec3.sub_z]
        have e1 : -13 ≤ (x / 512 - -4) * (-4 - x / 512) + (x / 512 - 0) * (4 - x / 512)
            + (-x - -7) * (-3 - -x) := by nlinarith
        have e2 : (x / 512 - -4) * (-4 - x / 512) + (x / 512 - 0) * (4 - x / 512)
            + (-x - -7) * (-3 - -x) ≤ 13 := by nlinarith
        have e3 : 19 ≤ (x / 512 - -4) * (x / 512 - -4) + (x / 512 - 0) * (x / 512 - 0)
            + (-x - -7) * (-x - -7) - 1 * 1 := by nlinarith
        have e4 : 35 ≤ (-4 - x / 512) * (-4 - x / 512) + (4 - x / 512) * (4 - x / 512)
            + (-3 - -x) * (-3 - -x) := by nlinarith
        exact lt_of_le_of_lt (sq_le_sq' e1 e2)
          (lt_of_lt_of_le (by norm_num) (mul_le_mul e3 e4 (by norm_num) (by linarith)))
      · have hqd : 0 ≤ (p - greenSphere.center).dot (Q2.normalize (referenceScene.lightPos - p)) := by
          rw [Q2_dot_normalize _ _ hw]
          exact div_nonneg hqw.le (Vec3.len_pos _ hw).le
        obtain ⟨hb, hc⟩ := shadow_origin_along_direction greenSphere.center p
          (Q2.normalize (referenceScene.lightPos - p)) greenSphere.radius (1 / 1000) hq hqd
          (by norm_num)
        exact Q2_intersect_none_of_away greenSphere _ hb hc
      · apply Q2_shadow_misses_of_line _ _ _ hw
        simp only [hp, blueSphere, referenceScene, Vec3.dot, Vec3.sub_x, Vec3.sub_y, Vec3.sub_z]
        have e1 : -21 ≤ (x / 512 - 4) * (-4 - x / 512) + (x / 512 - 0) * (4 - x / 512)
            + (-x - -7) * (-3 - -x) := by nlinarith
        have e2 : (x / 512 - 4) * (-4 - x / 512) + (x / 512 - 0) * (4 - x / 512)
            + (-x - -7) * (-3 - -x) ≤ 21 := by nlinarith
        have e3 : 18 ≤ (x / 512 - 4) * (x / 512 - 4) + (x / 512 - 0) * (x / 512 - 0)
            + (-x - -7) * (-x - -7) - 1 * 1 := by nlinarith
        have e4 : 35 ≤ (-4 - x / 512) * (-4 - x / 512) + (4 - x / 512) * (4 - x / 512)
            + (-3 - -x) * (-3 - -x) := by nlinarith
        exact lt_of_le_of_lt (sq_le_sq' e1 e2)
          (lt_of_lt_of_le (by norm_num) (mul_le_mul e3 e4 (by norm_num) (by linarith)))
    · apply Q2_shadow_misses_ground
      · show (-2 : ℝ) ≤ x / 512
        have : 0 ≤ x / 512 := by positivity
        linarith
      · show 0 < (4 : ℝ) - x / 512
        have : x / 512 < 1 := by rw [div_lt_iff₀ (by norm_num)]; linarith
        linarith
  · rw [Q2_normalize_eq (p - greenSphere.center) greenSphere.radius (by norm_num [greenSphere])
      hq.symm, Q2_normalize_eq _ _ (Vec3.len_pos _ hw) (Vec3.len_mul_self _), dot_div_div]
    exact div_pos hqw (mul_pos (by norm_num [greenSphere]) (Vec3.len_pos _ hw))

/-- Q2 `shade` at a point that is not in shadow: ambient plus diffuse plus
specular. -/
theorem Q2_shade_lit (sc : Scene) (p n v : Vec3) (mat : Material)
    (h : Q2.inShadow sc p (Q2.normalize (sc.lightPos - p)) = false) :
    Q2.shade sc p n v mat = mat.ka * Q2.lightColor
      + (mat.kd * Q2.lightColor * max (n.dot (Q2.normalize (sc.lightPos - p))) 0
        + mat.ks * Q2.lightColor * Q2.specFactor sc p n v mat) := by
  simp only [Q2.shade, Q2.specFactor, h, Bool.not_false, if_true]

/-- The specular factor of Q2 is non-negative. -/
theorem Q2_specFactor_nonneg (sc : Scene) (p n v : Vec3) (mat : Material) :
    0 ≤ Q2.specFactor sc p n v mat :=
  Real.rpow_nonneg (le_max_right _ _) _

/-- C12. In Q2 rendering the reference scene, the camera ray of pixel
`(256, 256)` has the green sphere as its nearest hit; the hit point is not in
shadow; its diffuse term `max(dot(normal, lightDir), 0)` is strictly positive; and
the colour before gamma correction has red = blue, both equal to the specular
contribution alone, and green strictly greater than the ambient `0.2`. -/
theorem center_pixel_green_lit :
    IsNearestSphere (fun s => Q2.Sphere.intersect s centerRay)
        (Q2.Plane.intersect referenceScene.ground centerRay) referenceScene.spheres
        greenSphere centerT ∧
      Q2.inShadow referenceScene centerHit
        (Q2.normalize (referenceScene.lightPos - centerHit)) = false ∧
      0 < max ((Q2.normalize (centerHit - greenSphere.center)).dot
        (Q2.normalize (referenceScene.lightPos - centerHit))) 0 ∧
      Q2.trace referenceScene centerRay
        = Q2.shade referenceScene centerHit (Q2.normalize (centerHit - greenSphere.center))
          (-centerRay.direction) green ∧
      (Q2.trace referenceScene centerRay).x = (Q2.trace referenceScene centerRay).z ∧
      (Q2.trace referenceScene centerRay).x
        = 1 / 2 * Q2.specFactor referenceScene centerHit
          (Q2.normalize (centerHit - greenSphere.center)) (-centerRay.direction) green ∧
      2 / 10 < (Q2.trace referenceScene centerRay).y := by
  obtain ⟨k, hk, hk2, hray⟩ := centerRay_form
  obtain ⟨hred, hblue⟩ := center_ray_misses_side k hk2
  obtain ⟨hgreen, htpos, ht7, h5, h501, heq⟩ := center_ray_hits_green k hk hk2
  rw [← hray] at hred hblue hgreen htpos ht7 h5 h501 heq
  have hT : greenSphere.smallRoot centerRay = centerT := rfl
  rw [hT] at hgreen htpos ht7 h5 h501 heq
  have hhit : centerHit = ⟨centerT * k / 512, centerT * k / 512, -(centerT * k)⟩ := by
    unfold centerHit
    rw [hray]
    ext <;> simp only [Vec3.add_x, Vec3.add_y, Vec3.add_z, Vec3.scale_x, Vec3.scale_y,
      Vec3.scale_z] <;> ring
  obtain ⟨hshadow, hdiff⟩ := center_hit_lit (centerT * k) h5 h501 heq
  rw [← hhit] at hshadow hdiff
  have hplane : Q2.Plane.intersect referenceScene.ground centerRay = none := by
    apply Q2_ground_missed_upward
    · rw [hray]
    · rw [hray]
      show (0 : ℝ) ≤ k / 512
      positivity
  have hnear : IsNearestSphere (fun s => Q2.Sphere.intersect s centerRay)
      (Q2.Plane.intersect referenceScene.ground centerRay) referenceScene.spheres
      greenSphere centerT := by
    refine ⟨[redSphere], [blueSphere], referenceScene_spheres, hgreen, ?_, ?_, ?_⟩
    · intro s' hs' u hu
      rw [List.mem_singleton.1 hs'] at hu
      exact absurd (hred.symm.trans hu) (by simp)
    · intro s' hs' u hu
      rw [List.mem_singleton.1 hs'] at hu
      exact absurd (hblue.symm.trans hu) (by simp)
    · intro tp h
      rw [hplane] at h
      exact Option.noConfusion h
  have hmax : centerT < FLT_MAX := lt_trans ht7 (by norm_num [FLT_MAX])
  have htrace : Q2.trace referenceScene centerRay
      = Q2.shade referenceScene centerHit (Q2.normalize (centerHit - greenSphere.center))
        (-centerRay.direction) green :=
    (Q2_trace_resolves referenceScene centerRay).2.1 greenSphere centerT hnear hmax
  have hd0 : 0 < max ((Q2.normalize (centerHit - greenSphere.center)).dot
      (Q2.normalize (referenceScene.lightPos - centerHit))) 0 := lt_max_of_lt_left hdiff
  have hspec := Q2_specFactor_nonneg referenceScene centerHit
    (Q2.normalize (centerHit - greenSphere.center)) (-centerRay.direction) green
  have hsh := Q2_shade_lit referenceScene centerHit
    (Q2.normalize (centerHit - greenSphere.center)) (-centerRay.direction) green hshadow
  have hka : green.ka = ⟨0, 2 / 10, 0⟩ := rfl
  have hkd : green.kd = ⟨0, 1 / 2, 0⟩ := rfl
  have hks : green.ks = ⟨1 / 2, 1 / 2, 1 / 2⟩ := rfl
  refine ⟨hnear, hshadow, hd0, htrace, ?_, ?_, ?_⟩
  · rw [htrace, hsh]
    simp only [Vec3.add_x, Vec3.add_z, Vec3.mul_x, Vec3.mul_z, Vec3.scale_x, Vec3.scale_z, hka,
      hkd, hks, Q2.lightColor]
  · rw [htrace, hsh]
    simp only [Vec3.add_x, Vec3.mul_x, Vec3.scale_x, hka, hkd, hks, Q2.lightColor]
    ring
  · rw [htrace, hsh]
    simp only [Vec3.add_y, Vec3.mul_y, Vec3.scale_y, hka, hkd, hks, Q2.lightColor]
    nlinarith

/-! ## Values written to the image buffer -/

/-- A ray from the origin along `normalize(w)` with `w` pointing downwards hits
a ground plane at height `g < 0` at `t = g * len / w.y`, and the hit point is
`(g * w.x / w.y, g, g * w.z / w.y)`. -/
theorem Q2_ground_hit (gp : Plane) (w : Vec3) (hg : gp.y < 0) (hy : w.y < 0) :
    Q2.Plane.intersect gp ⟨⟨0, 0, 0⟩, Q2.normalize w⟩ = some (gp.y * w.len / w.y) ∧
      0 < gp.y * w.len / w.y ∧
      (⟨0, 0, 0⟩ : Vec3) + Q2.normalize w * (gp.y * w.len / w.y)
        = ⟨gp.y * w.x / w.y, gp.y, gp.y * w.z / w.y⟩ := by
  have hw : w ≠ Vec3.zero := by
    intro h0
    rw [h0] at hy
    exact lt_irrefl _ hy
  have hl := w.len_pos hw
  have hn := Q2_normalize_eq w w.len hl w.len_mul_self
  have hdy : w.y / w.len ≠ 0 := div_ne_zero hy.ne hl.ne'
  have ht : (gp.y - 0) / (w.y / w.len) = gp.y * w.len / w.y := by
    field_simp
  have hpos : 0 < gp.y * w.len / w.y :=
    div_pos_of_neg_of_neg (mul_neg_of_neg_of_pos hg hl) hy
  refine ⟨?_, hpos, ?_⟩
  · rw [hn]
    simp only [Q2.Plane.intersect, if_neg hdy, ht, gt_iff_lt, hpos, if_true]
  · rw [hn]
    have hl0 := hl.ne'
    have hy0 := hy.ne
    ext
    · simp only [Vec3.add_x, Vec3.scale_x]; field_simp; ring
    · simp only [Vec3.add_y, Vec3.scale_y]; field_simp; ring
    · simp only [Vec3.add_z, Vec3.scale_z]; field_simp; ring

/-- Q2's traced colour when no sphere is hit and the ground is hit below the
initial `closest`. -/
theorem Q2_trace_ground (sc : Scene) (ray : Ray) (tp : ℝ)
    (hs : ∀ s ∈ sc.spheres, Q2.Sphere.intersect s ray = none)
    (hp : Q2.Plane.intersect sc.ground ray = some tp) (hmax : tp < FLT_MAX) :
    Q2.trace sc ray = Q2.groundColor sc ray tp := by
  apply (Q2_trace_resolves sc ray).2.2 tp _ hmax
  refine ⟨hp, ?_⟩
  intro s' hs' t' ht'
  exact absurd ((hs s' hs').symm.trans ht') (by simp)

/-- The length of a vector whose squared length is at most 1 is at most 1. -/
theorem Vec3.len_le_one (w : Vec3) (h : w.x * w.x + w.y * w.y + w.z * w.z ≤ 1) : w.len ≤ 1 := by
  unfold Vec3.len
  calc Real.sqrt (w.x * w.x + w.y * w.y + w.z * w.z) ≤ Real.sqrt 1 := Real.sqrt_le_sqrt h
    _ = 1 := Real.sqrt_one

/-- The point where the camera ray of pixel `(85, 85)` meets the ground. -/
theorem Q2_pixel85_trace :
    Q2.trace referenceScene (Q2.cameraRay 85 85)
      = Q2.shade referenceScene ⟨-2, -2, -(1024 / 341)⟩ ⟨0, 1, 0⟩
          (-(Q2.cameraRay 85 85).direction) gray := by
  have hform : Q2.cameraRay 85 85
      = ⟨⟨0, 0, 0⟩, Q2.normalize ⟨-(341 / 5120), -(341 / 5120), -(1 / 10)⟩⟩ := by
    simp only [Q2.cameraRay, Q2.Ray.new]
    congr 2
    ext <;> norm_num [WIDTH, HEIGHT]
  have hs : ∀ s ∈ referenceScene.spheres, Q2.Sphere.intersect s (Q2.cameraRay 85 85) = none := by
    intro s hs
    rw [hform]
    simp only [referenceScene, List.mem_cons, List.mem_singleton, List.not_mem_nil, or_false] at hs
    rcases hs with rfl | rfl | rfl <;>
      · apply Q2_intersect_none_of_normalized _ _ _ (Vec3.ne_zero_of_z _ (by norm_num))
        norm_num [Vec3.dot]
  obtain ⟨hp, hpos, hhit⟩ := Q2_ground_hit referenceScene.ground
    ⟨-(341 / 5120), -(341 / 5120), -(1 / 10)⟩ (by norm_num [referenceScene]) (by norm_num)
  have hlen := Vec3.len_le_one ⟨-(341 / 5120), -(341 / 5120), -(1 / 10)⟩ (by norm_num)
  have hl0 := Vec3.len_pos ⟨-(341 / 5120), -(341 / 5120), -(1 / 10)⟩
    (Vec3.ne_zero_of_z _ (by norm_num))
  rw [← hform] at hp
  have hmax : referenceScene.ground.y
      * (⟨-(341 / 5120), -(341 / 5120), -(1 / 10)⟩ : Vec3).len
      / (⟨-(341 / 5120), -(341 / 5120), -(1 / 10)⟩ : Vec3).y < FLT_MAX := by
    have e : referenceScene.ground.y
        * (⟨-(341 / 5120), -(341 / 5120), -(1 / 10)⟩ : Vec3).len
        / (⟨-(341 / 5120), -(341 / 5120), -(1 / 10)⟩ : Vec3).y
        = 10240 / 341 * (⟨-(341 / 5120), -(341 / 5120), -(1 / 10)⟩ : Vec3).len := by
      simp only [referenceScene]
      ring
    rw [e]
    have : (10240 / 341 : ℝ) * (⟨-(341 / 5120), -(341 / 5120), -(1 / 10)⟩ : Vec3).len
        ≤ 10240 / 341 * 1 := by
      apply mul_le_mul_of_nonneg_left hlen (by norm_num)
    refine lt_of_le_of_lt this ?_
    norm_num [FLT_MAX]
  rw [Q2_trace_ground referenceScene _ _ hs hp hmax]
  unfold Q2.groundColor
  have hpt : (Q2.cameraRay 85 85).origin + (Q2.cameraRay 85 85).direction
      * (referenceScene.ground.y * (⟨-(341 / 5120), -(341 / 5120), -(1 / 10)⟩ : Vec3).len
        / (⟨-(341 / 5120), -(341 / 5120), -(1 / 10)⟩ : Vec3).y)
      = ⟨-2, -2, -(1024 / 341)⟩ := by
    rw [hform]
    dsimp only
    rw [hhit]
    ext <;> norm_num [referenceScene]
  rw [hpt]
  rfl

/-- The ground point `(-2, -2, -1024/341)` of the reference scene is not in shadow
for Q2. -/
theorem Q2_pixel85_unshadowed :
    Q2.inShadow referenceScene ⟨-2, -2, -(1024 / 341)⟩
      (Q2.normalize (referenceScene.lightPos - ⟨-2, -2, -(1024 / 341)⟩)) = false := by
  have hw : referenceScene.lightPos - (⟨-2, -2, -(1024 / 341)⟩ : Vec3) ≠ Vec3.zero :=
    Vec3.ne_zero_of_z _ (by norm_num [referenceScene])
  apply Q2_inShadow_false
  · intro s hs
    simp only [referenceScene, List.mem_cons, List.mem_singleton, List.not_mem_nil, or_false] at hs
    rcases hs with rfl | rfl | rfl <;>
      · apply Q2_shadow_misses_of_line _ _ _ hw
        norm_num [Vec3.dot, referenceScene]
  · apply Q2_shadow_misses_ground
    · norm_num [referenceScene]
    · norm_num [referenceScene]

/-- The red channel Q2 writes for pixel `(85, 85)` of the reference scene exceeds
1. -/
theorem Q2_pixel85_exceeds_one : 1 < (Q2.renderPixel referenceScene 85 85).x := by
  have hw : referenceScene.lightPos - (⟨-2, -2, -(1024 / 341)⟩ : Vec3) ≠ Vec3.zero :=
    Vec3.ne_zero_of_z _ (by norm_num [referenceScene])
  have hl := Vec3.len_pos _ hw
  have hl2 := Vec3.len_mul_self (referenceScene.lightPos - (⟨-2, -2, -(1024 / 341)⟩ : Vec3))
  have hlt : (referenceScene.lightPos - (⟨-2, -2, -(1024 / 341)⟩ : Vec3)).len < 7 := by
    by_contra hge
    push_neg at hge
    have : (49 : ℝ) ≤ (referenceScene.lightPos - (⟨-2, -2, -(1024 / 341)⟩ : Vec3)).len
        * (referenceScene.lightPos - (⟨-2, -2, -(1024 / 341)⟩ : Vec3)).len := by nlinarith
    rw [hl2] at this
    norm_num [referenceScene] at this
  have hdot : (⟨0, 1, 0⟩ : Vec3).dot
      (Q2.normalize (referenceScene.lightPos - ⟨-2, -2, -(1024 / 341)⟩))
      = 6 / (referenceScene.lightPos - (⟨-2, -2, -(1024 / 341)⟩ : Vec3)).len := by
    rw [Q2_dot_normalize _ _ hw]
    congr 1
    norm_num [Vec3.dot, referenceScene]
  have hdiff : 6 / 7 < (⟨0, 1, 0⟩ : Vec3).dot
      (Q2.normalize (referenceScene.lightPos - ⟨-2, -2, -(1024 / 341)⟩)) := by
    rw [hdot, div_lt_div_iff₀ (by norm_num) hl]
    linarith
  have hx : 1 < (Q2.trace referenceScene (Q2.cameraRay 85 85)).x := by
    rw [Q2_pixel85_trace, Q2_shade_lit _ _ _ _ _ Q2_pixel85_unshadowed]
    have hka : gray.ka = ⟨2 / 10, 2 / 10, 2 / 10⟩ := rfl
    have hkd : gray.kd = ⟨1, 1, 1⟩ := rfl
    have hks : gray.ks = ⟨0, 0, 0⟩ := rfl
    simp only [Vec3.add_x, Vec3.mul_x, Vec3.scale_x, hka, hkd, hks, Q2.lightColor]
    have := le_max_left ((⟨0, 1, 0⟩ : Vec3).dot
      (Q2.normalize (referenceScene.lightPos - ⟨-2, -2, -(1024 / 341)⟩))) 0
    linarith
  show 1 < (Q2.trace referenceScene (Q2.cameraRay 85 85)).x ^ (1 / (22 / 10 : ℝ))
  exact Real.one_lt_rpow hx (by norm_num)

/-- Q3 `shade` at a point whose shadow ray misses every sphere: ambient plus
diffuse plus specular. -/
theorem Q3_shade_lit (sc : Scene) (p n v : Vec3) (mat : Material)
    (h : ∀ s ∈ sc.spheres, Q3.Sphere.intersect s (Q3.shadowRay sc p n) = none) :
    Q3.shade sc p n v mat = mat.ka
      + mat.kd * max 0 (n.dot (Q3.normalize (sc.lightPos - p)))
      + mat.ks * Q3.specFactor sc p n v mat := by
  have hany : sc.spheres.any (fun s => (Q3.Sphere.intersect s
      (Q3.Ray.new (p + n * (1 / 1000 : ℝ)) (Q3.normalize (sc.lightPos - p)))).isSome) = false := by
    rw [List.any_eq_false]
    intro s hmem
    have := h s hmem
    unfold Q3.shadowRay at this
    rw [this]
    simp
  simp only [Q3.shade, Q3.specFactor, hany, Bool.false_eq_true, if_false]

/-- Q3's traced colour resolves the nearest hit (the Q3 half of nearest-hit
resolution, for use on concrete pixels). -/
theorem Q3_trace_resolves (sc : Scene) (ray : Ray) :
    ResolvesNearest (fun s => Q3.Sphere.intersect s ray) (Q3.Plane.intersect sc.ground ray)
      sc.spheres (Q3.sphereColor sc ray) (Q3.groundColor sc ray) (Q3.trace sc ray) := by
  have h := scan_resolves (fun s => Q3.Sphere.intersect s ray)
    (Q3.Plane.intersect sc.ground ray) sc.spheres (Q3.sphereColor sc ray) (Q3.groundColor sc ray)
  rw [← Q3_sphereStep_eq] at h
  exact h

/-- Q3's traced colour when no sphere is hit and the ground is hit below the
initial `closest`. -/
theorem Q3_trace_ground (sc : Scene) (ray : Ray) (tp : ℝ)
    (hs : ∀ s ∈ sc.spheres, Q3.Sphere.intersect s ray = none)
    (hp : Q3.Plane.intersect sc.ground ray = some tp) (hmax : tp < FLT_MAX) :
    Q3.trace sc ray = Q3.groundColor sc ray tp := by
  apply (Q3_trace_resolves sc ray).2.2 tp _ hmax
  refine ⟨hp, ?_⟩
  intro s' hs' t' ht'
  exact absurd ((hs s' hs').symm.trans ht') (by simp)

/-- At a ground point `(X, -2, Z)` of the reference scene with `X` near `-2` and
`Z` near `-3`, Q3 `shade` with the material `gray` returns a red channel above
`1`: the point is lit almost from above and no sphere is hit by the shadow ray. -/
theorem Q3_ground_shade_exceeds (X Z : ℝ) (hX0 : -(202 / 100) ≤ X) (hX1 : X ≤ -(198 / 100))
    (hZ0 : -(302 / 100) ≤ Z) (hZ1 : Z ≤ -(299 / 100)) (v : Vec3) :
    21 / 20 < (Q3.shade referenceScene ⟨X, -2, Z⟩ ⟨0, 1, 0⟩ v gray).x := by
  have hw : referenceScene.lightPos - (⟨X, -2, Z⟩ : Vec3) ≠ Vec3.zero := by
    intro h0
    have := congrArg Vec3.y h0
    norm_num [referenceScene, Vec3.zero] at this
  have hmiss : ∀ s ∈ referenceScene.spheres,
      Q3.Sphere.intersect s (Q3.shadowRay referenceScene ⟨X, -2, Z⟩ ⟨0, 1, 0⟩) = none := by
    intro s hs
    rw [Q3_sphere_intersect_eq_Q2]
    rw [referenceScene_spheres] at hs
    simp only [List.mem_cons, List.mem_singleton, List.not_mem_nil, or_false] at hs
    have e4 : 39 ≤ (-4 - X) * (-4 - X) + (4 - -2) * (4 - -2) + (-3 - Z) * (-3 - Z) := by
      nlinarith
    rcases hs with rfl | rfl | rfl
    · apply Q2_intersect_none_of_normalized _ _ _ hw
      simp only [redSphere, referenceScene, Vec3.dot, Vec3.sub_x, Vec3.sub_y, Vec3.sub_z,
        Vec3.add_x, Vec3.add_y, Vec3.add_z, Vec3.scale_x, Vec3.scale_y, Vec3.scale_z]
      have e1 : -17 ≤ (X + 0 * (1 / 1000) - -4) * (-4 - X) + (-2 + 1 * (1 / 1000) - 0) * (4 - -2)
          + (Z + 0 * (1 / 1000) - -7) * (-3 - Z) := by nlinarith
      have e2 : (X + 0 * (1 / 1000) - -4) * (-4 - X) + (-2 + 1 * (1 / 1000) - 0) * (4 - -2)
          + (Z + 0 * (1 / 1000) - -7) * (-3 - Z) ≤ 17 := by nlinarith
      have e3 : 20 ≤ (X + 0 * (1 / 1000) - -4) * (X + 0 * (1 / 1000) - -4)
          + (-2 + 1 * (1 / 1000) - 0) * (-2 + 1 * (1 / 1000) - 0)
          + (Z + 0 * (1 / 1000) - -7) * (Z + 0 * (1 / 1000) - -7) - 1 * 1 := by nlinarith
      exact lt_of_le_of_lt (sq_le_sq' e1 e2)
        (lt_of_lt_of_le (by norm_num) (mul_le_mul e3 e4 (by norm_num) (by linarith)))
    · apply Q2_intersect_none_of_normalized _ _ _ hw
      simp only [greenSphere, referenceScene, Vec3.dot, Vec3.sub_x, Vec3.sub_y, Vec3.sub_z,
        Vec3.add_x, Vec3.add_y, Vec3.add_z, Vec3.scale_x, Vec3.scale_y, Vec3.scale_z]
      have e1 : -9 ≤ (X + 0 * (1 / 1000) - 0) * (-4 - X) + (-2 + 1 * (1 / 1000) - 0) * (4 - -2)
          + (Z + 0 * (1 / 1000) - -7) * (-3 - Z) := by nlinarith
      have e2 : (X + 0 * (1 / 1000) - 0) * (-4 - X) + (-2 + 1 * (1 / 1000) - 0) * (4 - -2)
          + (Z + 0 * (1 / 1000) - -7) * (-3 - Z) ≤ 9 := by nlinarith
      have e3 : 19 ≤ (X + 0 * (1 / 1000) - 0) * (X + 0 * (1 / 1000) - 0)
          + (-2 + 1 * (1 / 1000) - 0) * (-2 + 1 * (1 / 1000) - 0)
          + (Z + 0 * (1 / 1000) - -7) * (Z + 0 * (1 / 1000) - -7) - 2 * 2 := by nlinarith
      exact lt_of_le_of_lt (sq_le_sq' e1 e2)
        (lt_of_lt_of_le (by norm_num) (mul_le_mul e3 e4 (by norm_num) (by linarith)))
    · apply Q2_intersect_none_of_normalized _ _ _ hw
      simp only [blueSphere, referenceScene, Vec3.dot, Vec3.sub_x, Vec3.sub_y, Vec3.sub_z,
        Vec3.add_x, Vec3.add_y, Vec3.add_z, Vec3.scale_x, Vec3.scale_y, Vec3.scale_z]
      have e1 : -1 ≤ (X + 0 * (1 / 1000) - 4) * (-4 - X) + (-2 + 1 * (1 / 1000) - 0) * (4 - -2)
          + (Z + 0 * (1 / 1000) - -7) * (-3 - Z) := by nlinarith
      have e2 : (X + 0 * (1 / 1000) - 4) * (-4 - X) + (-2 + 1 * (1 / 1000) - 0) * (4 - -2)
          + (Z + 0 * (1 / 1000) - -7) * (-3 - Z) ≤ 1 := by nlinarith
      have e3 : 50 ≤ (X + 0 * (1 / 1000) - 4) * (X + 0 * (1 / 1000) - 4)
          + (-2 + 1 * (1 / 1000) - 0) * (-2 + 1 * (1 / 1000) - 0)
          + (Z + 0 * (1 / 1000) - -7) * (Z + 0 * (1 / 1000) - -7) - 1 * 1 := by nlinarith
      exact lt_of_le_of_lt (sq_le_sq' e1 e2)
        (lt_of_lt_of_le (by norm_num) (mul_le_mul e3 e4 (by norm_num) (by linarith)))
  have hl := Vec3.len_pos _ hw
  have hl2 := Vec3.len_mul_self (referenceScene.lightPos - (⟨X, -2, Z⟩ : Vec3))
  have hlt : (referenceScene.lightPos - (⟨X, -2, Z⟩ : Vec3)).len < 7 := by
    by_contra hge
    push_neg at hge
    have h49 : (49 : ℝ) ≤ (referenceScene.lightPos - (⟨X, -2, Z⟩ : Vec3)).len
        * (referenceScene.lightPos - (⟨X, -2, Z⟩ : Vec3)).len := by nlinarith
    rw [hl2] at h49
    simp only [referenceScene, Vec3.sub_x, Vec3.sub_y, Vec3.sub_z] at h49
    nlinarith
  have hdot : (⟨0, 1, 0⟩ : Vec3).dot (Q3.normalize (referenceScene.lightPos - ⟨X, -2, Z⟩))
      = 6 / (referenceScene.lightPos - (⟨X, -2, Z⟩ : Vec3)).len := by
    rw [Q3_normalize_eq_Q2, Q2_dot_normalize _ _ hw]
    congr 1
    norm_num [Vec3.dot, referenceScene]
  have hdiff : 6 / 7 < (⟨0, 1, 0⟩ : Vec3).dot
      (Q3.normalize (referenceScene.lightPos - ⟨X, -2, Z⟩)) := by
    rw [hdot, div_lt_div_iff₀ (by norm_num) hl]
    linarith
  rw [Q3_shade_lit _ _ _ _ _ hmiss]
  have hka : gray.ka = ⟨2 / 10, 2 / 10, 2 / 10⟩ := rfl
  have hkd : gray.kd = ⟨1, 1, 1⟩ := rfl
  have hks : gray.ks = ⟨0, 0, 0⟩ := rfl
  simp only [Vec3.add_x, Vec3.scale_x, hka, hkd, hks]
  have := le_max_right 0 ((⟨0, 1, 0⟩ : Vec3).dot
    (Q3.normalize (referenceScene.lightPos - ⟨X, -2, Z⟩)))
  linarith

/-- A Q3 sample ray through the near-plane point `(u, v, -0.1)` with `u` and `v`
in the range of pixel column and row 85 hits the ground of the reference scene
and is traced with a red channel above `1`. -/
theorem Q3_sample85_trace (u v : ℝ) (hu0 : -(171 / 2560) ≤ u) (hu1 : u ≤ -(85 / 1280))
    (hv0 : -(171 / 2560) ≤ v) (hv1 : v ≤ -(85 / 1280)) :
    21 / 20 < (Q3.trace referenceScene ⟨⟨0, 0, 0⟩, Q3.normalize ⟨u, v, -(1 / 10)⟩⟩).x := by
  have hne : (⟨u, v, -(1 / 10)⟩ : Vec3) ≠ Vec3.zero := Vec3.ne_zero_of_z _ (by norm_num)
  have hvneg : v < 0 := by linarith
  have hs : ∀ s ∈ referenceScene.spheres,
      Q3.Sphere.intersect s ⟨⟨0, 0, 0⟩, Q3.normalize ⟨u, v, -(1 / 10)⟩⟩ = none := by
    intro s hs
    rw [Q3_sphere_intersect_eq_Q2, Q3_normalize_eq_Q2]
    rw [referenceScene_spheres] at hs
    simp only [List.mem_cons, List.mem_singleton, List.not_mem_nil, or_false] at hs
    rcases hs with rfl | rfl | rfl
    · apply Q2_intersect_none_of_normalized _ _ _ hne
      simp only [redSphere, Vec3.dot, Vec3.sub_x, Vec3.sub_y, Vec3.sub_z]
      nlinarith
    · apply Q2_intersect_none_of_normalized _ _ _ hne
      simp only [greenSphere, Vec3.dot, Vec3.sub_x, Vec3.sub_y, Vec3.sub_z]
      nlinarith
    · apply Q2_intersect_none_of_normalized _ _ _ hne
      simp only [blueSphere, Vec3.dot, Vec3.sub_x, Vec3.sub_y, Vec3.sub_z]
      nlinarith
  obtain ⟨hp, hpos, hhit⟩ := Q2_ground_hit referenceScene.ground ⟨u, v, -(1 / 10)⟩
    (by norm_num [referenceScene]) hvneg
  have hlen : (⟨u, v, -(1 / 10)⟩ : Vec3).len ≤ 1 := by
    apply Vec3.len_le_one
    show u * u + v * v + -(1 / 10) * -(1 / 10) ≤ 1
    nlinarith
  have hl0 := Vec3.len_pos _ hne
  have hmax : referenceScene.ground.y * (⟨u, v, -(1 / 10)⟩ : Vec3).len
      / (⟨u, v, -(1 / 10)⟩ : Vec3).y < FLT_MAX := by
    have h31 : referenceScene.ground.y * (⟨u, v, -(1 / 10)⟩ : Vec3).len
        / (⟨u, v, -(1 / 10)⟩ : Vec3).y ≤ 31 := by
      show (-2 : ℝ) * (⟨u, v, -(1 / 10)⟩ : Vec3).len / v ≤ 31
      rw [div_le_iff_of_neg hvneg]
      nlinarith
    exact lt_of_le_of_lt h31 (by norm_num [FLT_MAX])
  have hp3 : Q3.Plane.intersect referenceScene.ground
      ⟨⟨0, 0, 0⟩, Q3.normalize ⟨u, v, -(1 / 10)⟩⟩
      = some (referenceScene.ground.y * (⟨u, v, -(1 / 10)⟩ : Vec3).len
        / (⟨u, v, -(1 / 10)⟩ : Vec3).y) := hp
  rw [Q3_trace_ground referenceScene _ _ hs hp3 hmax]
  unfold Q3.groundColor
  have hpt : (⟨⟨0, 0, 0⟩, Q3.normalize ⟨u, v, -(1 / 10)⟩⟩ : Ray).origin
      + (⟨⟨0, 0, 0⟩, Q3.normalize ⟨u, v, -(1 / 10)⟩⟩ : Ray).direction
        * (referenceScene.ground.y * (⟨u, v, -(1 / 10)⟩ : Vec3).len
          / (⟨u, v, -(1 / 10)⟩ : Vec3).y)
      = ⟨-2 * u / v, -2, -2 * -(1 / 10) / v⟩ := by
    dsimp only
    rw [Q3_normalize_eq_Q2, hhit]
    rfl
  rw [hpt]
  apply Q3_ground_shade_exceeds
  · rw [le_div_iff_of_neg hvneg]; nlinarith
  · rw [div_le_iff_of_neg hvneg]; nlinarith
  · rw [le_div_iff_of_neg hvneg]; nlinarith
  · rw [div_le_iff_of_neg hvneg]; nlinarith

/-- Every Q3 sample of pixel `(85, 85)` of the reference scene, for jitter draws
in `[0, 1]`, has a traced red channel above `1`. -/
theorem Q3_sample85_exceeds (j : ℝ × ℝ) (h1 : 0 ≤ j.1 ∧ j.1 ≤ 1) (h2 : 0 ≤ j.2 ∧ j.2 ≤ 1) :
    21 / 20 < (Q3.sampleColor referenceScene 85 85 j).x := by
  apply Q3_sample85_trace
  · norm_num [WIDTH]; linarith [h1.1]
  · norm_num [WIDTH]; linarith [h1.2]
  · norm_num [HEIGHT]; linarith [h2.1]
  · norm_num [HEIGHT]; linarith [h2.2]

/-- A sum of terms that each exceed `c` exceeds `c` times the number of terms,
for a non-empty list. -/
theorem sum_gt_of_each_gt (f : ℝ × ℝ → ℝ) (c : ℝ) :
    ∀ (j : ℝ × ℝ) (js : List (ℝ × ℝ)), (∀ k ∈ j :: js, c < f k) →
      c * ((j :: js).length : ℝ) < ((j :: js).map f).sum := by
  intro j js
  induction js generalizing j with
  | nil =>
    intro h
    have := h j (List.mem_cons_self j [])
    simp only [List.length_singleton, Nat.cast_one, mul_one, List.map_cons, List.map_nil,
      List.sum_cons, List.sum_nil, add_zero]
    exact this
  | cons a l ih =>
    intro h
    have h1 := h j (List.mem_cons_self j _)
    have h2 := ih a (fun k hk => h k (List.mem_cons_of_mem j hk))
    simp only [List.length_cons, Nat.cast_add, Nat.cast_one, List.map_cons, List.sum_cons] at h2 ⊢
    linarith

/-- The coefficients of the reference scene lie in `[0, 1]`. -/
theorem referenceScene_inUnitRange : referenceScene.InUnitRange := by
  constructor
  · intro s hs
    rw [referenceScene_spheres] at hs
    simp only [List.mem_cons, List.mem_singleton, List.not_mem_nil, or_false] at hs
    rcases hs with rfl | rfl | rfl
    · norm_num [Material.InUnitRange, redSphere, red]
    · norm_num [Material.InUnitRange, greenSphere, green]
    · norm_num [Material.InUnitRange, blueSphere, blue]
  · norm_num [Material.InUnitRange, referenceScene, gray]

/-- The red channel Q3 writes for pixel `(85, 85)` of the reference scene exceeds
1, whatever the jitter draws in `[0, 1]` and however many samples are taken. -/
theorem Q3_pixel85_exceeds_one (j : ℝ × ℝ) (js : List (ℝ × ℝ))
    (h : ∀ k ∈ j :: js, (0 ≤ k.1 ∧ k.1 ≤ 1) ∧ (0 ≤ k.2 ∧ k.2 ≤ 1)) :
    1 < (Q3.renderPixel referenceScene 85 85 (j :: js)).x := by
  have hsum := sum_gt_of_each_gt (fun k => (Q3.sampleColor referenceScene 85 85 k).x) (21 / 20)
    j js (fun k hk => Q3_sample85_exceeds k (h k hk).1 (h k hk).2)
  have hx := (foldl_add_channels (Q3.sampleColor referenceScene 85 85) (j :: js) ⟨0, 0, 0⟩).1
  have hN : (0 : ℝ) < ((j :: js).length : ℝ) := by
    simp only [List.length_cons, Nat.cast_add, Nat.cast_one]
    positivity
  have havg : 1 < (Q3.pixelAverage referenceScene 85 85 (j :: js)).x := by
    simp only [Q3.pixelAverage, Q3.colorSum, Vec3.scale_x, hx, zero_add, mul_one_div]
    rw [lt_div_iff₀ hN]
    linarith
  show 1 < (Q3.pixelAverage referenceScene 85 85 (j :: js)).x ^ (1 / (22 / 10 : ℝ))
  exact Real.one_lt_rpow havg (by norm_num)

/-- C11 (the code on the reference scene). The coefficients of the reference scene
lie in `[0, 1]`, yet the red channel written for pixel `(85, 85)` exceeds 1: in
Q2, and in Q3 for every non-empty list of jitter draws in `[0, 1]`. The value is
stored as computed, with no clamp. -/
theorem unclamped_pixel_exceeds_one :
    referenceScene.InUnitRange ∧ 1 < (Q2.renderPixel referenceScene 85 85).x ∧
      ∀ (j : ℝ × ℝ) (js : List (ℝ × ℝ)),
        (∀ k ∈ j :: js, (0 ≤ k.1 ∧ k.1 ≤ 1) ∧ (0 ≤ k.2 ∧ k.2 ≤ 1)) →
        1 < (Q3.renderPixel referenceScene 85 85 (j :: js)).x :=
  ⟨referenceScene_inUnitRange, Q2_pixel85_exceeds_one, Q3_pixel85_exceeds_one⟩
